import Mathlib

/-!
# Verification of the swnat software-NAT library

This file gives a shallow embedding of the swnat IPv4 NAT data plane
(packet codec, flow-pair index, port allocator, NAT table and its
outbound/inbound handlers) and proves or refutes the frozen claims about
it.  Byte buffers are modelled as `List ℕ` (each entry one octet);
machine integers are `ℕ`/`ℤ` with explicit `% 2^32` where the Go source
relies on fixed-width arithmetic.  Go maps are modelled as association
lists whose `insert` replaces the value of an existing key and prepends
new keys; Go pointer mutation of a flow record shared by the two maps is
modelled by rewriting the record in both maps.
-/

namespace Swnat

/-! ## Byte-buffer primitives -/

/-- Read one byte of a packet buffer; out-of-range reads default to 0
(handlers only read inside bounds established by the parsers). -/
def readByte (p : List ℕ) (i : ℕ) : ℕ := p.getD i 0

/-- Big-endian 16-bit read, as in binary.BigEndian.Uint16. -/
def read2 (p : List ℕ) (i : ℕ) : ℕ := readByte p i * 256 + readByte p (i + 1)

/-- Big-endian 32-bit read, as in binary.BigEndian.Uint32. -/
def read4 (p : List ℕ) (i : ℕ) : ℕ :=
  readByte p i * 16777216 + readByte p (i + 1) * 65536 +
    readByte p (i + 2) * 256 + readByte p (i + 3)

/-- Big-endian byte pair of a 16-bit value, as written by PutUint16. -/
def bytes2 (v : ℕ) : List ℕ := [v / 256, v % 256]

/-- Big-endian byte quadruple of a 32-bit value, as written by PutUint32. -/
def bytes4 (v : ℕ) : List ℕ :=
  [v / 16777216, v / 65536 % 256, v / 256 % 256, v % 256]

/-- Overwrite the bytes of `p` starting at position `i` with segment `s`:
the net effect of Go's in-place header writes into a packet buffer. -/
def splice (p : List ℕ) (i : ℕ) (s : List ℕ) : List ℕ :=
  p.take i ++ s ++ p.drop (i + s.length)

/-! ## One's-complement checksums (packet.go) -/

/-- One step of the carry-folding loop `sum = (sum & 0xFFFF) + (sum >> 16)`. -/
def foldOnce (n : ℕ) : ℕ := if 65536 ≤ n then n % 65536 + n / 65536 else n

/-- The Go carry-folding loop `for (sum >> 16) > 0`.  On every `uint32`
input (all call sites reduce the sum modulo `2^32` first) the loop runs at
most three times, after which `foldOnce` is the identity, so three
applications compute the loop exactly. -/
def foldCarry (n : ℕ) : ℕ := foldOnce (foldOnce (foldOnce n))

/-- Sum of the big-endian 16-bit words of a byte list; a trailing odd byte
counts as the high byte of a final word, as in the Go checksum loops. -/
def wordSum : List ℕ → ℕ
  | [] => 0
  | [a] => a * 256
  | a :: b :: t => (a * 256 + b) + wordSum t

/-- IPv4 header checksum of `calculateIPv4Checksum`: one's-complement sum
of the 16-bit words (accumulated in a `uint32`), carry-folded, inverted. -/
def calculateIPv4Checksum (header : List ℕ) : ℕ :=
  65535 - foldCarry (wordSum header % 4294967296)

/-- The 12-byte TCP/UDP pseudo-header `(src, dst, 0, protocol, length)`;
the length is the Go `uint16(len(data))`. -/
structure IPAddr where
  b0 : ℕ
  b1 : ℕ
  b2 : ℕ
  b3 : ℕ
deriving DecidableEq, Repr

def pseudoHeaderBytes (src dst : IPAddr) (proto : ℕ) (len : ℕ) : List ℕ :=
  [src.b0, src.b1, src.b2, src.b3, dst.b0, dst.b1, dst.b2, dst.b3,
   0, proto, len % 65536 / 256, len % 65536 % 256]

/-- TCP checksum of `calculateTCPChecksum`: pseudo-header plus segment. -/
def calculateTCPChecksum (srcIP dstIP : IPAddr) (tcpData : List ℕ) : ℕ :=
  65535 - foldCarry
    ((wordSum (pseudoHeaderBytes srcIP dstIP 6 tcpData.length) + wordSum tcpData) % 4294967296)

/-- UDP checksum of `calculateUDPChecksum`: pseudo-header plus datagram. -/
def calculateUDPChecksum (srcIP dstIP : IPAddr) (udpData : List ℕ) : ℕ :=
  65535 - foldCarry
    ((wordSum (pseudoHeaderBytes srcIP dstIP 17 udpData.length) + wordSum udpData) % 4294967296)

/-- ICMP checksum of `calculateICMPChecksum`: header plus payload only. -/
def calculateICMPChecksum (icmpData : List ℕ) : ℕ :=
  65535 - foldCarry (wordSum icmpData % 4294967296)

/-! ## Packet codec (packet.go) -/

def ProtocolICMP : ℕ := 1
def ProtocolTCP : ℕ := 6
def ProtocolUDP : ℕ := 17

structure IPv4Header where
  version : ℕ
  ihl : ℕ
  tos : ℕ
  totalLength : ℕ
  ident : ℕ
  flags : ℕ
  fragOffset : ℕ
  ttl : ℕ
  protocol : ℕ
  checksum : ℕ
  sourceIP : IPAddr
  destinationIP : IPAddr
deriving DecidableEq, Repr

/-- ParseIPv4Header: 20-byte minimum, version must be 4, IHL at least 5
and covered by the buffer. -/
def ParseIPv4Header (p : List ℕ) : Option IPv4Header :=
  if p.length < 20 then none else
  let version := readByte p 0 / 16
  let ihl := readByte p 0 % 16
  if version ≠ 4 then none else
  let headerLen := ihl * 4
  if headerLen < 20 ∨ p.length < headerLen then none else
  some { version := version, ihl := ihl, tos := readByte p 1,
         totalLength := read2 p 2, ident := read2 p 4,
         flags := read2 p 6 / 8192, fragOffset := read2 p 6 % 8192,
         ttl := readByte p 8, protocol := readByte p 9, checksum := read2 p 10,
         sourceIP := ⟨readByte p 12, readByte p 13, readByte p 14, readByte p 15⟩,
         destinationIP := ⟨readByte p 16, readByte p 17, readByte p 18, readByte p 19⟩ }

/-- The 20 bytes written by IPv4Header.Marshal, with checksum field `cks`. -/
def ipv4HeaderBytes (h : IPv4Header) (cks : ℕ) : List ℕ :=
  [h.version % 16 * 16 + h.ihl % 16, h.tos,
   h.totalLength / 256, h.totalLength % 256,
   h.ident / 256, h.ident % 256,
   (h.flags % 8 * 8192 + h.fragOffset % 8192) / 256,
   (h.flags % 8 * 8192 + h.fragOffset % 8192) % 256,
   h.ttl, h.protocol, cks / 256, cks % 256,
   h.sourceIP.b0, h.sourceIP.b1, h.sourceIP.b2, h.sourceIP.b3,
   h.destinationIP.b0, h.destinationIP.b1, h.destinationIP.b2, h.destinationIP.b3]

/-- IPv4Header.Marshal: write the header with a zero checksum field,
compute the checksum over `packet[:IHL*4]`, then write it in place. -/
def marshalIPv4 (h : IPv4Header) (p : List ℕ) : List ℕ :=
  let base := ipv4HeaderBytes h 0 ++ p.drop 20
  let cks := calculateIPv4Checksum (base.take (h.ihl * 4))
  ipv4HeaderBytes h cks ++ p.drop 20

structure TCPHeader where
  sourcePort : ℕ
  destinationPort : ℕ
  sequence : ℕ
  acknowledgment : ℕ
  dataOffset : ℕ
  flags : ℕ
  window : ℕ
  checksum : ℕ
  urgent : ℕ
deriving DecidableEq, Repr

def ParseTCPHeader (p : List ℕ) (off : ℕ) : Option TCPHeader :=
  if p.length < off + 20 then none else
  some { sourcePort := read2 p off, destinationPort := read2 p (off + 2),
         sequence := read4 p (off + 4), acknowledgment := read4 p (off + 8),
         dataOffset := readByte p (off + 12) / 16, flags := readByte p (off + 13),
         window := read2 p (off + 14), checksum := read2 p (off + 16),
         urgent := read2 p (off + 18) }

/-- The 20 bytes written by TCPHeader.Marshal (byte 12 is `DataOffset<<4`:
the reserved nibble is cleared). -/
def tcpHeaderBytes (h : TCPHeader) : List ℕ :=
  bytes2 h.sourcePort ++ bytes2 h.destinationPort ++
  bytes4 h.sequence ++ bytes4 h.acknowledgment ++
  [h.dataOffset % 16 * 16, h.flags] ++
  bytes2 h.window ++ bytes2 h.checksum ++ bytes2 h.urgent

def marshalTCP (h : TCPHeader) (p : List ℕ) (off : ℕ) : List ℕ :=
  splice p off (tcpHeaderBytes h)

structure UDPHeader where
  sourcePort : ℕ
  destinationPort : ℕ
  length : ℕ
  checksum : ℕ
deriving DecidableEq, Repr

def ParseUDPHeader (p : List ℕ) (off : ℕ) : Option UDPHeader :=
  if p.length < off + 8 then none else
  some { sourcePort := read2 p off, destinationPort := read2 p (off + 2),
         length := read2 p (off + 4), checksum := read2 p (off + 6) }

def udpHeaderBytes (h : UDPHeader) : List ℕ :=
  bytes2 h.sourcePort ++ bytes2 h.destinationPort ++
  bytes2 h.length ++ bytes2 h.checksum

def marshalUDP (h : UDPHeader) (p : List ℕ) (off : ℕ) : List ℕ :=
  splice p off (udpHeaderBytes h)

structure ICMPHeader where
  icmpType : ℕ
  code : ℕ
  checksum : ℕ
  id : ℕ
  sequence : ℕ
deriving DecidableEq, Repr

def ParseICMPHeader (p : List ℕ) (off : ℕ) : Option ICMPHeader :=
  if p.length < off + 8 then none else
  some { icmpType := readByte p off, code := readByte p (off + 1),
         checksum := read2 p (off + 2), id := read2 p (off + 4),
         sequence := read2 p (off + 6) }

def icmpHeaderBytes (h : ICMPHeader) : List ℕ :=
  [h.icmpType, h.code] ++ bytes2 h.checksum ++ bytes2 h.id ++ bytes2 h.sequence

def marshalICMP (h : ICMPHeader) (p : List ℕ) (off : ℕ) : List ℕ :=
  splice p off (icmpHeaderBytes h)

/-! ## Constants missing from src/ -/

/-- Modelled from the spec: the TCP flag bits (spec section 6, "TCP flags
bits (URG=0x20, ACK=0x10, PSH=0x08, RST=0x04, SYN=0x02, FIN=0x01)"); the
file defining these constants is not under src/. -/
def TCPFlagFIN : ℕ := 1

/-- Modelled from the spec: the SYN bit, 0x02. -/
def TCPFlagSYN : ℕ := 2

/-- Modelled from the spec: the RST bit, 0x04. -/
def TCPFlagRST : ℕ := 4

/-- Modelled from the spec: the ACK bit, 0x10. -/
def TCPFlagACK : ℕ := 16

/-- Modelled from the spec: ICMP echo reply is type 0 (spec section 4.4). -/
def ICMPTypeEchoReply : ℕ := 0

/-- Modelled from the spec: ICMP destination unreachable is type 3. -/
def ICMPTypeDestinationUnreachable : ℕ := 3

/-- Modelled from the spec: ICMP echo request is type 8. -/
def ICMPTypeEchoRequest : ℕ := 8

/-! ## Flow records, keys and the per-protocol pair (types.go, pair.go) -/

/-- A flow record (`Conn`).  `lastSeen` is an `int64`, namespaces are
opaque integers (`uintptr`). -/
structure Conn where
  lastSeen : ℤ
  protocol : ℕ
  namespace_ : ℕ
  localSrcIP : IPAddr
  localSrcPort : ℕ
  localDstIp : IPAddr
  localDstPort : ℕ
  outsideSrcIP : IPAddr
  outsideSrcPort : ℕ
  outsideDstIP : IPAddr
  outsideDstPort : ℕ
  rewriteDestination : Bool
  pendingSweep : Bool
deriving DecidableEq, Repr

structure InternalKey where
  srcIP : IPAddr
  dstIP : IPAddr
  srcPort : ℕ
  dstPort : ℕ
  namespace_ : ℕ
deriving DecidableEq, Repr

structure ExternalKey where
  srcIP : IPAddr
  dstIP : IPAddr
  srcPort : ℕ
  dstPort : ℕ
deriving DecidableEq, Repr

structure RedirectRule where
  dstIP : IPAddr
  dstPort : ℕ
  newDstIP : IPAddr
  newDstPort : ℕ
deriving DecidableEq, Repr

structure DropRule where
  dstPort : ℕ
deriving DecidableEq, Repr

/-- The internal key a flow is stored under in `out` (see addConnection). -/
def ikeyOf (c : Conn) : InternalKey :=
  ⟨c.localSrcIP, c.localDstIp, c.localSrcPort, c.localDstPort, c.namespace_⟩

/-- The external key a flow is stored under in `in` (see addConnection):
the external party appears as the source, as on an arriving packet. -/
def ekeyOf (c : Conn) : ExternalKey :=
  ⟨c.outsideDstIP, c.outsideSrcIP, c.outsideDstPort, c.outsideSrcPort⟩

/-! Association-list model of Go maps: lookup finds the entry with the
key, insertion replaces the value of an existing key and prepends a new
one, deletion removes the entry with the key. -/

def lookupM {κ α : Type} [DecidableEq κ] (l : List (κ × α)) (k : κ) : Option α :=
  (l.find? fun e => decide (e.1 = k)).map (·.2)

def insertM {κ α : Type} [DecidableEq κ] (l : List (κ × α)) (k : κ) (v : α) :
    List (κ × α) :=
  if l.any fun e => decide (e.1 = k) then
    l.map fun e => if e.1 = k then (k, v) else e
  else (k, v) :: l

def deleteM {κ α : Type} [DecidableEq κ] (l : List (κ × α)) (k : κ) : List (κ × α) :=
  l.filter fun e => decide (e.1 ≠ k)

/-- The flow-pair index for one protocol: both maps plus the rule lists. -/
structure Pair where
  out : List (InternalKey × Conn)
  inMap : List (ExternalKey × Conn)
  redirectRules : List RedirectRule
  dropRules : List DropRule
deriving DecidableEq, Repr

def emptyPair : Pair := ⟨[], [], [], []⟩

def lookupOutbound (p : Pair) (k : InternalKey) : Option Conn := lookupM p.out k

def lookupInbound (p : Pair) (k : ExternalKey) : Option Conn := lookupM p.inMap k

/-- The counting loop of addConnection: count the unswept flows of the
namespace and track the one with the smallest `lastSeen` (strictly
smaller replaces, so among ties the first in iteration order is kept). -/
def countOldest (out : List (InternalKey × Conn)) (ns : ℕ) :
    ℕ × Option (InternalKey × Conn) :=
  out.foldl
    (fun acc e =>
      if e.1.namespace_ = ns ∧ ¬e.2.pendingSweep then
        match acc.2 with
        | none => (acc.1 + 1, some e)
        | some o => if e.2.lastSeen < o.2.lastSeen then (acc.1 + 1, some e)
                    else (acc.1 + 1, some o)
      else acc)
    (0, none)

/-- addConnection: when the per-namespace cap is positive and reached,
evict the oldest unswept flow of the namespace from both maps, then
insert the new flow into both maps. -/
def addConnection (p : Pair) (conn : Conn) (maxPerNamespace : ℤ) : Pair :=
  let p1 :=
    if 0 < maxPerNamespace then
      let co := countOldest p.out conn.namespace_
      match co.2 with
      | some oldest =>
          if maxPerNamespace ≤ (co.1 : ℤ) then
            { p with out := deleteM p.out oldest.1,
                     inMap := deleteM p.inMap (ekeyOf oldest.2) }
          else p
      | none => p
    else p
  { p1 with out := insertM p1.out (ikeyOf conn) conn,
            inMap := insertM p1.inMap (ekeyOf conn) conn }

/-- removeConnection: delete the flow from both maps by its keys. -/
def removeConnection (p : Pair) (conn : Conn) : Pair :=
  { p with out := deleteM p.out (ikeyOf conn), inMap := deleteM p.inMap (ekeyOf conn) }

/-- cleanupExpired: collect every flow that is pending sweep or idle
strictly longer than the timeout, then delete all of them from both maps. -/
def cleanupExpired (p : Pair) (now timeout : ℤ) : Pair :=
  let toRemove := (p.out.map (·.2)).filter
    fun c => decide (c.pendingSweep = true ∨ now - c.lastSeen > timeout)
  { p with out := toRemove.foldl (fun m c => deleteM m (ikeyOf c)) p.out,
           inMap := toRemove.foldl (fun m c => deleteM m (ekeyOf c)) p.inMap }

/-- checkDropRule: scan the drop rules for an exact destination-port match. -/
def checkDropRule (p : Pair) (dstPort : ℕ) : Bool :=
  p.dropRules.any fun r => decide (r.dstPort = dstPort)

/-- checkRedirectRule: first rule matching both destination IP and port
wins; otherwise the destination is returned unchanged. -/
def checkRedirectRule (p : Pair) (dstIP : IPAddr) (dstPort : ℕ) :
    IPAddr × ℕ × Bool :=
  match p.redirectRules.find? fun r => decide (r.dstPort = dstPort ∧ r.dstIP = dstIP) with
  | some r => (r.newDstIP, r.newDstPort, true)
  | none => (dstIP, dstPort, false)

/-- Pointer mutation of a flow record: the record is shared by both maps,
so rewriting it is modelled by replacing it in both. -/
def updateConnPair (p : Pair) (old new : Conn) : Pair :=
  { p with out := p.out.map fun e => if e.2 = old then (e.1, new) else e,
           inMap := p.inMap.map fun e => if e.2 = old then (e.1, new) else e }

/-- Modelled from the spec: `update_last_seen(flow, now)` "writes `now`
into the flow's `last_seen`" (spec section 4.3); the file defining the
Pair method used by the inbound handlers is not under src/. -/
def updateLastSeen (p : Pair) (conn : Conn) (now : ℤ) : Pair :=
  updateConnPair p conn { conn with lastSeen := now }

/-! ## The NAT table (the Table implementation of ip_test.go's second
segment: drop/redirect rules, per-namespace cap, pending sweep) -/

structure Table where
  TCP : Pair
  UDP : Pair
  ICMP : Pair
  externalIP : IPAddr
  portCounter : ℕ
  nextPort : ℕ
  maxPort : ℕ
  maxConnPerNamespace : ℤ
  tcpTimeout : ℤ
  udpTimeout : ℤ
  icmpTimeout : ℤ
deriving DecidableEq, Repr

/-- NewIPv4 with the given external address and the configurable options
(`MaxConnPerNamespace` and the timeouts are public fields; NewIPv4
defaults them to 200 and 86400/180/30). -/
def initTable (extIP : IPAddr) (maxConn tcpT udpT icmpT : ℤ) : Table :=
  { TCP := emptyPair, UDP := emptyPair, ICMP := emptyPair,
    externalIP := extIP, portCounter := 0, nextPort := 49152, maxPort := 65535,
    maxConnPerNamespace := maxConn,
    tcpTimeout := tcpT, udpTimeout := udpT, icmpTimeout := icmpT }

/-- The attempt loop of allocatePort: a 32-bit counter is atomically
incremented, reduced modulo `maxPort - nextPort` and offset by
`nextPort`; the loop gives up after the given number of attempts. -/
def allocateAttempts (nextPort maxPort : ℕ) : ℕ → ℕ → Option (ℕ × ℕ)
  | 0, _ => none
  | fuel + 1, counter =>
      let c := (counter + 1) % 4294967296
      let port := c % (maxPort - nextPort) + nextPort
      if port ≤ maxPort then some (port, c) else allocateAttempts nextPort maxPort fuel c

/-- allocatePort: 1000 attempts of the counter loop.  The crypto-random
fallback taken when all attempts fail is not modelled (it is proved
unreachable for the table's port range in the claim about the
allocator); the dead branch returns the port range start. -/
def allocatePort (t : Table) : ℕ × Table :=
  match allocateAttempts t.nextPort t.maxPort 1000 t.portCounter with
  | some (port, c) => (port, { t with portCounter := c })
  | none => (t.nextPort, t)

/-- Outcome of HandleOutboundPacket: success, the ErrDropPacket sentinel,
or a parse (malformed-packet) error. -/
inductive OutRes where
  | ok : OutRes
  | drop : OutRes
  | malformed : OutRes
deriving DecidableEq, Repr

/-- Outcome of HandleInboundPacket: success carrying the namespace, the
ErrDropPacket sentinel, or a parse error. -/
inductive InRes where
  | ok : ℕ → InRes
  | drop : InRes
  | malformed : InRes
deriving DecidableEq, Repr

/-- The source-side rewrite of the IP header on the outbound path: set
the source to the flow's outside source; for redirected flows also set
the destination to the flow's outside destination. -/
def rewriteOutboundIP (conn : Conn) (ih : IPv4Header) : IPv4Header :=
  if conn.rewriteDestination then
    { ih with sourceIP := conn.outsideSrcIP, destinationIP := conn.outsideDstIP }
  else { ih with sourceIP := conn.outsideSrcIP }

/-- The outbound rewrite of the TCP ports. -/
def rewriteOutboundTCP (conn : Conn) (th : TCPHeader) : TCPHeader :=
  if conn.rewriteDestination then
    { th with sourcePort := conn.outsideSrcPort, destinationPort := conn.outsideDstPort }
  else { th with sourcePort := conn.outsideSrcPort }

/-- The outbound rewrite of the UDP ports. -/
def rewriteOutboundUDP (conn : Conn) (uh : UDPHeader) : UDPHeader :=
  if conn.rewriteDestination then
    { uh with sourcePort := conn.outsideSrcPort, destinationPort := conn.outsideDstPort }
  else { uh with sourcePort := conn.outsideSrcPort }

/-- The inbound restore of the IP header: destination back to the flow's
local source; for redirected flows also source back to the original
(pre-redirect) destination. -/
def restoreInboundIP (conn : Conn) (ih : IPv4Header) : IPv4Header :=
  if conn.rewriteDestination then
    { ih with destinationIP := conn.localSrcIP, sourceIP := conn.localDstIp }
  else { ih with destinationIP := conn.localSrcIP }

/-- The inbound restore of the TCP ports. -/
def restoreInboundTCP (conn : Conn) (th : TCPHeader) : TCPHeader :=
  if conn.rewriteDestination then
    { th with destinationPort := conn.localSrcPort, sourcePort := conn.localDstPort }
  else { th with destinationPort := conn.localSrcPort }

/-- The inbound restore of the UDP ports. -/
def restoreInboundUDP (conn : Conn) (uh : UDPHeader) : UDPHeader :=
  if conn.rewriteDestination then
    { uh with destinationPort := conn.localSrcPort, sourcePort := conn.localDstPort }
  else { uh with destinationPort := conn.localSrcPort }

/-- The shared serialization tail of the TCP handlers: marshal the IP and
TCP headers into the buffer, clear the TCP checksum field, recompute it
over the pseudo-header and the whole remaining buffer, write it back. -/
def serializeTCP (ih : IPv4Header) (th : TCPHeader) (p : List ℕ) (hl : ℕ) : List ℕ :=
  let p1 := marshalIPv4 ih p
  let p2 := marshalTCP th p1 hl
  let p3 := splice p2 (hl + 16) [0, 0]
  let cks := calculateTCPChecksum ih.sourceIP ih.destinationIP (p3.drop hl)
  splice p3 (hl + 16) (bytes2 cks)

/-- The shared serialization tail of the UDP handlers. -/
def serializeUDP (ih : IPv4Header) (uh : UDPHeader) (p : List ℕ) (hl : ℕ) : List ℕ :=
  let p1 := marshalIPv4 ih p
  let p2 := marshalUDP uh p1 hl
  let p3 := splice p2 (hl + 6) [0, 0]
  let cks := calculateUDPChecksum ih.sourceIP ih.destinationIP (p3.drop hl)
  splice p3 (hl + 6) (bytes2 cks)

/-- The shared serialization tail of the ICMP handlers. -/
def serializeICMP (ih : IPv4Header) (mh : ICMPHeader) (p : List ℕ) (hl : ℕ) : List ℕ :=
  let p1 := marshalIPv4 ih p
  let p2 := marshalICMP mh p1 hl
  let p3 := splice p2 (hl + 2) [0, 0]
  let cks := calculateICMPChecksum (p3.drop hl)
  splice p3 (hl + 2) (bytes2 cks)

/-- The packet rewrite and reserialization tail of handleOutboundTCP:
rewrite source (and, for redirected flows, destination), marshal the IP
and TCP headers, clear the TCP checksum field, recompute it over the
pseudo-header and the whole remaining buffer, write it back, and mark
the flow pending sweep on FIN or RST. -/
def finishOutboundTCP (t : Table) (conn : Conn) (p : List ℕ) (ih : IPv4Header)
    (th : TCPHeader) (hl : ℕ) : OutRes × List ℕ × Table :=
  let th' := rewriteOutboundTCP conn th
  let p4 := serializeTCP (rewriteOutboundIP conn ih) th' p hl
  let t' :=
    if th'.flags &&& (TCPFlagFIN ||| TCPFlagRST) ≠ 0 then
      { t with TCP := updateConnPair t.TCP conn { conn with pendingSweep := true } }
    else t
  (OutRes.ok, p4, t')

def handleOutboundTCP (t : Table) (p : List ℕ) (ih : IPv4Header) (hl : ℕ)
    (ns : ℕ) (now : ℤ) : OutRes × List ℕ × Table :=
  match ParseTCPHeader p hl with
  | none => (OutRes.malformed, p, t)
  | some th =>
    if checkDropRule t.TCP th.destinationPort then (OutRes.drop, p, t) else
    let ik : InternalKey := ⟨ih.sourceIP, ih.destinationIP, th.sourcePort, th.destinationPort, ns⟩
    match lookupOutbound t.TCP ik with
    | some conn =>
        let conn' := { conn with lastSeen := now }
        finishOutboundTCP { t with TCP := updateConnPair t.TCP conn conn' } conn' p ih th hl
    | none =>
        let rr := checkRedirectRule t.TCP ih.destinationIP th.destinationPort
        let alloc := allocatePort t
        let conn : Conn :=
          { lastSeen := now, protocol := ProtocolTCP, namespace_ := ns,
            localSrcIP := ih.sourceIP, localSrcPort := th.sourcePort,
            localDstIp := ih.destinationIP, localDstPort := th.destinationPort,
            outsideSrcIP := t.externalIP, outsideSrcPort := alloc.1,
            outsideDstIP := rr.1, outsideDstPort := rr.2.1,
            rewriteDestination := rr.2.2, pendingSweep := false }
        let t2 := { alloc.2 with TCP := addConnection alloc.2.TCP conn alloc.2.maxConnPerNamespace }
        finishOutboundTCP t2 conn p ih th hl

/-- The packet rewrite and reserialization tail of handleOutboundUDP. -/
def finishOutboundUDP (t : Table) (conn : Conn) (p : List ℕ) (ih : IPv4Header)
    (uh : UDPHeader) (hl : ℕ) : OutRes × List ℕ × Table :=
  (OutRes.ok, serializeUDP (rewriteOutboundIP conn ih) (rewriteOutboundUDP conn uh) p hl, t)

def handleOutboundUDP (t : Table) (p : List ℕ) (ih : IPv4Header) (hl : ℕ)
    (ns : ℕ) (now : ℤ) : OutRes × List ℕ × Table :=
  match ParseUDPHeader p hl with
  | none => (OutRes.malformed, p, t)
  | some uh =>
    if checkDropRule t.UDP uh.destinationPort then (OutRes.drop, p, t) else
    let ik : InternalKey := ⟨ih.sourceIP, ih.destinationIP, uh.sourcePort, uh.destinationPort, ns⟩
    match lookupOutbound t.UDP ik with
    | some conn =>
        let conn' := { conn with lastSeen := now }
        finishOutboundUDP { t with UDP := updateConnPair t.UDP conn conn' } conn' p ih uh hl
    | none =>
        let rr := checkRedirectRule t.UDP ih.destinationIP uh.destinationPort
        let alloc := allocatePort t
        let conn : Conn :=
          { lastSeen := now, protocol := ProtocolUDP, namespace_ := ns,
            localSrcIP := ih.sourceIP, localSrcPort := uh.sourcePort,
            localDstIp := ih.destinationIP, localDstPort := uh.destinationPort,
            outsideSrcIP := t.externalIP, outsideSrcPort := alloc.1,
            outsideDstIP := rr.1, outsideDstPort := rr.2.1,
            rewriteDestination := rr.2.2, pendingSweep := false }
        let t2 := { alloc.2 with UDP := addConnection alloc.2.UDP conn alloc.2.maxConnPerNamespace }
        finishOutboundUDP t2 conn p ih uh hl

/-- The packet rewrite and reserialization tail of handleOutboundICMP:
rewrite source IP (and, for redirected flows, destination IP) and the
echo identifier, then recompute the ICMP checksum over the remaining
buffer. -/
def finishOutboundICMP (t : Table) (conn : Conn) (p : List ℕ) (ih : IPv4Header)
    (mh : ICMPHeader) (hl : ℕ) : OutRes × List ℕ × Table :=
  (OutRes.ok,
   serializeICMP (rewriteOutboundIP conn ih) { mh with id := conn.outsideSrcPort } p hl, t)

def handleOutboundICMP (t : Table) (p : List ℕ) (ih : IPv4Header) (hl : ℕ)
    (ns : ℕ) (now : ℤ) : OutRes × List ℕ × Table :=
  if p.length < hl + 8 then (OutRes.malformed, p, t) else
  let icmpType := readByte p hl
  if icmpType ≠ ICMPTypeEchoRequest ∧ icmpType ≠ ICMPTypeEchoReply then
    (OutRes.ok, p, t)
  else
  match ParseICMPHeader p hl with
  | none => (OutRes.malformed, p, t)
  | some mh =>
    let ik : InternalKey := ⟨ih.sourceIP, ih.destinationIP, mh.id, 0, ns⟩
    match lookupOutbound t.ICMP ik with
    | some conn =>
        let conn' := { conn with lastSeen := now }
        finishOutboundICMP { t with ICMP := updateConnPair t.ICMP conn conn' } conn' p ih mh hl
    | none =>
        let rr := checkRedirectRule t.ICMP ih.destinationIP 0
        let alloc := allocatePort t
        let conn : Conn :=
          { lastSeen := now, protocol := ProtocolICMP, namespace_ := ns,
            localSrcIP := ih.sourceIP, localSrcPort := mh.id,
            localDstIp := ih.destinationIP, localDstPort := 0,
            outsideSrcIP := t.externalIP, outsideSrcPort := alloc.1,
            outsideDstIP := rr.1, outsideDstPort := 0,
            rewriteDestination := rr.2.2, pendingSweep := false }
        let t2 := { alloc.2 with ICMP := addConnection alloc.2.ICMP conn alloc.2.maxConnPerNamespace }
        finishOutboundICMP t2 conn p ih mh hl

/-- HandleOutboundPacket: parse the IPv4 header and dispatch on the
protocol byte; unknown protocols are dropped.  The time source hook is
passed explicitly as `now`. -/
def HandleOutboundPacket (t : Table) (p : List ℕ) (ns : ℕ) (now : ℤ) :
    OutRes × List ℕ × Table :=
  match ParseIPv4Header p with
  | none => (OutRes.malformed, p, t)
  | some ih =>
    let hl := ih.ihl * 4
    if ih.protocol = ProtocolTCP then handleOutboundTCP t p ih hl ns now
    else if ih.protocol = ProtocolUDP then handleOutboundUDP t p ih hl ns now
    else if ih.protocol = ProtocolICMP then handleOutboundICMP t p ih hl ns now
    else (OutRes.drop, p, t)

/-- The packet rewrite and reserialization tail of handleInboundTCP:
restore the destination (and, for redirected flows, the source), then
recompute the checksums and mark pending sweep on FIN or RST. -/
def finishInboundTCP (t : Table) (conn : Conn) (p : List ℕ) (ih : IPv4Header)
    (th : TCPHeader) (hl : ℕ) : InRes × List ℕ × Table :=
  let th' := restoreInboundTCP conn th
  let p4 := serializeTCP (restoreInboundIP conn ih) th' p hl
  let t' :=
    if th'.flags &&& (TCPFlagFIN ||| TCPFlagRST) ≠ 0 then
      { t with TCP := updateConnPair t.TCP conn { conn with pendingSweep := true } }
    else t
  (InRes.ok conn.namespace_, p4, t')

def handleInboundTCP (t : Table) (p : List ℕ) (ih : IPv4Header) (hl : ℕ)
    (now : ℤ) : InRes × List ℕ × Table :=
  match ParseTCPHeader p hl with
  | none => (InRes.malformed, p, t)
  | some th =>
    let ek : ExternalKey := ⟨ih.sourceIP, ih.destinationIP, th.sourcePort, th.destinationPort⟩
    match lookupInbound t.TCP ek with
    | none => (InRes.drop, p, t)
    | some conn =>
        let conn' := { conn with lastSeen := now }
        finishInboundTCP { t with TCP := updateLastSeen t.TCP conn now } conn' p ih th hl

/-- The packet rewrite and reserialization tail of handleInboundUDP. -/
def finishInboundUDP (t : Table) (conn : Conn) (p : List ℕ) (ih : IPv4Header)
    (uh : UDPHeader) (hl : ℕ) : InRes × List ℕ × Table :=
  (InRes.ok conn.namespace_,
   serializeUDP (restoreInboundIP conn ih) (restoreInboundUDP conn uh) p hl, t)

def handleInboundUDP (t : Table) (p : List ℕ) (ih : IPv4Header) (hl : ℕ)
    (now : ℤ) : InRes × List ℕ × Table :=
  match ParseUDPHeader p hl with
  | none => (InRes.malformed, p, t)
  | some uh =>
    let ek : ExternalKey := ⟨ih.sourceIP, ih.destinationIP, uh.sourcePort, uh.destinationPort⟩
    match lookupInbound t.UDP ek with
    | none => (InRes.drop, p, t)
    | some conn =>
        let conn' := { conn with lastSeen := now }
        finishInboundUDP { t with UDP := updateLastSeen t.UDP conn now } conn' p ih uh hl

/-- The packet rewrite and reserialization tail of handleInboundICMP for
echo packets: restore the destination IP and the identifier. -/
def finishInboundICMP (t : Table) (conn : Conn) (p : List ℕ) (ih : IPv4Header)
    (mh : ICMPHeader) (hl : ℕ) : InRes × List ℕ × Table :=
  (InRes.ok conn.namespace_,
   serializeICMP (restoreInboundIP conn ih) { mh with id := conn.localSrcPort } p hl, t)

def handleInboundICMP (t : Table) (p : List ℕ) (ih : IPv4Header) (hl : ℕ)
    (now : ℤ) : InRes × List ℕ × Table :=
  if p.length < hl + 8 then (InRes.malformed, p, t) else
  let icmpType := readByte p hl
  if icmpType = ICMPTypeEchoReply ∨ icmpType = ICMPTypeEchoRequest then
    match ParseICMPHeader p hl with
    | none => (InRes.malformed, p, t)
    | some mh =>
      let ek : ExternalKey := ⟨ih.sourceIP, ih.destinationIP, 0, mh.id⟩
      match lookupInbound t.ICMP ek with
      | none => (InRes.drop, p, t)
      | some conn =>
          let conn' := { conn with lastSeen := now }
          finishInboundICMP { t with ICMP := updateLastSeen t.ICMP conn now } conn' p ih mh hl
  else if icmpType = ICMPTypeDestinationUnreachable then (InRes.drop, p, t)
  else (InRes.drop, p, t)

/-- HandleInboundPacket: parse the IPv4 header and dispatch; on success
the originating namespace is returned. -/
def HandleInboundPacket (t : Table) (p : List ℕ) (now : ℤ) :
    InRes × List ℕ × Table :=
  match ParseIPv4Header p with
  | none => (InRes.malformed, p, t)
  | some ih =>
    let hl := ih.ihl * 4
    if ih.protocol = ProtocolTCP then handleInboundTCP t p ih hl now
    else if ih.protocol = ProtocolUDP then handleInboundUDP t p ih hl now
    else if ih.protocol = ProtocolICMP then handleInboundICMP t p ih hl now
    else (InRes.drop, p, t)

/-- RunMaintenance: sweep each protocol pair with its configured timeout. -/
def RunMaintenance (t : Table) (now : ℤ) : Table :=
  { t with TCP := cleanupExpired t.TCP now t.tcpTimeout,
           UDP := cleanupExpired t.UDP now t.udpTimeout,
           ICMP := cleanupExpired t.ICMP now t.icmpTimeout }

/-- AddDropRule: the switch has cases only for TCP and UDP, so any other
protocol code (including ICMP) leaves the table unchanged. -/
def AddDropRule (t : Table) (protocol : ℕ) (dstPort : ℕ) : Table :=
  if protocol = ProtocolTCP then
    { t with TCP := { t.TCP with dropRules := t.TCP.dropRules ++ [⟨dstPort⟩] } }
  else if protocol = ProtocolUDP then
    { t with UDP := { t.UDP with dropRules := t.UDP.dropRules ++ [⟨dstPort⟩] } }
  else t

/-- AddRedirectRule: the switch covers TCP, UDP and ICMP. -/
def AddRedirectRule (t : Table) (protocol : ℕ) (dstIP : IPAddr) (dstPort : ℕ)
    (newDstIP : IPAddr) (newDstPort : ℕ) : Table :=
  let rule : RedirectRule := ⟨dstIP, dstPort, newDstIP, newDstPort⟩
  if protocol = ProtocolTCP then
    { t with TCP := { t.TCP with redirectRules := t.TCP.redirectRules ++ [rule] } }
  else if protocol = ProtocolUDP then
    { t with UDP := { t.UDP with redirectRules := t.UDP.redirectRules ++ [rule] } }
  else if protocol = ProtocolICMP then
    { t with ICMP := { t.ICMP with redirectRules := t.ICMP.redirectRules ++ [rule] } }
  else t

/-- SetExternalIP. -/
def SetExternalIP (t : Table) (ip : IPAddr) : Table := { t with externalIP := ip }

/-! ## Arithmetic of the carry-folding checksum loop -/

theorem foldOnce_le (n : ℕ) : foldOnce n ≤ n := by
  unfold foldOnce
  split <;> omega

theorem foldCarry_le (n : ℕ) : foldCarry n ≤ n :=
  le_trans (foldOnce_le _) (le_trans (foldOnce_le _) (foldOnce_le _))

theorem foldOnce_mod (n : ℕ) : foldOnce n % 65535 = n % 65535 := by
  unfold foldOnce
  split
  · omega
  · rfl

theorem foldCarry_mod (n : ℕ) : foldCarry n % 65535 = n % 65535 := by
  unfold foldCarry
  rw [foldOnce_mod, foldOnce_mod, foldOnce_mod]

theorem foldOnce_pos (n : ℕ) (h : 0 < n) : 0 < foldOnce n := by
  unfold foldOnce
  split <;> omega

theorem foldCarry_pos (n : ℕ) (h : 0 < n) : 0 < foldCarry n :=
  foldOnce_pos _ (foldOnce_pos _ (foldOnce_pos _ h))

theorem foldCarry_lt (n : ℕ) (h : n < 4294967296) : foldCarry n < 65536 := by
  unfold foldCarry foldOnce
  repeat' split
  all_goals omega

/-- The one's-complement round trip: if the checksum field of a region is
filled with the complement of the folded sum of the region with that
field zeroed, then recomputing the checksum over the filled region gives
zero.  `s` is the 16-bit word sum of the region with the checksum field
zeroed (an arbitrary natural number; the Go code reduces it modulo
`2^32` by accumulating in a `uint32`). -/
theorem checksum_roundtrip (s : ℕ) :
    65535 - foldCarry ((s + (65535 - foldCarry (s % 4294967296))) % 4294967296) = 0 := by
  have hAlt : s % 4294967296 < 4294967296 := Nat.mod_lt _ (by norm_num)
  have hFle := foldCarry_le (s % 4294967296)
  have hFlt := foldCarry_lt _ hAlt
  have hFmod := foldCarry_mod (s % 4294967296)
  have hACsmall : s % 4294967296 + (65535 - foldCarry (s % 4294967296)) < 4294967296 := by
    rcases Nat.eq_zero_or_pos (s % 4294967296) with h0 | hpos
    · omega
    · have hFpos := foldCarry_pos _ hpos
      omega
  have h1 : (s + (65535 - foldCarry (s % 4294967296))) % 4294967296
      = s % 4294967296 + (65535 - foldCarry (s % 4294967296)) := by
    conv_lhs => rw [Nat.add_mod]
    rw [Nat.mod_eq_of_lt (show 65535 - foldCarry (s % 4294967296) < 4294967296 by omega),
        Nat.mod_eq_of_lt hACsmall]
  rw [h1]
  have hBposval : 0 < s % 4294967296 + (65535 - foldCarry (s % 4294967296)) := by omega
  have hBle := foldCarry_le (s % 4294967296 + (65535 - foldCarry (s % 4294967296)))
  have hBlt := foldCarry_lt _ hACsmall
  have hBmod := foldCarry_mod (s % 4294967296 + (65535 - foldCarry (s % 4294967296)))
  have hBpos := foldCarry_pos _ hBposval
  omega

/-! ## Claim C8: the port allocator -/

/-- C8.  Every call to allocatePort returns a 16-bit port in the range
49152-65535; on the table's port range (nextPort 49152, maxPort 65535,
as set by NewIPv4 and never mutated) the computed port always satisfies
`port ≤ maxPort`, so the attempt loop returns on its first iteration and
the 1000-attempt random fallback is never exercised. -/
theorem c8_allocatePort_first_iteration (t : Table)
    (h1 : t.nextPort = 49152) (h2 : t.maxPort = 65535) :
    allocateAttempts t.nextPort t.maxPort 1000 t.portCounter =
      some ((t.portCounter + 1) % 4294967296 % 16383 + 49152,
            (t.portCounter + 1) % 4294967296) ∧
    49152 ≤ (allocatePort t).1 ∧ (allocatePort t).1 ≤ 65535 := by
  have hport : (t.portCounter + 1) % 4294967296 % 16383 + 49152 ≤ 65535 := by
    have := Nat.mod_lt ((t.portCounter + 1) % 4294967296) (show 0 < 16383 by norm_num)
    omega
  have halloc : allocateAttempts t.nextPort t.maxPort 1000 t.portCounter =
      some ((t.portCounter + 1) % 4294967296 % 16383 + 49152,
            (t.portCounter + 1) % 4294967296) := by
    rw [h1, h2]
    show allocateAttempts 49152 65535 (999 + 1) t.portCounter = _
    rw [allocateAttempts]
    simp only [show (65535 : ℕ) - 49152 = 16383 from rfl]
    rw [if_pos hport]
  refine ⟨halloc, ?_, ?_⟩ <;>
    simp only [allocatePort, halloc] <;> omega

/-- C8 witness: a concrete call on a fresh table. -/
theorem c8_allocatePort_first_iteration_witness :
    (initTable ⟨1, 2, 3, 4⟩ 200 86400 180 30).nextPort = 49152 ∧
    (initTable ⟨1, 2, 3, 4⟩ 200 86400 180 30).maxPort = 65535 ∧
    (allocateAttempts 49152 65535 1000 0 = some (49153, 1) ∧
     49152 ≤ (allocatePort (initTable ⟨1, 2, 3, 4⟩ 200 86400 180 30)).1 ∧
     (allocatePort (initTable ⟨1, 2, 3, 4⟩ 200 86400 180 30)).1 ≤ 65535) :=
  ⟨rfl, rfl, c8_allocatePort_first_iteration (initTable ⟨1, 2, 3, 4⟩ 200 86400 180 30) rfl rfl⟩

/-! ## Claim C10: AddDropRule with the ICMP protocol code -/

/-- C10.  AddDropRule's switch has no ICMP case, so calling it with the
ICMP protocol code leaves the whole table (including the ICMP pair's
drop-rule list) unchanged; and the outbound ICMP handler never consults
drop rules, so no outbound ICMP packet is ever rejected with the drop
outcome, whatever the table state. -/
theorem c10_addDropRule_icmp_noop :
    (∀ (t : Table) (port : ℕ), AddDropRule t ProtocolICMP port = t) ∧
    (∀ (t : Table) (p : List ℕ) (ns : ℕ) (now : ℤ) (ih : IPv4Header),
      ParseIPv4Header p = some ih → ih.protocol = ProtocolICMP →
      (HandleOutboundPacket t p ns now).1 ≠ OutRes.drop) := by
  constructor
  · intro t port
    simp [AddDropRule, ProtocolICMP, ProtocolTCP, ProtocolUDP]
  · intro t p ns now ih hp hproto
    simp only [HandleOutboundPacket, hp, hproto, ProtocolICMP, ProtocolTCP, ProtocolUDP]
    norm_num
    simp only [handleOutboundICMP]
    split
    · simp
    · split
      · simp
      · split
        · simp
        · rename_i mh _
          rcases lookupOutbound t.ICMP ⟨ih.sourceIP, ih.destinationIP, mh.id, 0, ns⟩ with _ | conn <;>
            simp [finishOutboundICMP]

/-- C10 witness: an ICMP echo packet on a fresh table. -/
theorem c10_addDropRule_icmp_noop_witness :
    AddDropRule (initTable ⟨1, 2, 3, 4⟩ 200 86400 180 30) ProtocolICMP 80 =
      initTable ⟨1, 2, 3, 4⟩ 200 86400 180 30 ∧
    (HandleOutboundPacket (initTable ⟨1, 2, 3, 4⟩ 200 86400 180 30)
        [69, 0, 0, 28, 0, 0, 0, 0, 64, 1, 0, 0, 192, 168, 1, 100, 8, 8, 8, 8,
         8, 0, 0, 0, 4, 210, 0, 1] 7 1000).1 ≠ OutRes.drop :=
  ⟨c10_addDropRule_icmp_noop.1 _ 80,
   c10_addDropRule_icmp_noop.2 _ _ 7 1000
     ⟨4, 5, 0, 28, 0, 0, 0, 64, 1, 0, ⟨192, 168, 1, 100⟩, ⟨8, 8, 8, 8⟩⟩
     (by decide) (by decide)⟩

/-! ## Claim C7: failing handlers leave the buffer untouched -/

theorem handleOutboundTCP_not_ok_frame (t : Table) (p : List ℕ) (ih : IPv4Header)
    (hl ns : ℕ) (now : ℤ) :
    (handleOutboundTCP t p ih hl ns now).1 ≠ OutRes.ok →
    (handleOutboundTCP t p ih hl ns now).2.1 = p := by
  unfold handleOutboundTCP
  dsimp only
  repeat' split
  all_goals intro h
  all_goals first | rfl | exact absurd rfl h

theorem handleOutboundUDP_not_ok_frame (t : Table) (p : List ℕ) (ih : IPv4Header)
    (hl ns : ℕ) (now : ℤ) :
    (handleOutboundUDP t p ih hl ns now).1 ≠ OutRes.ok →
    (handleOutboundUDP t p ih hl ns now).2.1 = p := by
  unfold handleOutboundUDP
  dsimp only
  repeat' split
  all_goals intro h
  all_goals first | rfl | exact absurd rfl h

theorem handleOutboundICMP_not_ok_frame (t : Table) (p : List ℕ) (ih : IPv4Header)
    (hl ns : ℕ) (now : ℤ) :
    (handleOutboundICMP t p ih hl ns now).1 ≠ OutRes.ok →
    (handleOutboundICMP t p ih hl ns now).2.1 = p := by
  unfold handleOutboundICMP
  dsimp only
  repeat' split
  all_goals intro h
  all_goals first | rfl | exact absurd rfl h

theorem handleInboundTCP_not_ok_frame (t : Table) (p : List ℕ) (ih : IPv4Header)
    (hl : ℕ) (now : ℤ) :
    (∀ ns, (handleInboundTCP t p ih hl now).1 ≠ InRes.ok ns) →
    (handleInboundTCP t p ih hl now).2.1 = p := by
  unfold handleInboundTCP
  dsimp only
  repeat' split
  all_goals intro h
  all_goals first | rfl | exact absurd rfl (h _)

theorem handleInboundUDP_not_ok_frame (t : Table) (p : List ℕ) (ih : IPv4Header)
    (hl : ℕ) (now : ℤ) :
    (∀ ns, (handleInboundUDP t p ih hl now).1 ≠ InRes.ok ns) →
    (handleInboundUDP t p ih hl now).2.1 = p := by
  unfold handleInboundUDP
  dsimp only
  repeat' split
  all_goals intro h
  all_goals first | rfl | exact absurd rfl (h _)

theorem handleInboundICMP_not_ok_frame (t : Table) (p : List ℕ) (ih : IPv4Header)
    (hl : ℕ) (now : ℤ) :
    (∀ ns, (handleInboundICMP t p ih hl now).1 ≠ InRes.ok ns) →
    (handleInboundICMP t p ih hl now).2.1 = p := by
  unfold handleInboundICMP
  dsimp only
  repeat' split
  all_goals intro h
  all_goals first | rfl | exact absurd rfl (h _)

/-- C7.  Whenever HandleOutboundPacket or HandleInboundPacket returns the
drop outcome or a parse error (that is, anything but success), the
packet buffer comes back byte-for-byte unchanged: every failing check
happens before any rewriting, for every input packet and table state. -/
theorem c7_failure_leaves_buffer_unchanged :
    (∀ (t : Table) (p : List ℕ) (ns : ℕ) (now : ℤ),
      (HandleOutboundPacket t p ns now).1 ≠ OutRes.ok →
      (HandleOutboundPacket t p ns now).2.1 = p) ∧
    (∀ (t : Table) (p : List ℕ) (now : ℤ),
      (∀ ns, (HandleInboundPacket t p now).1 ≠ InRes.ok ns) →
      (HandleInboundPacket t p now).2.1 = p) := by
  constructor
  · intro t p ns now
    unfold HandleOutboundPacket
    split
    · intro _; rfl
    · split
      · exact handleOutboundTCP_not_ok_frame _ _ _ _ _ _
      · split
        · exact handleOutboundUDP_not_ok_frame _ _ _ _ _ _
        · split
          · exact handleOutboundICMP_not_ok_frame _ _ _ _ _ _
          · intro _; rfl
  · intro t p now
    unfold HandleInboundPacket
    split
    · intro _; rfl
    · split
      · exact handleInboundTCP_not_ok_frame _ _ _ _ _
      · split
        · exact handleInboundUDP_not_ok_frame _ _ _ _ _
        · split
          · exact handleInboundICMP_not_ok_frame _ _ _ _ _
          · intro _; rfl

/-- C7 witness: a truncated packet on a fresh table is reported malformed
and returned unchanged, in both directions. -/
theorem c7_failure_leaves_buffer_unchanged_witness :
    (HandleOutboundPacket (initTable ⟨1, 2, 3, 4⟩ 200 86400 180 30) [69, 0] 7 1000).1 ≠
        OutRes.ok ∧
    (HandleOutboundPacket (initTable ⟨1, 2, 3, 4⟩ 200 86400 180 30) [69, 0] 7 1000).2.1 =
        [69, 0] ∧
    (HandleInboundPacket (initTable ⟨1, 2, 3, 4⟩ 200 86400 180 30) [69, 0] 1000).2.1 =
        [69, 0] :=
  ⟨by decide,
   c7_failure_leaves_buffer_unchanged.1 _ _ 7 1000 (by decide),
   c7_failure_leaves_buffer_unchanged.2 _ _ 1000 (by
     intro ns h
     have hx : (HandleInboundPacket (initTable ⟨1, 2, 3, 4⟩ 200 86400 180 30)
         [69, 0] 1000).1 = InRes.malformed := by decide
     rw [hx] at h
     exact InRes.noConfusion h)⟩

/-! ## Association-list facts shared by the map-state claims -/

theorem mem_deleteM {κ α : Type} [DecidableEq κ] (l : List (κ × α)) (k : κ)
    (e : κ × α) : e ∈ deleteM l k ↔ e ∈ l ∧ e.1 ≠ k := by
  simp [deleteM, List.mem_filter]

theorem mem_foldl_deleteM {κ α β : Type} [DecidableEq κ] (f : β → κ)
    (rm : List β) (m : List (κ × α)) (e : κ × α) :
    e ∈ rm.foldl (fun m c => deleteM m (f c)) m ↔
      e ∈ m ∧ ∀ c ∈ rm, e.1 ≠ f c := by
  induction rm generalizing m with
  | nil => simp
  | cons c cs ih =>
      rw [List.foldl_cons, ih, mem_deleteM]
      constructor
      · rintro ⟨⟨hm, hk⟩, hall⟩
        exact ⟨hm, by
          intro c' hc'
          rcases List.mem_cons.mp hc' with h | h
          · exact h ▸ hk
          · exact hall c' h⟩
      · rintro ⟨hm, hall⟩
        exact ⟨⟨hm, hall c (List.mem_cons_self _ _)⟩,
          fun c' hc' => hall c' (List.mem_cons_of_mem _ hc')⟩

/-- In a list with no duplicate keys, two entries with the same key are
the same entry. -/
theorem mem_key_eq_of_nodup {κ α : Type} (l : List (κ × α))
    (hnd : (l.map (·.1)).Nodup) (e1 e2 : κ × α)
    (h1 : e1 ∈ l) (h2 : e2 ∈ l) (hk : e1.1 = e2.1) : e1 = e2 := by
  induction l with
  | nil => cases h1
  | cons a l ih =>
      rw [List.map_cons, List.nodup_cons] at hnd
      rcases List.mem_cons.mp h1 with rfl | h1'
      · rcases List.mem_cons.mp h2 with rfl | h2'
        · rfl
        · exact absurd (hk ▸ List.mem_map_of_mem (·.1) h2') hnd.1
      · rcases List.mem_cons.mp h2 with rfl | h2'
        · exact absurd (hk ▸ List.mem_map_of_mem (·.1) h1') hnd.1
        · exact ih hnd.2 h1' h2'

/-- In a list with no duplicate keys, lookup of a member entry's key
yields that entry's value. -/
theorem lookupM_eq_of_mem_nodup {κ α : Type} [DecidableEq κ]
    (l : List (κ × α)) (hnd : (l.map (·.1)).Nodup) (k : κ) (v : α)
    (h : (k, v) ∈ l) : lookupM l k = some v := by
  induction l with
  | nil => cases h
  | cons a l ih =>
      rw [List.map_cons, List.nodup_cons] at hnd
      rcases List.mem_cons.mp h with rfl | h'
      · simp [lookupM]
      · have hka : a.1 ≠ k := by
          rintro rfl
          exact hnd.1 (List.mem_map_of_mem (·.1) h')
        simpa [lookupM, List.find?_cons, hka] using ih hnd.2 h'

theorem lookupM_nil {κ α : Type} [DecidableEq κ] (k : κ) :
    lookupM ([] : List (κ × α)) k = none := rfl

theorem lookupM_cons {κ α : Type} [DecidableEq κ] (a : κ × α) (l : List (κ × α))
    (k : κ) : lookupM (a :: l) k = if a.1 = k then some a.2 else lookupM l k := by
  by_cases h : a.1 = k <;> simp [lookupM, List.find?_cons, h]

theorem lookupM_insertM_self {κ α : Type} [DecidableEq κ]
    (l : List (κ × α)) (k : κ) (v : α) : lookupM (insertM l k v) k = some v := by
  unfold insertM
  split
  · rename_i hany
    induction l with
    | nil => simp at hany
    | cons a l ih =>
        simp only [List.any_cons, Bool.or_eq_true, decide_eq_true_eq] at hany
        by_cases ha : a.1 = k
        · simp [List.map_cons, if_pos ha, lookupM_cons]
        · have hl : (l.any fun e => decide (e.1 = k)) = true := by
            rcases hany with h | h
            · exact absurd h ha
            · simpa using h
          simp only [List.map_cons, if_neg ha]
          rw [lookupM_cons, if_neg ha]
          exact ih hl
  · simp [lookupM_cons]

/-! ## Claim C6: the expiry sweep -/

/-- The removal condition of cleanupExpired: pending sweep, or idle
STRICTLY longer than the timeout. -/
def sweepCondition (c : Conn) (now timeout : ℤ) : Prop :=
  c.pendingSweep = true ∨ now - c.lastSeen > timeout

instance (c : Conn) (now timeout : ℤ) : Decidable (sweepCondition c now timeout) := by
  unfold sweepCondition
  infer_instance

/-- A flow is held by a pair when it sits in both maps under its keys. -/
def flowInPair (p : Pair) (c : Conn) : Prop :=
  (ikeyOf c, c) ∈ p.out ∧ (ekeyOf c, c) ∈ p.inMap

instance (p : Pair) (c : Conn) : Decidable (flowInPair p c) := by
  unfold flowInPair
  infer_instance

/-- Well-formedness of a pair: every entry of either map is stored under
the key derived from its flow, keys are unique in each map, and each
entry's flow is present in the other map as well. -/
def pairWF (p : Pair) : Prop :=
  (∀ e ∈ p.out, e.1 = ikeyOf e.2) ∧ (∀ e ∈ p.inMap, e.1 = ekeyOf e.2) ∧
  (p.out.map (·.1)).Nodup ∧ (p.inMap.map (·.1)).Nodup ∧
  (∀ e ∈ p.out, (ekeyOf e.2, e.2) ∈ p.inMap) ∧
  (∀ e ∈ p.inMap, (ikeyOf e.2, e.2) ∈ p.out)

instance (p : Pair) : Decidable (pairWF p) := by
  unfold pairWF
  infer_instance

/-- Projection lemma: the out map after cleanupExpired. -/
theorem cleanupExpired_out (p : Pair) (now timeout : ℤ) :
    (cleanupExpired p now timeout).out =
      ((p.out.map (·.2)).filter
        (fun c => decide (c.pendingSweep = true ∨ now - c.lastSeen > timeout))).foldl
        (fun m c => deleteM m (ikeyOf c)) p.out := rfl

/-- Projection lemma: the in map after cleanupExpired. -/
theorem cleanupExpired_in (p : Pair) (now timeout : ℤ) :
    (cleanupExpired p now timeout).inMap =
      ((p.out.map (·.2)).filter
        (fun c => decide (c.pendingSweep = true ∨ now - c.lastSeen > timeout))).foldl
        (fun m c => deleteM m (ekeyOf c)) p.inMap := rfl

/-- Behaviour of cleanupExpired on a flow of a well-formed pair: the flow
survives in both maps exactly when the sweep condition fails for it. -/
theorem cleanupExpired_flow_iff (p : Pair) (now timeout : ℤ)
    (hwf : pairWF p) (c : Conn) (hflow : flowInPair p c) :
    flowInPair (cleanupExpired p now timeout) c ↔ ¬ sweepCondition c now timeout := by
  obtain ⟨hoc, hic, hond, hind, hcross, _⟩ := hwf
  unfold flowInPair at hflow ⊢
  obtain ⟨hout, hin⟩ := hflow
  have hrm : ∀ c' : Conn,
      c' ∈ (p.out.map (·.2)).filter
        (fun c => decide (c.pendingSweep = true ∨ now - c.lastSeen > timeout)) ↔
      ((∃ e ∈ p.out, e.2 = c') ∧ sweepCondition c' now timeout) := by
    intro c'
    constructor
    · intro h
      rw [List.mem_filter] at h
      obtain ⟨hm, hcnd⟩ := h
      rw [List.mem_map] at hm
      obtain ⟨e, he, rfl⟩ := hm
      exact ⟨⟨e, he, rfl⟩, of_decide_eq_true hcnd⟩
    · rintro ⟨⟨e, he, rfl⟩, hcnd⟩
      rw [List.mem_filter]
      exact ⟨List.mem_map_of_mem _ he, decide_eq_true hcnd⟩
  constructor
  · rintro ⟨hout', _⟩
    intro hcond
    rw [cleanupExpired_out, mem_foldl_deleteM] at hout'
    exact hout'.2 c ((hrm c).mpr ⟨⟨(ikeyOf c, c), hout, rfl⟩, hcond⟩) rfl
  · intro hncond
    constructor
    · rw [cleanupExpired_out, mem_foldl_deleteM]
      refine ⟨hout, fun c' hc' hkeq => ?_⟩
      obtain ⟨⟨e', he', hval⟩, hcond'⟩ := (hrm c').mp hc'
      subst hval
      have heq : (ikeyOf c, c) = e' :=
        mem_key_eq_of_nodup p.out hond _ _ hout he' (by rw [hoc e' he']; exact hkeq)
      have hc2 : c = e'.2 := congrArg Prod.snd heq
      rw [← hc2] at hcond'
      exact hncond hcond'
    · rw [cleanupExpired_in, mem_foldl_deleteM]
      refine ⟨hin, fun c' hc' hkeq => ?_⟩
      obtain ⟨⟨e', he', hval⟩, hcond'⟩ := (hrm c').mp hc'
      subst hval
      have hin' : (ekeyOf e'.2, e'.2) ∈ p.inMap := hcross e' he'
      have heq : (ekeyOf c, c) = (ekeyOf e'.2, e'.2) :=
        mem_key_eq_of_nodup p.inMap hind _ _ hin hin' hkeq
      have hc2 : c = e'.2 := congrArg Prod.snd heq
      rw [← hc2] at hcond'
      exact hncond hcond'

/-- C6 (amended).  For every flow f of a well-formed pair present when
RunMaintenance(now) runs: f is removed from both maps exactly when f is
pending sweep or `now − last_seen > timeout` (strictly) for its
protocol's timeout; in particular a flow with `last_seen = now − timeout`
is retained, and a pending-sweep flow is removed regardless of its
timestamp. -/
theorem c6_cleanup_amended (t : Table) (now : ℤ) (c : Conn)
    (hwfT : pairWF t.TCP) (hwfU : pairWF t.UDP) (hwfI : pairWF t.ICMP) :
    (flowInPair t.TCP c →
      (flowInPair (RunMaintenance t now).TCP c ↔ ¬ sweepCondition c now t.tcpTimeout)) ∧
    (flowInPair t.UDP c →
      (flowInPair (RunMaintenance t now).UDP c ↔ ¬ sweepCondition c now t.udpTimeout)) ∧
    (flowInPair t.ICMP c →
      (flowInPair (RunMaintenance t now).ICMP c ↔ ¬ sweepCondition c now t.icmpTimeout)) :=
  ⟨fun h => cleanupExpired_flow_iff _ _ _ hwfT c h,
   fun h => cleanupExpired_flow_iff _ _ _ hwfU c h,
   fun h => cleanupExpired_flow_iff _ _ _ hwfI c h⟩

/-- A one-flow UDP table used to exercise the sweep boundary: the flow
was last seen at time 10 and the UDP timeout is 10. -/
def c6Flow : Conn :=
  { lastSeen := 10, protocol := 17, namespace_ := 7,
    localSrcIP := ⟨192, 168, 1, 100⟩, localSrcPort := 5000,
    localDstIp := ⟨8, 8, 8, 8⟩, localDstPort := 53,
    outsideSrcIP := ⟨1, 2, 3, 4⟩, outsideSrcPort := 49153,
    outsideDstIP := ⟨8, 8, 8, 8⟩, outsideDstPort := 53,
    rewriteDestination := false, pendingSweep := false }

def c6Table : Table :=
  { TCP := emptyPair,
    UDP := { out := [(ikeyOf c6Flow, c6Flow)], inMap := [(ekeyOf c6Flow, c6Flow)],
             redirectRules := [], dropRules := [] },
    ICMP := emptyPair,
    externalIP := ⟨1, 2, 3, 4⟩, portCounter := 1, nextPort := 49152, maxPort := 65535,
    maxConnPerNamespace := 200, tcpTimeout := 86400, udpTimeout := 10, icmpTimeout := 30 }

/-- C6 counterexample: the claim says a flow with
`last_seen ≤ now − timeout` is absent after run_maintenance(now), but at
the boundary `last_seen = now − timeout` (here 10 = 20 − 10) the code
keeps the flow: cleanupExpired removes only on the STRICT inequality
`now − last_seen > timeout`. -/
theorem c6_counterexample :
    c6Flow.lastSeen ≤ 20 - c6Table.udpTimeout ∧
    c6Flow.pendingSweep = false ∧
    (ikeyOf c6Flow, c6Flow) ∈ (RunMaintenance c6Table 20).UDP.out ∧
    (ekeyOf c6Flow, c6Flow) ∈ (RunMaintenance c6Table 20).UDP.inMap := by
  refine ⟨by decide, rfl, ?_, ?_⟩ <;> decide

/-- C6 witness: on the boundary table, the amended iff applies with the
sweep condition false, so the flow survives. -/
theorem c6_cleanup_amended_witness :
    pairWF c6Table.UDP ∧ flowInPair c6Table.UDP c6Flow ∧
    ¬ sweepCondition c6Flow 20 c6Table.udpTimeout ∧
    flowInPair (RunMaintenance c6Table 20).UDP c6Flow :=
  ⟨by decide, by decide, by decide,
   ((c6_cleanup_amended c6Table 20 c6Flow (by decide) (by decide) (by decide)).2.1
     (by decide)).mpr (by decide)⟩

/-! ## Claim C5: per-namespace quota and LRU eviction -/

/-- The out-map entry of a flow. -/
def flowEntry (f : ℕ → Conn) (j : ℕ) : InternalKey × Conn := (ikeyOf (f j), f j)

/-- Indices `lo + len - 1, ..., lo` in descending order: the insertion
window retained in the out map (newest first, since insertion prepends). -/
def descRange (lo len : ℕ) : List ℕ := (List.range' lo len).reverse

/-- Insert the flows `f 0, f 1, ...` in order via addConnection. -/
def insertSeq (f : ℕ → Conn) (maxConn : ℤ) : ℕ → Pair
  | 0 => emptyPair
  | i + 1 => addConnection (insertSeq f maxConn i) (f i) maxConn

theorem descRange_zero (lo : ℕ) : descRange lo 0 = [] := rfl

theorem descRange_succ (lo len : ℕ) : descRange lo (len + 1) = (lo + len) :: descRange lo len := by
  unfold descRange
  rw [List.range'_1_concat, List.reverse_append]
  rfl

theorem mem_descRange (lo len j : ℕ) : j ∈ descRange lo len ↔ lo ≤ j ∧ j < lo + len := by
  unfold descRange
  rw [List.mem_reverse, List.mem_range']
  constructor
  · rintro ⟨i, hi, rfl⟩
    omega
  · intro ⟨h1, h2⟩
    exact ⟨j - lo, by omega, by omega⟩

theorem descRange_pairwise (lo len : ℕ) : (descRange lo len).Pairwise (· > ·) := by
  unfold descRange
  rw [List.pairwise_reverse]
  exact List.pairwise_lt_range' lo len

theorem insertM_of_fresh {κ α : Type} [DecidableEq κ] (l : List (κ × α)) (k : κ)
    (v : α) (h : ∀ e ∈ l, e.1 ≠ k) : insertM l k v = (k, v) :: l := by
  unfold insertM
  have hany : ¬ (l.any fun e => decide (e.1 = k)) = true := by
    rw [List.any_eq_true]
    rintro ⟨e, he, hk⟩
    exact h e he (by simpa using hk)
  rw [if_neg hany]

/-- Characterization of the count-and-oldest fold of addConnection over a
strictly descending (newest-first) window of flows of one namespace: it
counts them all and reports the last (oldest) one. -/
theorem countOldest_fold (f : ℕ → Conn) (N m : ℕ)
    (hns : ∀ j < m, (f j).namespace_ = N)
    (hsw : ∀ j < m, (f j).pendingSweep = false)
    (hmono : ∀ i j, i < j → j < m → (f i).lastSeen < (f j).lastSeen) :
    ∀ (js : List ℕ) (cnt : ℕ) (jcur : ℕ),
      (∀ j ∈ js, j < jcur) → jcur < m → js.Pairwise (· > ·) →
      List.foldl
        (fun acc e =>
          if e.1.namespace_ = N ∧ ¬e.2.pendingSweep then
            match acc.2 with
            | none => (acc.1 + 1, some e)
            | some o => if e.2.lastSeen < o.2.lastSeen then (acc.1 + 1, some e)
                        else (acc.1 + 1, some o)
          else acc)
        (cnt, some (flowEntry f jcur)) (js.map (flowEntry f)) =
      (cnt + js.length, some (flowEntry f (js.getLastD jcur))) := by
  intro js
  induction js with
  | nil => intro cnt jcur _ _ _; simp
  | cons j js ih =>
      intro cnt jcur hlt hjm hpw
      have hj : j < jcur := hlt j (List.mem_cons_self _ _)
      have hjm' : j < m := lt_trans hj hjm
      have hcond : (flowEntry f j).1.namespace_ = N ∧ ¬(flowEntry f j).2.pendingSweep := by
        refine ⟨hns j hjm', ?_⟩
        simp [flowEntry, hsw j hjm']
      have hlast : (f j).lastSeen < (f jcur).lastSeen := hmono j jcur hj hjm
      rw [List.map_cons, List.foldl_cons, if_pos hcond]
      have : (f j).lastSeen < (f jcur).lastSeen := hlast
      simp only [flowEntry]
      rw [if_pos this]
      have hpw' := (List.pairwise_cons.mp hpw)
      have := ih (cnt + 1) j (fun x hx => hpw'.1 x hx) hjm' hpw'.2
      simp only [flowEntry] at this
      rw [this, List.getLastD_cons]
      simp only [List.length_cons, Prod.mk.injEq]
      exact ⟨by omega, trivial⟩

/-- countOldest over a nonempty descending window. -/
theorem countOldest_desc_cons (f : ℕ → Conn) (N m : ℕ)
    (hns : ∀ j < m, (f j).namespace_ = N)
    (hsw : ∀ j < m, (f j).pendingSweep = false)
    (hmono : ∀ i j, i < j → j < m → (f i).lastSeen < (f j).lastSeen)
    (j : ℕ) (js : List ℕ)
    (hlt : ∀ x ∈ j :: js, x < m) (hpw : (j :: js).Pairwise (· > ·)) :
    countOldest ((j :: js).map (flowEntry f)) N =
      (js.length + 1, some (flowEntry f (js.getLastD j))) := by
  unfold countOldest
  have hjm : j < m := hlt j (List.mem_cons_self _ _)
  have hcond : (flowEntry f j).1.namespace_ = N ∧ ¬(flowEntry f j).2.pendingSweep := by
    refine ⟨hns j hjm, ?_⟩
    simp [flowEntry, hsw j hjm]
  rw [List.map_cons, List.foldl_cons, if_pos hcond]
  have hpw' := List.pairwise_cons.mp hpw
  have := countOldest_fold f N m hns hsw hmono js 1 j (fun x hx => hpw'.1 x hx) hjm hpw'.2
  simp only [flowEntry] at this ⊢
  rw [this]
  simp only [Prod.mk.injEq]
  exact ⟨by omega, trivial⟩

/-- The out map of the insertion sequence: after `i` insertions it holds
exactly the newest `min i k` flows, newest first. -/
theorem insertSeq_out (f : ℕ → Conn) (N m k : ℕ) (hk : 0 < k)
    (hns : ∀ j < m, (f j).namespace_ = N)
    (hsw : ∀ j < m, (f j).pendingSweep = false)
    (hmono : ∀ i j, i < j → j < m → (f i).lastSeen < (f j).lastSeen)
    (hinj : ∀ i j, i < m → j < m → ikeyOf (f i) = ikeyOf (f j) → i = j) :
    ∀ i, i ≤ m → (insertSeq f (k : ℤ) i).out =
      (descRange (i - min i k) (min i k)).map (flowEntry f) := by
  intro i
  induction i with
  | zero => intro _; simp [insertSeq, emptyPair, descRange_zero]
  | succ i ih =>
      intro him
      have him' : i ≤ m := le_of_lt him
      have hiE := ih him'
      have hkZ : (0 : ℤ) < (k : ℤ) := by exact_mod_cast hk
      have hnsi : (f i).namespace_ = N := hns i (by omega)
      rcases Nat.eq_zero_or_pos i with rfl | hipos
      · -- first insertion into the empty pair: the scan finds nothing
        rw [insertSeq]
        unfold addConnection
        rw [if_pos hkZ]
        show insertM (insertSeq f (k : ℤ) 0).out (ikeyOf (f 0)) (f 0) =
          (descRange (0 + 1 - min (0 + 1) k) (min (0 + 1) k)).map (flowEntry f)
        rw [show (insertSeq f (k : ℤ) 0).out = [] from rfl]
        rw [insertM_of_fresh _ _ _ (by intro e he; cases he)]
        have h1 : min (0 + 1) k = 1 := by omega
        rw [h1, descRange_succ, descRange_zero]
        rfl
      · -- nonempty out map: the scan counts the window and finds its last
        obtain ⟨w, hw⟩ : ∃ w, min i k = w + 1 := ⟨min i k - 1, by omega⟩
        have hwle : w + 1 ≤ i := by omega
        rw [insertSeq]
        unfold addConnection
        rw [if_pos hkZ]
        dsimp only
        rw [hiE, hnsi, hw]
        have hwin : descRange (i - (w + 1)) (w + 1) = (i - 1) :: descRange (i - (w + 1)) w := by
          rw [descRange_succ]
          congr 1
          omega
        have hlt : ∀ x ∈ (i - 1) :: descRange (i - (w + 1)) w, x < m := by
          intro x hx
          rcases List.mem_cons.mp hx with rfl | hx'
          · omega
          · rw [mem_descRange] at hx'
            omega
        have hpw : ((i - 1) :: descRange (i - (w + 1)) w).Pairwise (· > ·) := by
          rw [← hwin]
          exact descRange_pairwise _ _
        have hlastD : (descRange (i - (w + 1)) w).getLastD (i - 1) = i - (w + 1) := by
          cases w with
          | zero => rw [descRange_zero]; show i - 1 = i - (0 + 1); rfl
          | succ w' =>
              rw [List.getLastD_eq_getLast?]
              unfold descRange
              rw [List.getLast?_reverse, List.range'_succ]
              simp
        have hlen : (descRange (i - (w + 1)) w).length = w := by
          unfold descRange
          rw [List.length_reverse, List.length_range']
        rw [hwin, countOldest_desc_cons f N m hns hsw hmono _ _ hlt hpw, hlastD]
        dsimp only
        rw [hlen]
        by_cases hik : i < k
        · -- window length w + 1 = i < k: no eviction
          have hwi : w + 1 = i := by omega
          rw [if_neg (by exact_mod_cast (by omega : ¬ (k ≤ w + 1)))]
          rw [hiE, hw]
          have hfresh : ∀ e ∈ (descRange (i - (w + 1)) (w + 1)).map (flowEntry f),
              e.1 ≠ ikeyOf (f i) := by
            intro e he hkey
            rw [List.mem_map] at he
            obtain ⟨j, hj, rfl⟩ := he
            rw [mem_descRange] at hj
            have := hinj j i (by omega) (by omega) (by simpa [flowEntry] using hkey)
            omega
          rw [insertM_of_fresh _ _ _ hfresh]
          have hmin' : min (i + 1) k = i + 1 := by omega
          rw [hmin']
          have hnext : descRange (i + 1 - (i + 1)) (i + 1) = i :: descRange (i - (w + 1)) (w + 1) := by
            rw [Nat.sub_self, descRange_succ]
            congr 1
            · omega
            · congr 1 <;> omega
          rw [hnext, List.map_cons]
          rfl
        · -- window length w + 1 = k: evict the oldest, then insert
          have hwk : w + 1 = k := by omega
          rw [if_pos (by exact_mod_cast (by omega : k ≤ w + 1))]
          dsimp only
          have hdel : deleteM (((i - 1) :: descRange (i - (w + 1)) w).map (flowEntry f))
              (flowEntry f (i - (w + 1))).1 =
              (descRange (i - (w + 1) + 1) w).map (flowEntry f) := by
            rw [← hwin]
            unfold deleteM
            rw [List.filter_map]
            have hfc : List.filter
                ((fun e => decide (e.1 ≠ (flowEntry f (i - (w + 1))).1)) ∘ flowEntry f)
                (descRange (i - (w + 1)) (w + 1)) =
                List.filter (fun j => decide (j ≠ i - (w + 1))) (descRange (i - (w + 1)) (w + 1)) := by
              apply List.filter_congr
              intro j hj
              rw [mem_descRange] at hj
              simp only [Function.comp_apply, decide_eq_decide, flowEntry]
              constructor
              · intro hne hjj
                exact hne (by rw [hjj])
              · intro hne hkey
                exact hne (hinj j (i - (w + 1)) (by omega) (by omega) hkey)
            rw [hfc]
            have hsplit : descRange (i - (w + 1)) (w + 1) =
                descRange (i - (w + 1) + 1) w ++ [i - (w + 1)] := by
              unfold descRange
              rw [List.range'_succ, List.reverse_cons]
            rw [hsplit, List.filter_append]
            have h1 : List.filter (fun j => decide (j ≠ i - (w + 1)))
                (descRange (i - (w + 1) + 1) w) = descRange (i - (w + 1) + 1) w := by
              rw [List.filter_eq_self]
              intro a ha
              rw [mem_descRange] at ha
              simp only [decide_eq_true_eq]
              omega
            have h2 : List.filter (fun j => decide (j ≠ i - (w + 1))) [i - (w + 1)] = [] := by
              simp
            rw [h1, h2, List.append_nil]
          rw [hdel]
          have hfresh : ∀ e ∈ (descRange (i - (w + 1) + 1) w).map (flowEntry f),
              e.1 ≠ ikeyOf (f i) := by
            intro e he hkey
            rw [List.mem_map] at he
            obtain ⟨j, hj, rfl⟩ := he
            rw [mem_descRange] at hj
            have := hinj j i (by omega) (by omega) (by simpa [flowEntry] using hkey)
            omega
          rw [insertM_of_fresh _ _ _ hfresh]
          have hmin' : min (i + 1) k = k := by omega
          rw [hmin']
          have hnext : descRange (i + 1 - k) k = i :: descRange (i - (w + 1) + 1) w := by
            rw [← hwk, descRange_succ]
            congr 1
            · omega
            · congr 1
              omega
          rw [hnext, List.map_cons]
          rfl

/-- C5.  With per-namespace cap `k > 0`, inserting `m > k` flows of one
namespace in order (distinct internal keys, strictly increasing
last-seen stamps, none pending sweep) leaves exactly `k` flows in the
out index, namely the `k` most recently inserted ones. -/
theorem c5_lru_eviction (f : ℕ → Conn) (N m k : ℕ)
    (hk : 0 < k) (hm : k < m)
    (hns : ∀ j < m, (f j).namespace_ = N)
    (hsw : ∀ j < m, (f j).pendingSweep = false)
    (hmono : ∀ i j, i < j → j < m → (f i).lastSeen < (f j).lastSeen)
    (hinj : ∀ i j, i < m → j < m → ikeyOf (f i) = ikeyOf (f j) → i = j) :
    (insertSeq f (k : ℤ) m).out.length = k ∧
    ∀ j < m, ((ikeyOf (f j), f j) ∈ (insertSeq f (k : ℤ) m).out ↔ m - k ≤ j) := by
  have hout := insertSeq_out f N m k hk hns hsw hmono hinj m (le_refl m)
  have hminm : min m k = k := by omega
  rw [hminm] at hout
  constructor
  · rw [hout, List.length_map]
    unfold descRange
    rw [List.length_reverse, List.length_range']
  · intro j hj
    rw [hout]
    constructor
    · intro hmem
      rw [List.mem_map] at hmem
      obtain ⟨j', hj', hkey⟩ := hmem
      rw [mem_descRange] at hj'
      have : j' = j := hinj j' j (by omega) hj (by
        have := congrArg Prod.fst hkey
        simpa [flowEntry] using this)
      omega
    · intro hge
      rw [List.mem_map]
      exact ⟨j, by rw [mem_descRange]; omega, rfl⟩

/-- The flow family used by the C5 witness: distinct source ports and
strictly increasing timestamps in namespace 7. -/
def c5f : ℕ → Conn := fun j =>
  { lastSeen := (j : ℤ), protocol := 17, namespace_ := 7,
    localSrcIP := ⟨192, 168, 1, 100⟩, localSrcPort := 5000 + j,
    localDstIp := ⟨8, 8, 8, 8⟩, localDstPort := 53,
    outsideSrcIP := ⟨1, 2, 3, 4⟩, outsideSrcPort := 49153 + j,
    outsideDstIP := ⟨8, 8, 8, 8⟩, outsideDstPort := 53,
    rewriteDestination := false, pendingSweep := false }

/-- C5 witness: three distinct flows inserted with cap 2; exactly the two
most recent remain. -/
theorem c5_lru_eviction_witness :
    (insertSeq c5f (2 : ℤ) 3).out.length = 2 ∧
    ¬ (ikeyOf (c5f 0), c5f 0) ∈ (insertSeq c5f (2 : ℤ) 3).out ∧
    (ikeyOf (c5f 1), c5f 1) ∈ (insertSeq c5f (2 : ℤ) 3).out ∧
    (ikeyOf (c5f 2), c5f 2) ∈ (insertSeq c5f (2 : ℤ) 3).out := by
  have h := c5_lru_eviction c5f 7 3 2 (by norm_num) (by norm_num)
    (by intro j hj; rfl)
    (by intro j hj; rfl)
    (by
      intro i j hij hj
      simp only [c5f]
      omega)
    (by
      intro i j hi hj hkey
      have := congrArg InternalKey.srcPort hkey
      simpa [c5f, ikeyOf] using this)
  refine ⟨h.1, ?_, ?_, ?_⟩
  · intro hmem
    have := (h.2 0 (by norm_num)).mp hmem
    omega
  · exact (h.2 1 (by norm_num)).mpr (by norm_num)
  · exact (h.2 2 (by norm_num)).mpr (by norm_num)

/-! ## Byte-level facts about the serialization pipeline -/

theorem length_ipv4HeaderBytes (h : IPv4Header) (cks : ℕ) :
    (ipv4HeaderBytes h cks).length = 20 := rfl

theorem length_udpHeaderBytes (h : UDPHeader) : (udpHeaderBytes h).length = 8 := rfl

theorem length_tcpHeaderBytes (h : TCPHeader) : (tcpHeaderBytes h).length = 20 := rfl

theorem length_icmpHeaderBytes (h : ICMPHeader) : (icmpHeaderBytes h).length = 8 := rfl

theorem length_bytes2 (v : ℕ) : (bytes2 v).length = 2 := rfl

theorem drop2_bytes2 (v : ℕ) (t : List ℕ) : (bytes2 v ++ t).drop 2 = t := rfl

theorem drop2_zeros (t : List ℕ) : (([0, 0] : List ℕ) ++ t).drop 2 = t := rfl

/-- Writing a segment right at the end of a known prefix. -/
theorem splice_eq_of_len (A B seg : List ℕ) (i : ℕ) (h : A.length = i) :
    splice (A ++ B) i seg = A ++ (seg ++ B.drop seg.length) := by
  subst h
  unfold splice
  rw [List.take_left, List.drop_append, List.append_assoc]

theorem wordSum_append_even : ∀ (a : List ℕ), a.length % 2 = 0 →
    ∀ b, wordSum (a ++ b) = wordSum a + wordSum b
  | [], _, b => by simp [wordSum]
  | [x], h, _ => by simp at h
  | x :: y :: t, h, b => by
      have ht : t.length % 2 = 0 := by
        simp only [List.length_cons] at h
        omega
      show (x * 256 + y) + wordSum (t ++ b) = (x * 256 + y) + wordSum t + wordSum b
      rw [wordSum_append_even t ht b]
      ring

theorem wordSum_ipv4HeaderBytes (h : IPv4Header) (cks : ℕ) :
    wordSum (ipv4HeaderBytes h cks) = wordSum (ipv4HeaderBytes h 0) + cks := by
  simp only [ipv4HeaderBytes, wordSum]
  omega

/-- Parsing a marshalled IPv4 header followed by anything: the fields
come back (with flags and fragment offset canonicalized to their field
widths, as the marshaller wrote them). -/
theorem ParseIPv4Header_normal (h : IPv4Header) (cks : ℕ) (rest : List ℕ)
    (hv : h.version = 4) (h5 : 5 ≤ h.ihl) (h16 : h.ihl < 16)
    (hlen : h.ihl * 4 ≤ 20 + rest.length) :
    ParseIPv4Header (ipv4HeaderBytes h cks ++ rest) =
      some { version := 4, ihl := h.ihl, tos := h.tos, totalLength := h.totalLength,
             ident := h.ident, flags := h.flags % 8, fragOffset := h.fragOffset % 8192,
             ttl := h.ttl, protocol := h.protocol, checksum := cks,
             sourceIP := h.sourceIP, destinationIP := h.destinationIP } := by
  have hL : (ipv4HeaderBytes h cks ++ rest).length = 20 + rest.length := by
    simp [ipv4HeaderBytes]
    omega
  have e0 : readByte (ipv4HeaderBytes h cks ++ rest) 0 = h.version % 16 * 16 + h.ihl % 16 := rfl
  have e1 : readByte (ipv4HeaderBytes h cks ++ rest) 1 = h.tos := rfl
  have e2 : readByte (ipv4HeaderBytes h cks ++ rest) 2 = h.totalLength / 256 := rfl
  have e3 : readByte (ipv4HeaderBytes h cks ++ rest) 3 = h.totalLength % 256 := rfl
  have e4 : readByte (ipv4HeaderBytes h cks ++ rest) 4 = h.ident / 256 := rfl
  have e5 : readByte (ipv4HeaderBytes h cks ++ rest) 5 = h.ident % 256 := rfl
  have e6 : readByte (ipv4HeaderBytes h cks ++ rest) 6 =
      (h.flags % 8 * 8192 + h.fragOffset % 8192) / 256 := rfl
  have e7 : readByte (ipv4HeaderBytes h cks ++ rest) 7 =
      (h.flags % 8 * 8192 + h.fragOffset % 8192) % 256 := rfl
  have e8 : readByte (ipv4HeaderBytes h cks ++ rest) 8 = h.ttl := rfl
  have e9 : readByte (ipv4HeaderBytes h cks ++ rest) 9 = h.protocol := rfl
  have e10 : readByte (ipv4HeaderBytes h cks ++ rest) 10 = cks / 256 := rfl
  have e11 : readByte (ipv4HeaderBytes h cks ++ rest) 11 = cks % 256 := rfl
  have e12 : readByte (ipv4HeaderBytes h cks ++ rest) 12 = h.sourceIP.b0 := rfl
  have e13 : readByte (ipv4HeaderBytes h cks ++ rest) 13 = h.sourceIP.b1 := rfl
  have e14 : readByte (ipv4HeaderBytes h cks ++ rest) 14 = h.sourceIP.b2 := rfl
  have e15 : readByte (ipv4HeaderBytes h cks ++ rest) 15 = h.sourceIP.b3 := rfl
  have e16 : readByte (ipv4HeaderBytes h cks ++ rest) 16 = h.destinationIP.b0 := rfl
  have e17 : readByte (ipv4HeaderBytes h cks ++ rest) 17 = h.destinationIP.b1 := rfl
  have e18 : readByte (ipv4HeaderBytes h cks ++ rest) 18 = h.destinationIP.b2 := rfl
  have e19 : readByte (ipv4HeaderBytes h cks ++ rest) 19 = h.destinationIP.b3 := rfl
  unfold ParseIPv4Header read2
  rw [hL, e0, e1, e2, e3, e4, e5, e6, e7, e8, e9, e10, e11, e12, e13, e14, e15,
    e16, e17, e18, e19, hv]
  rw [if_neg (by omega)]
  rw [if_neg (by
    simp only [ne_eq, Decidable.not_not]
    omega)]
  rw [if_neg (by
    rintro (hc | hc) <;> omega)]
  simp only [Option.some.injEq, IPv4Header.mk.injEq]
  exact ⟨by omega, by omega, trivial, by omega, by omega, by omega, by omega, trivial,
    trivial, by omega, trivial, trivial⟩

/-- Normal form of the UDP serialization tail: the marshalled IP header
with its recomputed checksum, the untouched IP options, the rewritten
UDP header with its recomputed checksum, and the untouched payload. -/
theorem serializeUDP_eq (ih : IPv4Header) (uh : UDPHeader) (p : List ℕ) (hl : ℕ)
    (hhl : hl = ih.ihl * 4) (h20 : 20 ≤ hl) (hlen : hl + 8 ≤ p.length) :
    serializeUDP ih uh p hl =
      ipv4HeaderBytes ih
          (calculateIPv4Checksum (ipv4HeaderBytes ih 0 ++ (p.drop 20).take (hl - 20))) ++
        ((p.drop 20).take (hl - 20) ++
          ((bytes2 uh.sourcePort ++ (bytes2 uh.destinationPort ++ bytes2 uh.length)) ++
            (bytes2 (calculateUDPChecksum ih.sourceIP ih.destinationIP
                ((bytes2 uh.sourcePort ++ (bytes2 uh.destinationPort ++ bytes2 uh.length)) ++
                  ([0, 0] ++ p.drop (hl + 8)))) ++
              p.drop (hl + 8)))) := by
  have hmid : ((p.drop 20).take (hl - 20)).length = hl - 20 := by
    rw [List.length_take, List.length_drop]
    omega
  have hstep1 : marshalIPv4 ih p =
      ipv4HeaderBytes ih
        (calculateIPv4Checksum (ipv4HeaderBytes ih 0 ++ (p.drop 20).take (hl - 20))) ++
      p.drop 20 := by
    unfold marshalIPv4
    dsimp only
    rw [← hhl]
    rw [List.take_append_eq_append_take,
      List.take_of_length_le (by rw [length_ipv4HeaderBytes]; omega),
      length_ipv4HeaderBytes]
  have hstep2 : marshalUDP uh
      (ipv4HeaderBytes ih
          (calculateIPv4Checksum (ipv4HeaderBytes ih 0 ++ (p.drop 20).take (hl - 20))) ++
        p.drop 20) hl =
      (ipv4HeaderBytes ih
          (calculateIPv4Checksum (ipv4HeaderBytes ih 0 ++ (p.drop 20).take (hl - 20))) ++
        (p.drop 20).take (hl - 20)) ++
      (udpHeaderBytes uh ++ p.drop (hl + 8)) := by
    unfold marshalUDP
    have hsplit : ipv4HeaderBytes ih
          (calculateIPv4Checksum (ipv4HeaderBytes ih 0 ++ (p.drop 20).take (hl - 20))) ++
        p.drop 20 =
        (ipv4HeaderBytes ih
            (calculateIPv4Checksum (ipv4HeaderBytes ih 0 ++ (p.drop 20).take (hl - 20))) ++
          (p.drop 20).take (hl - 20)) ++ ((p.drop 20).drop (hl - 20)) := by
      rw [List.append_assoc]
      congr 1
      exact (List.take_append_drop _ _).symm
    rw [hsplit, splice_eq_of_len _ _ _ _
      (by rw [List.length_append, length_ipv4HeaderBytes, hmid]; omega)]
    rw [length_udpHeaderBytes, List.drop_drop, List.drop_drop]
    rw [show 20 + (hl - 20 + 8) = hl + 8 from by omega]
  rw [show serializeUDP ih uh p hl =
      splice (splice (marshalUDP uh (marshalIPv4 ih p) hl) (hl + 6) [0, 0]) (hl + 6)
        (bytes2 (calculateUDPChecksum ih.sourceIP ih.destinationIP
          ((splice (marshalUDP uh (marshalIPv4 ih p) hl) (hl + 6) [0, 0]).drop hl)))
    from rfl]
  rw [hstep1, hstep2]
  have hstep3 : splice
      ((ipv4HeaderBytes ih
          (calculateIPv4Checksum (ipv4HeaderBytes ih 0 ++ (p.drop 20).take (hl - 20))) ++
        (p.drop 20).take (hl - 20)) ++ (udpHeaderBytes uh ++ p.drop (hl + 8)))
      (hl + 6) [0, 0] =
      ((ipv4HeaderBytes ih
          (calculateIPv4Checksum (ipv4HeaderBytes ih 0 ++ (p.drop 20).take (hl - 20))) ++
        (p.drop 20).take (hl - 20)) ++
        (bytes2 uh.sourcePort ++ (bytes2 uh.destinationPort ++ bytes2 uh.length))) ++
      ([0, 0] ++ p.drop (hl + 8)) := by
    have hre : (ipv4HeaderBytes ih
          (calculateIPv4Checksum (ipv4HeaderBytes ih 0 ++ (p.drop 20).take (hl - 20))) ++
        (p.drop 20).take (hl - 20)) ++ (udpHeaderBytes uh ++ p.drop (hl + 8)) =
        ((ipv4HeaderBytes ih
            (calculateIPv4Checksum (ipv4HeaderBytes ih 0 ++ (p.drop 20).take (hl - 20))) ++
          (p.drop 20).take (hl - 20)) ++
          (bytes2 uh.sourcePort ++ (bytes2 uh.destinationPort ++ bytes2 uh.length))) ++
        (bytes2 uh.checksum ++ p.drop (hl + 8)) := by
      simp only [udpHeaderBytes, List.append_assoc]
    rw [hre, splice_eq_of_len _ _ _ _ (by
      simp only [List.length_append, length_ipv4HeaderBytes, length_bytes2, hmid]
      omega)]
    rw [show (([0, 0] : List ℕ)).length = 2 from rfl, drop2_bytes2]
  rw [hstep3]
  have hdrop : (((ipv4HeaderBytes ih
        (calculateIPv4Checksum (ipv4HeaderBytes ih 0 ++ (p.drop 20).take (hl - 20))) ++
      (p.drop 20).take (hl - 20)) ++
      (bytes2 uh.sourcePort ++ (bytes2 uh.destinationPort ++ bytes2 uh.length))) ++
      ([0, 0] ++ p.drop (hl + 8))).drop hl =
      (bytes2 uh.sourcePort ++ (bytes2 uh.destinationPort ++ bytes2 uh.length)) ++
      ([0, 0] ++ p.drop (hl + 8)) := by
    have hre : ((ipv4HeaderBytes ih
          (calculateIPv4Checksum (ipv4HeaderBytes ih 0 ++ (p.drop 20).take (hl - 20))) ++
        (p.drop 20).take (hl - 20)) ++
        (bytes2 uh.sourcePort ++ (bytes2 uh.destinationPort ++ bytes2 uh.length))) ++
        ([0, 0] ++ p.drop (hl + 8)) =
        (ipv4HeaderBytes ih
            (calculateIPv4Checksum (ipv4HeaderBytes ih 0 ++ (p.drop 20).take (hl - 20))) ++
          (p.drop 20).take (hl - 20)) ++
        ((bytes2 uh.sourcePort ++ (bytes2 uh.destinationPort ++ bytes2 uh.length)) ++
          ([0, 0] ++ p.drop (hl + 8))) := by
      simp only [List.append_assoc]
    rw [hre]
    exact List.drop_left' (by rw [List.length_append, length_ipv4HeaderBytes, hmid]; omega)
  rw [hdrop]
  have hstep4 : splice
      (((ipv4HeaderBytes ih
          (calculateIPv4Checksum (ipv4HeaderBytes ih 0 ++ (p.drop 20).take (hl - 20))) ++
        (p.drop 20).take (hl - 20)) ++
        (bytes2 uh.sourcePort ++ (bytes2 uh.destinationPort ++ bytes2 uh.length))) ++
        ([0, 0] ++ p.drop (hl + 8)))
      (hl + 6)
      (bytes2 (calculateUDPChecksum ih.sourceIP ih.destinationIP
        ((bytes2 uh.sourcePort ++ (bytes2 uh.destinationPort ++ bytes2 uh.length)) ++
          ([0, 0] ++ p.drop (hl + 8))))) =
      ((ipv4HeaderBytes ih
          (calculateIPv4Checksum (ipv4HeaderBytes ih 0 ++ (p.drop 20).take (hl - 20))) ++
        (p.drop 20).take (hl - 20)) ++
        (bytes2 uh.sourcePort ++ (bytes2 uh.destinationPort ++ bytes2 uh.length))) ++
      (bytes2 (calculateUDPChecksum ih.sourceIP ih.destinationIP
        ((bytes2 uh.sourcePort ++ (bytes2 uh.destinationPort ++ bytes2 uh.length)) ++
          ([0, 0] ++ p.drop (hl + 8)))) ++ p.drop (hl + 8)) := by
    rw [splice_eq_of_len _ _ _ _ (by
      simp only [List.length_append, length_ipv4HeaderBytes, length_bytes2, hmid]
      omega)]
    rw [length_bytes2, drop2_zeros]
  rw [hstep4]
  simp only [List.append_assoc]

theorem length_bytes4 (v : ℕ) : (bytes4 v).length = 4 := rfl

/-- Normal form of the TCP serialization tail. -/
theorem serializeTCP_eq (ih : IPv4Header) (th : TCPHeader) (p : List ℕ) (hl : ℕ)
    (hhl : hl = ih.ihl * 4) (h20 : 20 ≤ hl) (hlen : hl + 20 ≤ p.length) :
    serializeTCP ih th p hl =
      ipv4HeaderBytes ih
          (calculateIPv4Checksum (ipv4HeaderBytes ih 0 ++ (p.drop 20).take (hl - 20))) ++
        ((p.drop 20).take (hl - 20) ++
          ((bytes2 th.sourcePort ++ (bytes2 th.destinationPort ++ (bytes4 th.sequence ++
              (bytes4 th.acknowledgment ++
                ([th.dataOffset % 16 * 16, th.flags] ++ bytes2 th.window))))) ++
            (bytes2 (calculateTCPChecksum ih.sourceIP ih.destinationIP
                ((bytes2 th.sourcePort ++ (bytes2 th.destinationPort ++ (bytes4 th.sequence ++
                    (bytes4 th.acknowledgment ++
                      ([th.dataOffset % 16 * 16, th.flags] ++ bytes2 th.window))))) ++
                  ([0, 0] ++ (bytes2 th.urgent ++ p.drop (hl + 20))))) ++
              (bytes2 th.urgent ++ p.drop (hl + 20))))) := by
  have hmid : ((p.drop 20).take (hl - 20)).length = hl - 20 := by
    rw [List.length_take, List.length_drop]
    omega
  have hstep1 : marshalIPv4 ih p =
      ipv4HeaderBytes ih
        (calculateIPv4Checksum (ipv4HeaderBytes ih 0 ++ (p.drop 20).take (hl - 20))) ++
      p.drop 20 := by
    unfold marshalIPv4
    dsimp only
    rw [← hhl]
    rw [List.take_append_eq_append_take,
      List.take_of_length_le (by rw [length_ipv4HeaderBytes]; omega),
      length_ipv4HeaderBytes]
  have hstep2 : marshalTCP th
      (ipv4HeaderBytes ih
          (calculateIPv4Checksum (ipv4HeaderBytes ih 0 ++ (p.drop 20).take (hl - 20))) ++
        p.drop 20) hl =
      (ipv4HeaderBytes ih
          (calculateIPv4Checksum (ipv4HeaderBytes ih 0 ++ (p.drop 20).take (hl - 20))) ++
        (p.drop 20).take (hl - 20)) ++
      (tcpHeaderBytes th ++ p.drop (hl + 20)) := by
    unfold marshalTCP
    have hsplit : ipv4HeaderBytes ih
          (calculateIPv4Checksum (ipv4HeaderBytes ih 0 ++ (p.drop 20).take (hl - 20))) ++
        p.drop 20 =
        (ipv4HeaderBytes ih
            (calculateIPv4Checksum (ipv4HeaderBytes ih 0 ++ (p.drop 20).take (hl - 20))) ++
          (p.drop 20).take (hl - 20)) ++ ((p.drop 20).drop (hl - 20)) := by
      rw [List.append_assoc]
      congr 1
      exact (List.take_append_drop _ _).symm
    rw [hsplit, splice_eq_of_len _ _ _ _
      (by rw [List.length_append, length_ipv4HeaderBytes, hmid]; omega)]
    rw [length_tcpHeaderBytes, List.drop_drop, List.drop_drop]
    rw [show 20 + (hl - 20 + 20) = hl + 20 from by omega]
  rw [show serializeTCP ih th p hl =
      splice (splice (marshalTCP th (marshalIPv4 ih p) hl) (hl + 16) [0, 0]) (hl + 16)
        (bytes2 (calculateTCPChecksum ih.sourceIP ih.destinationIP
          ((splice (marshalTCP th (marshalIPv4 ih p) hl) (hl + 16) [0, 0]).drop hl)))
    from rfl]
  rw [hstep1, hstep2]
  have hstep3 : splice
      ((ipv4HeaderBytes ih
          (calculateIPv4Checksum (ipv4HeaderBytes ih 0 ++ (p.drop 20).take (hl - 20))) ++
        (p.drop 20).take (hl - 20)) ++ (tcpHeaderBytes th ++ p.drop (hl + 20)))
      (hl + 16) [0, 0] =
      ((ipv4HeaderBytes ih
          (calculateIPv4Checksum (ipv4HeaderBytes ih 0 ++ (p.drop 20).take (hl - 20))) ++
        (p.drop 20).take (hl - 20)) ++
        (bytes2 th.sourcePort ++ (bytes2 th.destinationPort ++ (bytes4 th.sequence ++
          (bytes4 th.acknowledgment ++
            ([th.dataOffset % 16 * 16, th.flags] ++ bytes2 th.window)))))) ++
      ([0, 0] ++ (bytes2 th.urgent ++ p.drop (hl + 20))) := by
    have hre : (ipv4HeaderBytes ih
          (calculateIPv4Checksum (ipv4HeaderBytes ih 0 ++ (p.drop 20).take (hl - 20))) ++
        (p.drop 20).take (hl - 20)) ++ (tcpHeaderBytes th ++ p.drop (hl + 20)) =
        ((ipv4HeaderBytes ih
            (calculateIPv4Checksum (ipv4HeaderBytes ih 0 ++ (p.drop 20).take (hl - 20))) ++
          (p.drop 20).take (hl - 20)) ++
          (bytes2 th.sourcePort ++ (bytes2 th.destinationPort ++ (bytes4 th.sequence ++
            (bytes4 th.acknowledgment ++
              ([th.dataOffset % 16 * 16, th.flags] ++ bytes2 th.window)))))) ++
        (bytes2 th.checksum ++ (bytes2 th.urgent ++ p.drop (hl + 20))) := by
      simp only [tcpHeaderBytes, List.append_assoc]
    rw [hre, splice_eq_of_len _ _ _ _ (by
      simp only [List.length_append, length_ipv4HeaderBytes, length_bytes2, length_bytes4,
        List.length_cons, List.length_nil, hmid]
      omega)]
    rw [show (([0, 0] : List ℕ)).length = 2 from rfl, drop2_bytes2]
  rw [hstep3]
  have hdrop : (((ipv4HeaderBytes ih
        (calculateIPv4Checksum (ipv4HeaderBytes ih 0 ++ (p.drop 20).take (hl - 20))) ++
      (p.drop 20).take (hl - 20)) ++
      (bytes2 th.sourcePort ++ (bytes2 th.destinationPort ++ (bytes4 th.sequence ++
        (bytes4 th.acknowledgment ++
          ([th.dataOffset % 16 * 16, th.flags] ++ bytes2 th.window)))))) ++
      ([0, 0] ++ (bytes2 th.urgent ++ p.drop (hl + 20)))).drop hl =
      (bytes2 th.sourcePort ++ (bytes2 th.destinationPort ++ (bytes4 th.sequence ++
        (bytes4 th.acknowledgment ++
          ([th.dataOffset % 16 * 16, th.flags] ++ bytes2 th.window))))) ++
      ([0, 0] ++ (bytes2 th.urgent ++ p.drop (hl + 20))) := by
    have hre : ((ipv4HeaderBytes ih
          (calculateIPv4Checksum (ipv4HeaderBytes ih 0 ++ (p.drop 20).take (hl - 20))) ++
        (p.drop 20).take (hl - 20)) ++
        (bytes2 th.sourcePort ++ (bytes2 th.destinationPort ++ (bytes4 th.sequence ++
          (bytes4 th.acknowledgment ++
            ([th.dataOffset % 16 * 16, th.flags] ++ bytes2 th.window)))))) ++
        ([0, 0] ++ (bytes2 th.urgent ++ p.drop (hl + 20))) =
        (ipv4HeaderBytes ih
            (calculateIPv4Checksum (ipv4HeaderBytes ih 0 ++ (p.drop 20).take (hl - 20))) ++
          (p.drop 20).take (hl - 20)) ++
        ((bytes2 th.sourcePort ++ (bytes2 th.destinationPort ++ (bytes4 th.sequence ++
          (bytes4 th.acknowledgment ++
            ([th.dataOffset % 16 * 16, th.flags] ++ bytes2 th.window))))) ++
          ([0, 0] ++ (bytes2 th.urgent ++ p.drop (hl + 20)))) := by
      simp only [List.append_assoc]
    rw [hre]
    exact List.drop_left' (by rw [List.length_append, length_ipv4HeaderBytes, hmid]; omega)
  rw [hdrop]
  have hstep4 : splice
      (((ipv4HeaderBytes ih
          (calculateIPv4Checksum (ipv4HeaderBytes ih 0 ++ (p.drop 20).take (hl - 20))) ++
        (p.drop 20).take (hl - 20)) ++
        (bytes2 th.sourcePort ++ (bytes2 th.destinationPort ++ (bytes4 th.sequence ++
          (bytes4 th.acknowledgment ++
            ([th.dataOffset % 16 * 16, th.flags] ++ bytes2 th.window)))))) ++
        ([0, 0] ++ (bytes2 th.urgent ++ p.drop (hl + 20))))
      (hl + 16)
      (bytes2 (calculateTCPChecksum ih.sourceIP ih.destinationIP
        ((bytes2 th.sourcePort ++ (bytes2 th.destinationPort ++ (bytes4 th.sequence ++
          (bytes4 th.acknowledgment ++
            ([th.dataOffset % 16 * 16, th.flags] ++ bytes2 th.window))))) ++
          ([0, 0] ++ (bytes2 th.urgent ++ p.drop (hl + 20)))))) =
      ((ipv4HeaderBytes ih
          (calculateIPv4Checksum (ipv4HeaderBytes ih 0 ++ (p.drop 20).take (hl - 20))) ++
        (p.drop 20).take (hl - 20)) ++
        (bytes2 th.sourcePort ++ (bytes2 th.destinationPort ++ (bytes4 th.sequence ++
          (bytes4 th.acknowledgment ++
            ([th.dataOffset % 16 * 16, th.flags] ++ bytes2 th.window)))))) ++
      (bytes2 (calculateTCPChecksum ih.sourceIP ih.destinationIP
        ((bytes2 th.sourcePort ++ (bytes2 th.destinationPort ++ (bytes4 th.sequence ++
          (bytes4 th.acknowledgment ++
            ([th.dataOffset % 16 * 16, th.flags] ++ bytes2 th.window))))) ++
          ([0, 0] ++ (bytes2 th.urgent ++ p.drop (hl + 20))))) ++
        (bytes2 th.urgent ++ p.drop (hl + 20))) := by
    rw [splice_eq_of_len _ _ _ _ (by
      simp only [List.length_append, length_ipv4HeaderBytes, length_bytes2, length_bytes4,
        List.length_cons, List.length_nil, hmid]
      omega)]
    rw [length_bytes2, drop2_zeros]
  rw [hstep4]
  simp only [List.append_assoc]

/-- Normal form of the ICMP serialization tail. -/
theorem serializeICMP_eq (ih : IPv4Header) (mh : ICMPHeader) (p : List ℕ) (hl : ℕ)
    (hhl : hl = ih.ihl * 4) (h20 : 20 ≤ hl) (hlen : hl + 8 ≤ p.length) :
    serializeICMP ih mh p hl =
      ipv4HeaderBytes ih
          (calculateIPv4Checksum (ipv4HeaderBytes ih 0 ++ (p.drop 20).take (hl - 20))) ++
        ((p.drop 20).take (hl - 20) ++
          ([mh.icmpType, mh.code] ++
            (bytes2 (calculateICMPChecksum
                ([mh.icmpType, mh.code] ++
                  ([0, 0] ++ (bytes2 mh.id ++ (bytes2 mh.sequence ++ p.drop (hl + 8)))))) ++
              (bytes2 mh.id ++ (bytes2 mh.sequence ++ p.drop (hl + 8)))))) := by
  have hmid : ((p.drop 20).take (hl - 20)).length = hl - 20 := by
    rw [List.length_take, List.length_drop]
    omega
  have hstep1 : marshalIPv4 ih p =
      ipv4HeaderBytes ih
        (calculateIPv4Checksum (ipv4HeaderBytes ih 0 ++ (p.drop 20).take (hl - 20))) ++
      p.drop 20 := by
    unfold marshalIPv4
    dsimp only
    rw [← hhl]
    rw [List.take_append_eq_append_take,
      List.take_of_length_le (by rw [length_ipv4HeaderBytes]; omega),
      length_ipv4HeaderBytes]
  have hstep2 : marshalICMP mh
      (ipv4HeaderBytes ih
          (calculateIPv4Checksum (ipv4HeaderBytes ih 0 ++ (p.drop 20).take (hl - 20))) ++
        p.drop 20) hl =
      (ipv4HeaderBytes ih
          (calculateIPv4Checksum (ipv4HeaderBytes ih 0 ++ (p.drop 20).take (hl - 20))) ++
        (p.drop 20).take (hl - 20)) ++
      (icmpHeaderBytes mh ++ p.drop (hl + 8)) := by
    unfold marshalICMP
    have hsplit : ipv4HeaderBytes ih
          (calculateIPv4Checksum (ipv4HeaderBytes ih 0 ++ (p.drop 20).take (hl - 20))) ++
        p.drop 20 =
        (ipv4HeaderBytes ih
            (calculateIPv4Checksum (ipv4HeaderBytes ih 0 ++ (p.drop 20).take (hl - 20))) ++
          (p.drop 20).take (hl - 20)) ++ ((p.drop 20).drop (hl - 20)) := by
      rw [List.append_assoc]
      congr 1
      exact (List.take_append_drop _ _).symm
    rw [hsplit, splice_eq_of_len _ _ _ _
      (by rw [List.length_append, length_ipv4HeaderBytes, hmid]; omega)]
    rw [length_icmpHeaderBytes, List.drop_drop, List.drop_drop]
    rw [show 20 + (hl - 20 + 8) = hl + 8 from by omega]
  rw [show serializeICMP ih mh p hl =
      splice (splice (marshalICMP mh (marshalIPv4 ih p) hl) (hl + 2) [0, 0]) (hl + 2)
        (bytes2 (calculateICMPChecksum
          ((splice (marshalICMP mh (marshalIPv4 ih p) hl) (hl + 2) [0, 0]).drop hl)))
    from rfl]
  rw [hstep1, hstep2]
  have hstep3 : splice
      ((ipv4HeaderBytes ih
          (calculateIPv4Checksum (ipv4HeaderBytes ih 0 ++ (p.drop 20).take (hl - 20))) ++
        (p.drop 20).take (hl - 20)) ++ (icmpHeaderBytes mh ++ p.drop (hl + 8)))
      (hl + 2) [0, 0] =
      ((ipv4HeaderBytes ih
          (calculateIPv4Checksum (ipv4HeaderBytes ih 0 ++ (p.drop 20).take (hl - 20))) ++
        (p.drop 20).take (hl - 20)) ++
        [mh.icmpType, mh.code]) ++
      ([0, 0] ++ (bytes2 mh.id ++ (bytes2 mh.sequence ++ p.drop (hl + 8)))) := by
    have hre : (ipv4HeaderBytes ih
          (calculateIPv4Checksum (ipv4HeaderBytes ih 0 ++ (p.drop 20).take (hl - 20))) ++
        (p.drop 20).take (hl - 20)) ++ (icmpHeaderBytes mh ++ p.drop (hl + 8)) =
        ((ipv4HeaderBytes ih
            (calculateIPv4Checksum (ipv4HeaderBytes ih 0 ++ (p.drop 20).take (hl - 20))) ++
          (p.drop 20).take (hl - 20)) ++
          [mh.icmpType, mh.code]) ++
        (bytes2 mh.checksum ++ (bytes2 mh.id ++ (bytes2 mh.sequence ++ p.drop (hl + 8)))) := by
      simp only [icmpHeaderBytes, List.append_assoc, List.cons_append, List.nil_append]
    rw [hre, splice_eq_of_len _ _ _ _ (by
      simp only [List.length_append, length_ipv4HeaderBytes, length_bytes2,
        List.length_cons, List.length_nil, hmid]
      omega)]
    rw [show (([0, 0] : List ℕ)).length = 2 from rfl, drop2_bytes2]
  rw [hstep3]
  have hdrop : (((ipv4HeaderBytes ih
        (calculateIPv4Checksum (ipv4HeaderBytes ih 0 ++ (p.drop 20).take (hl - 20))) ++
      (p.drop 20).take (hl - 20)) ++
      [mh.icmpType, mh.code]) ++
      ([0, 0] ++ (bytes2 mh.id ++ (bytes2 mh.sequence ++ p.drop (hl + 8))))).drop hl =
      [mh.icmpType, mh.code] ++
      ([0, 0] ++ (bytes2 mh.id ++ (bytes2 mh.sequence ++ p.drop (hl + 8)))) := by
    have hre : ((ipv4HeaderBytes ih
          (calculateIPv4Checksum (ipv4HeaderBytes ih 0 ++ (p.drop 20).take (hl - 20))) ++
        (p.drop 20).take (hl - 20)) ++
        [mh.icmpType, mh.code]) ++
        ([0, 0] ++ (bytes2 mh.id ++ (bytes2 mh.sequence ++ p.drop (hl + 8)))) =
        (ipv4HeaderBytes ih
            (calculateIPv4Checksum (ipv4HeaderBytes ih 0 ++ (p.drop 20).take (hl - 20))) ++
          (p.drop 20).take (hl - 20)) ++
        ([mh.icmpType, mh.code] ++
          ([0, 0] ++ (bytes2 mh.id ++ (bytes2 mh.sequence ++ p.drop (hl + 8))))) := by
      simp only [List.append_assoc]
    rw [hre]
    exact List.drop_left' (by rw [List.length_append, length_ipv4HeaderBytes, hmid]; omega)
  rw [hdrop]
  have hstep4 : splice
      (((ipv4HeaderBytes ih
          (calculateIPv4Checksum (ipv4HeaderBytes ih 0 ++ (p.drop 20).take (hl - 20))) ++
        (p.drop 20).take (hl - 20)) ++
        [mh.icmpType, mh.code]) ++
        ([0, 0] ++ (bytes2 mh.id ++ (bytes2 mh.sequence ++ p.drop (hl + 8)))))
      (hl + 2)
      (bytes2 (calculateICMPChecksum
        ([mh.icmpType, mh.code] ++
          ([0, 0] ++ (bytes2 mh.id ++ (bytes2 mh.sequence ++ p.drop (hl + 8))))))) =
      ((ipv4HeaderBytes ih
          (calculateIPv4Checksum (ipv4HeaderBytes ih 0 ++ (p.drop 20).take (hl - 20))) ++
        (p.drop 20).take (hl - 20)) ++
        [mh.icmpType, mh.code]) ++
      (bytes2 (calculateICMPChecksum
        ([mh.icmpType, mh.code] ++
          ([0, 0] ++ (bytes2 mh.id ++ (bytes2 mh.sequence ++ p.drop (hl + 8)))))) ++
        (bytes2 mh.id ++ (bytes2 mh.sequence ++ p.drop (hl + 8)))) := by
    rw [splice_eq_of_len _ _ _ _ (by
      simp only [List.length_append, length_ipv4HeaderBytes, List.length_cons,
        List.length_nil, hmid]
      omega)]
    rw [length_bytes2, drop2_zeros]
  rw [hstep4]
  simp only [List.append_assoc, List.cons_append, List.nil_append]

/-- A serialized checksum field inside a region, seen by the word sum: the
region with the field filled sums to the region with the field zeroed,
plus the field. -/
theorem wordSum_mid_bytes2 (pre post : List ℕ) (hpre : pre.length % 2 = 0) (cks : ℕ) :
    wordSum (pre ++ (bytes2 cks ++ post)) =
      wordSum (pre ++ (([0, 0] : List ℕ) ++ post)) + cks := by
  rw [wordSum_append_even pre hpre, wordSum_append_even pre hpre]
  show wordSum pre + ((cks / 256 * 256 + cks % 256) + wordSum post)
      = wordSum pre + ((0 * 256 + 0) + wordSum post) + cks
  omega

/-- Recomputing the IPv4 header checksum over the filled header gives 0. -/
theorem calculateIPv4Checksum_roundtrip (ih : IPv4Header) (mid : List ℕ) :
    calculateIPv4Checksum (ipv4HeaderBytes ih
        (calculateIPv4Checksum (ipv4HeaderBytes ih 0 ++ mid)) ++ mid) = 0 := by
  have hA : (ipv4HeaderBytes ih
      (calculateIPv4Checksum (ipv4HeaderBytes ih 0 ++ mid))).length % 2 = 0 := by
    rw [length_ipv4HeaderBytes]
  have hB : (ipv4HeaderBytes ih 0).length % 2 = 0 := by
    rw [length_ipv4HeaderBytes]
  have hW : wordSum (ipv4HeaderBytes ih
        (calculateIPv4Checksum (ipv4HeaderBytes ih 0 ++ mid)) ++ mid)
      = wordSum (ipv4HeaderBytes ih 0 ++ mid) +
        calculateIPv4Checksum (ipv4HeaderBytes ih 0 ++ mid) := by
    rw [wordSum_append_even _ hA mid, wordSum_ipv4HeaderBytes,
        wordSum_append_even _ hB mid]
    omega
  show 65535 - foldCarry (wordSum (ipv4HeaderBytes ih
      (calculateIPv4Checksum (ipv4HeaderBytes ih 0 ++ mid)) ++ mid) % 4294967296) = 0
  rw [hW]
  exact checksum_roundtrip _

/-- Recomputing the UDP checksum over the filled datagram gives 0. -/
theorem calculateUDPChecksum_roundtrip (s d : IPAddr) (pre post : List ℕ)
    (hpre : pre.length % 2 = 0) :
    calculateUDPChecksum s d
      (pre ++ (bytes2 (calculateUDPChecksum s d (pre ++ ([0, 0] ++ post))) ++ post)) = 0 := by
  have hL : (pre ++ (bytes2 (calculateUDPChecksum s d (pre ++ ([0, 0] ++ post))) ++ post)).length
      = (pre ++ (([0, 0] : List ℕ) ++ post)).length := by
    simp [bytes2]
  have hW := wordSum_mid_bytes2 pre post hpre
    (calculateUDPChecksum s d (pre ++ ([0, 0] ++ post)))
  show 65535 - foldCarry
      ((wordSum (pseudoHeaderBytes s d 17
          (pre ++ (bytes2 (calculateUDPChecksum s d (pre ++ ([0, 0] ++ post))) ++ post)).length) +
        wordSum (pre ++ (bytes2 (calculateUDPChecksum s d (pre ++ ([0, 0] ++ post))) ++ post)))
        % 4294967296) = 0
  rw [hL, hW, ← Nat.add_assoc]
  exact checksum_roundtrip _

/-- Recomputing the TCP checksum over the filled segment gives 0. -/
theorem calculateTCPChecksum_roundtrip (s d : IPAddr) (pre post : List ℕ)
    (hpre : pre.length % 2 = 0) :
    calculateTCPChecksum s d
      (pre ++ (bytes2 (calculateTCPChecksum s d (pre ++ ([0, 0] ++ post))) ++ post)) = 0 := by
  have hL : (pre ++ (bytes2 (calculateTCPChecksum s d (pre ++ ([0, 0] ++ post))) ++ post)).length
      = (pre ++ (([0, 0] : List ℕ) ++ post)).length := by
    simp [bytes2]
  have hW := wordSum_mid_bytes2 pre post hpre
    (calculateTCPChecksum s d (pre ++ ([0, 0] ++ post)))
  show 65535 - foldCarry
      ((wordSum (pseudoHeaderBytes s d 6
          (pre ++ (bytes2 (calculateTCPChecksum s d (pre ++ ([0, 0] ++ post))) ++ post)).length) +
        wordSum (pre ++ (bytes2 (calculateTCPChecksum s d (pre ++ ([0, 0] ++ post))) ++ post)))
        % 4294967296) = 0
  rw [hL, hW, ← Nat.add_assoc]
  exact checksum_roundtrip _

/-- Recomputing the ICMP checksum over the filled message gives 0. -/
theorem calculateICMPChecksum_roundtrip (pre post : List ℕ)
    (hpre : pre.length % 2 = 0) :
    calculateICMPChecksum
      (pre ++ (bytes2 (calculateICMPChecksum (pre ++ ([0, 0] ++ post))) ++ post)) = 0 := by
  have hW := wordSum_mid_bytes2 pre post hpre
    (calculateICMPChecksum (pre ++ ([0, 0] ++ post)))
  show 65535 - foldCarry
      (wordSum (pre ++ (bytes2 (calculateICMPChecksum (pre ++ ([0, 0] ++ post))) ++ post))
        % 4294967296) = 0
  rw [hW]
  exact checksum_roundtrip _

/-- The recomputation of the IPv4 header checksum claim C2 speaks about:
parse the packet and run `calculateIPv4Checksum` over the header bytes
(checksum field included), as `VerifyIPv4Checksum` of the test helpers
does over its fixed 20-byte header. -/
def recomputedIPv4Checksum (p : List ℕ) : Option ℕ :=
  (ParseIPv4Header p).map fun h => calculateIPv4Checksum (p.take (h.ihl * 4))

/-- The recomputation of the L4 checksum claim C2 speaks about: parse the
packet and run the protocol's checksum over the bytes from the end of
the IP header on (checksum field included), as the `Verify*Checksum`
test helpers do. -/
def recomputedL4Checksum (p : List ℕ) : Option ℕ :=
  (ParseIPv4Header p).bind fun h =>
    let hl := h.ihl * 4
    if h.protocol = ProtocolTCP then
      some (calculateTCPChecksum h.sourceIP h.destinationIP (p.drop hl))
    else if h.protocol = ProtocolUDP then
      some (calculateUDPChecksum h.sourceIP h.destinationIP (p.drop hl))
    else if h.protocol = ProtocolICMP then
      some (calculateICMPChecksum (p.drop hl))
    else none

/-- Recomputed IPv4 checksum of a serialized packet in normal form. -/
theorem recomputedIPv4_of_nf (ih : IPv4Header) (mid lfour : List ℕ)
    (hv : ih.version = 4) (h5 : 5 ≤ ih.ihl) (h16 : ih.ihl < 16)
    (hmid : mid.length = ih.ihl * 4 - 20) :
    recomputedIPv4Checksum
      (ipv4HeaderBytes ih (calculateIPv4Checksum (ipv4HeaderBytes ih 0 ++ mid)) ++
        (mid ++ lfour)) = some 0 := by
  have hparse := ParseIPv4Header_normal ih
    (calculateIPv4Checksum (ipv4HeaderBytes ih 0 ++ mid)) (mid ++ lfour) hv h5 h16
    (by rw [List.length_append, hmid]; omega)
  unfold recomputedIPv4Checksum
  rw [hparse]
  simp only [Option.map_some']
  have htake : (ipv4HeaderBytes ih (calculateIPv4Checksum (ipv4HeaderBytes ih 0 ++ mid)) ++
      (mid ++ lfour)).take (ih.ihl * 4) =
      ipv4HeaderBytes ih (calculateIPv4Checksum (ipv4HeaderBytes ih 0 ++ mid)) ++ mid := by
    rw [List.take_append_eq_append_take,
      List.take_of_length_le (by rw [length_ipv4HeaderBytes]; omega),
      length_ipv4HeaderBytes, List.take_left' hmid]
  rw [htake, calculateIPv4Checksum_roundtrip]

/-- Dropping the IP header of a packet in normal form. -/
theorem drop_hl_of_nf (ih : IPv4Header) (cks : ℕ) (mid lfour : List ℕ)
    (hmid : mid.length = ih.ihl * 4 - 20) (h5 : 5 ≤ ih.ihl) :
    (ipv4HeaderBytes ih cks ++ (mid ++ lfour)).drop (ih.ihl * 4) = lfour := by
  rw [show ipv4HeaderBytes ih cks ++ (mid ++ lfour)
      = (ipv4HeaderBytes ih cks ++ mid) ++ lfour from by simp only [List.append_assoc]]
  exact List.drop_left' (by rw [List.length_append, length_ipv4HeaderBytes, hmid]; omega)

/-- Recomputed L4 checksum of a serialized UDP packet in normal form. -/
theorem recomputedL4_of_nf_udp (ih : IPv4Header) (cks : ℕ) (mid lfour : List ℕ)
    (hv : ih.version = 4) (h5 : 5 ≤ ih.ihl) (h16 : ih.ihl < 16)
    (hmid : mid.length = ih.ihl * 4 - 20) (hpr : ih.protocol = ProtocolUDP) :
    recomputedL4Checksum (ipv4HeaderBytes ih cks ++ (mid ++ lfour)) =
      some (calculateUDPChecksum ih.sourceIP ih.destinationIP lfour) := by
  have hparse := ParseIPv4Header_normal ih cks (mid ++ lfour) hv h5 h16
    (by rw [List.length_append, hmid]; omega)
  unfold recomputedL4Checksum
  rw [hparse]
  simp only [Option.some_bind]
  rw [hpr, if_neg (by decide), if_pos rfl, drop_hl_of_nf ih cks mid lfour hmid h5]

/-- Recomputed L4 checksum of a serialized TCP packet in normal form. -/
theorem recomputedL4_of_nf_tcp (ih : IPv4Header) (cks : ℕ) (mid lfour : List ℕ)
    (hv : ih.version = 4) (h5 : 5 ≤ ih.ihl) (h16 : ih.ihl < 16)
    (hmid : mid.length = ih.ihl * 4 - 20) (hpr : ih.protocol = ProtocolTCP) :
    recomputedL4Checksum (ipv4HeaderBytes ih cks ++ (mid ++ lfour)) =
      some (calculateTCPChecksum ih.sourceIP ih.destinationIP lfour) := by
  have hparse := ParseIPv4Header_normal ih cks (mid ++ lfour) hv h5 h16
    (by rw [List.length_append, hmid]; omega)
  unfold recomputedL4Checksum
  rw [hparse]
  simp only [Option.some_bind]
  rw [hpr, if_pos rfl, drop_hl_of_nf ih cks mid lfour hmid h5]

/-- Recomputed L4 checksum of a serialized ICMP packet in normal form. -/
theorem recomputedL4_of_nf_icmp (ih : IPv4Header) (cks : ℕ) (mid lfour : List ℕ)
    (hv : ih.version = 4) (h5 : 5 ≤ ih.ihl) (h16 : ih.ihl < 16)
    (hmid : mid.length = ih.ihl * 4 - 20) (hpr : ih.protocol = ProtocolICMP) :
    recomputedL4Checksum (ipv4HeaderBytes ih cks ++ (mid ++ lfour)) =
      some (calculateICMPChecksum lfour) := by
  have hparse := ParseIPv4Header_normal ih cks (mid ++ lfour) hv h5 h16
    (by rw [List.length_append, hmid]; omega)
  unfold recomputedL4Checksum
  rw [hparse]
  simp only [Option.some_bind]
  rw [hpr, if_neg (by decide), if_neg (by decide), if_pos rfl,
    drop_hl_of_nf ih cks mid lfour hmid h5]

/-- Both recomputed checksums of a serialized UDP packet vanish. -/
theorem serializeUDP_checksums (ih : IPv4Header) (uh : UDPHeader) (p : List ℕ) (hl : ℕ)
    (hhl : hl = ih.ihl * 4) (hv : ih.version = 4) (h5 : 5 ≤ ih.ihl) (h16 : ih.ihl < 16)
    (hpr : ih.protocol = ProtocolUDP) (hlen : hl + 8 ≤ p.length) :
    recomputedIPv4Checksum (serializeUDP ih uh p hl) = some 0 ∧
    recomputedL4Checksum (serializeUDP ih uh p hl) = some 0 := by
  have h20 : 20 ≤ hl := by omega
  have hmid : ((p.drop 20).take (hl - 20)).length = ih.ihl * 4 - 20 := by
    rw [List.length_take, List.length_drop]
    omega
  rw [serializeUDP_eq ih uh p hl hhl h20 hlen]
  constructor
  · exact recomputedIPv4_of_nf ih ((p.drop 20).take (hl - 20)) _ hv h5 h16 hmid
  · rw [recomputedL4_of_nf_udp ih _ ((p.drop 20).take (hl - 20)) _ hv h5 h16 hmid hpr,
      calculateUDPChecksum_roundtrip ih.sourceIP ih.destinationIP
        (bytes2 uh.sourcePort ++ (bytes2 uh.destinationPort ++ bytes2 uh.length))
        (p.drop (hl + 8)) (by simp [bytes2])]

/-- Both recomputed checksums of a serialized TCP packet vanish. -/
theorem serializeTCP_checksums (ih : IPv4Header) (th : TCPHeader) (p : List ℕ) (hl : ℕ)
    (hhl : hl = ih.ihl * 4) (hv : ih.version = 4) (h5 : 5 ≤ ih.ihl) (h16 : ih.ihl < 16)
    (hpr : ih.protocol = ProtocolTCP) (hlen : hl + 20 ≤ p.length) :
    recomputedIPv4Checksum (serializeTCP ih th p hl) = some 0 ∧
    recomputedL4Checksum (serializeTCP ih th p hl) = some 0 := by
  have h20 : 20 ≤ hl := by omega
  have hmid : ((p.drop 20).take (hl - 20)).length = ih.ihl * 4 - 20 := by
    rw [List.length_take, List.length_drop]
    omega
  rw [serializeTCP_eq ih th p hl hhl h20 hlen]
  constructor
  · exact recomputedIPv4_of_nf ih ((p.drop 20).take (hl - 20)) _ hv h5 h16 hmid
  · rw [recomputedL4_of_nf_tcp ih _ ((p.drop 20).take (hl - 20)) _ hv h5 h16 hmid hpr,
      calculateTCPChecksum_roundtrip ih.sourceIP ih.destinationIP
        (bytes2 th.sourcePort ++ (bytes2 th.destinationPort ++ (bytes4 th.sequence ++
          (bytes4 th.acknowledgment ++
            ([th.dataOffset % 16 * 16, th.flags] ++ bytes2 th.window)))))
        (bytes2 th.urgent ++ p.drop (hl + 20)) (by simp [bytes2, bytes4])]

/-- Both recomputed checksums of a serialized ICMP packet vanish. -/
theorem serializeICMP_checksums (ih : IPv4Header) (mh : ICMPHeader) (p : List ℕ) (hl : ℕ)
    (hhl : hl = ih.ihl * 4) (hv : ih.version = 4) (h5 : 5 ≤ ih.ihl) (h16 : ih.ihl < 16)
    (hpr : ih.protocol = ProtocolICMP) (hlen : hl + 8 ≤ p.length) :
    recomputedIPv4Checksum (serializeICMP ih mh p hl) = some 0 ∧
    recomputedL4Checksum (serializeICMP ih mh p hl) = some 0 := by
  have h20 : 20 ≤ hl := by omega
  have hmid : ((p.drop 20).take (hl - 20)).length = ih.ihl * 4 - 20 := by
    rw [List.length_take, List.length_drop]
    omega
  rw [serializeICMP_eq ih mh p hl hhl h20 hlen]
  constructor
  · exact recomputedIPv4_of_nf ih ((p.drop 20).take (hl - 20)) _ hv h5 h16 hmid
  · rw [recomputedL4_of_nf_icmp ih _ ((p.drop 20).take (hl - 20)) _ hv h5 h16 hmid hpr,
      calculateICMPChecksum_roundtrip [mh.icmpType, mh.code]
        (bytes2 mh.id ++ (bytes2 mh.sequence ++ p.drop (hl + 8))) (by simp)]

/-- A successful L4 TCP parse bounds the buffer length. -/
theorem ParseTCPHeader_some_length (p : List ℕ) (off : ℕ) (th : TCPHeader)
    (h : ParseTCPHeader p off = some th) : off + 20 ≤ p.length := by
  unfold ParseTCPHeader at h
  by_contra hc
  rw [if_pos (by omega)] at h
  exact Option.noConfusion h

/-- A successful L4 UDP parse bounds the buffer length. -/
theorem ParseUDPHeader_some_length (p : List ℕ) (off : ℕ) (uh : UDPHeader)
    (h : ParseUDPHeader p off = some uh) : off + 8 ≤ p.length := by
  unfold ParseUDPHeader at h
  by_contra hc
  rw [if_pos (by omega)] at h
  exact Option.noConfusion h

/-- A successful ICMP parse bounds the buffer length. -/
theorem ParseICMPHeader_some_length (p : List ℕ) (off : ℕ) (mh : ICMPHeader)
    (h : ParseICMPHeader p off = some mh) : off + 8 ≤ p.length := by
  unfold ParseICMPHeader at h
  by_contra hc
  rw [if_pos (by omega)] at h
  exact Option.noConfusion h

/-- The outbound IP rewrite only touches the addresses. -/
theorem rewriteOutboundIP_fields (c : Conn) (ih : IPv4Header) :
    (rewriteOutboundIP c ih).ihl = ih.ihl ∧ (rewriteOutboundIP c ih).version = ih.version ∧
    (rewriteOutboundIP c ih).protocol = ih.protocol := by
  unfold rewriteOutboundIP
  split
  · exact ⟨rfl, rfl, rfl⟩
  · exact ⟨rfl, rfl, rfl⟩

/-- A successful IPv4 parse pins the version, bounds the IHL and covers
the header with the buffer. -/
theorem ParseIPv4Header_props (p : List ℕ) (ih : IPv4Header)
    (h : ParseIPv4Header p = some ih) :
    ih.version = 4 ∧ 5 ≤ ih.ihl ∧ ih.ihl < 16 ∧ ih.ihl * 4 ≤ p.length := by
  unfold ParseIPv4Header at h
  dsimp only at h
  split at h
  · exact Option.noConfusion h
  split at h
  · exact Option.noConfusion h
  split at h
  · exact Option.noConfusion h
  rename_i h1 h2 h3
  have hih := Option.some.inj h
  subst hih
  refine ⟨?_, ?_, ?_, ?_⟩ <;> dsimp only <;> omega

/-- Every success of handleOutboundUDP serializes a rewritten packet. -/
theorem handleOutboundUDP_ok_shape (t : Table) (p : List ℕ) (ih : IPv4Header)
    (hl ns : ℕ) (now : ℤ) :
    (handleOutboundUDP t p ih hl ns now).1 = OutRes.ok →
    ∃ conn uh, ParseUDPHeader p hl = some uh ∧
      (handleOutboundUDP t p ih hl ns now).2.1 =
        serializeUDP (rewriteOutboundIP conn ih) (rewriteOutboundUDP conn uh) p hl := by
  unfold handleOutboundUDP finishOutboundUDP
  dsimp only
  repeat' split
  all_goals intro hok
  all_goals first
    | exact OutRes.noConfusion hok
    | exact ⟨_, _, by assumption, rfl⟩

/-- Every success of handleOutboundTCP serializes a rewritten packet. -/
theorem handleOutboundTCP_ok_shape (t : Table) (p : List ℕ) (ih : IPv4Header)
    (hl ns : ℕ) (now : ℤ) :
    (handleOutboundTCP t p ih hl ns now).1 = OutRes.ok →
    ∃ conn th, ParseTCPHeader p hl = some th ∧
      (handleOutboundTCP t p ih hl ns now).2.1 =
        serializeTCP (rewriteOutboundIP conn ih) (rewriteOutboundTCP conn th) p hl := by
  unfold handleOutboundTCP finishOutboundTCP
  dsimp only
  repeat' split
  all_goals intro hok
  all_goals first
    | exact OutRes.noConfusion hok
    | exact ⟨_, _, by assumption, rfl⟩

/-- Every success of handleOutboundICMP on an echo packet serializes a
rewritten packet (for non-echo types the success is a pass-through). -/
theorem handleOutboundICMP_ok_shape (t : Table) (p : List ℕ) (ih : IPv4Header)
    (hl ns : ℕ) (now : ℤ)
    (hecho : readByte p hl = ICMPTypeEchoRequest ∨ readByte p hl = ICMPTypeEchoReply) :
    (handleOutboundICMP t p ih hl ns now).1 = OutRes.ok →
    ∃ conn mh, ParseICMPHeader p hl = some mh ∧
      (handleOutboundICMP t p ih hl ns now).2.1 =
        serializeICMP (rewriteOutboundIP conn ih) { mh with id := conn.outsideSrcPort } p hl := by
  unfold handleOutboundICMP finishOutboundICMP
  dsimp only
  repeat' split
  all_goals intro hok
  all_goals first
    | exact OutRes.noConfusion hok
    | (rename_i hcond
       exact hecho.elim (fun he => absurd he hcond.1) (fun he => absurd he hcond.2))
    | exact ⟨_, _, by assumption, rfl⟩

/-- Checksums through handleOutboundUDP. -/
theorem handleOutboundUDP_checksums (t : Table) (p : List ℕ) (ih : IPv4Header)
    (hl ns : ℕ) (now : ℤ) (hhl : hl = ih.ihl * 4) (hv : ih.version = 4)
    (h5 : 5 ≤ ih.ihl) (h16 : ih.ihl < 16) (hpr : ih.protocol = ProtocolUDP)
    (hok : (handleOutboundUDP t p ih hl ns now).1 = OutRes.ok) :
    recomputedIPv4Checksum (handleOutboundUDP t p ih hl ns now).2.1 = some 0 ∧
    recomputedL4Checksum (handleOutboundUDP t p ih hl ns now).2.1 = some 0 := by
  obtain ⟨conn, uh, hup, hshape⟩ := handleOutboundUDP_ok_shape t p ih hl ns now hok
  have hlen : hl + 8 ≤ p.length := ParseUDPHeader_some_length p hl uh hup
  have hf := rewriteOutboundIP_fields conn ih
  rw [hshape]
  exact serializeUDP_checksums (rewriteOutboundIP conn ih) (rewriteOutboundUDP conn uh) p hl
    (by rw [hf.1, hhl]) (by rw [hf.2.1, hv]) (by rw [hf.1]; exact h5)
    (by rw [hf.1]; exact h16) (by rw [hf.2.2, hpr]) hlen

/-- Checksums through handleOutboundTCP. -/
theorem handleOutboundTCP_checksums (t : Table) (p : List ℕ) (ih : IPv4Header)
    (hl ns : ℕ) (now : ℤ) (hhl : hl = ih.ihl * 4) (hv : ih.version = 4)
    (h5 : 5 ≤ ih.ihl) (h16 : ih.ihl < 16) (hpr : ih.protocol = ProtocolTCP)
    (hok : (handleOutboundTCP t p ih hl ns now).1 = OutRes.ok) :
    recomputedIPv4Checksum (handleOutboundTCP t p ih hl ns now).2.1 = some 0 ∧
    recomputedL4Checksum (handleOutboundTCP t p ih hl ns now).2.1 = some 0 := by
  obtain ⟨conn, th, htp, hshape⟩ := handleOutboundTCP_ok_shape t p ih hl ns now hok
  have hlen : hl + 20 ≤ p.length := ParseTCPHeader_some_length p hl th htp
  have hf := rewriteOutboundIP_fields conn ih
  rw [hshape]
  exact serializeTCP_checksums (rewriteOutboundIP conn ih) (rewriteOutboundTCP conn th) p hl
    (by rw [hf.1, hhl]) (by rw [hf.2.1, hv]) (by rw [hf.1]; exact h5)
    (by rw [hf.1]; exact h16) (by rw [hf.2.2, hpr]) hlen

/-- Checksums through handleOutboundICMP on echo packets. -/
theorem handleOutboundICMP_checksums (t : Table) (p : List ℕ) (ih : IPv4Header)
    (hl ns : ℕ) (now : ℤ) (hhl : hl = ih.ihl * 4) (hv : ih.version = 4)
    (h5 : 5 ≤ ih.ihl) (h16 : ih.ihl < 16) (hpr : ih.protocol = ProtocolICMP)
    (hecho : readByte p hl = ICMPTypeEchoRequest ∨ readByte p hl = ICMPTypeEchoReply)
    (hok : (handleOutboundICMP t p ih hl ns now).1 = OutRes.ok) :
    recomputedIPv4Checksum (handleOutboundICMP t p ih hl ns now).2.1 = some 0 ∧
    recomputedL4Checksum (handleOutboundICMP t p ih hl ns now).2.1 = some 0 := by
  obtain ⟨conn, mh, hmp, hshape⟩ := handleOutboundICMP_ok_shape t p ih hl ns now hecho hok
  have hlen : hl + 8 ≤ p.length := ParseICMPHeader_some_length p hl mh hmp
  have hf := rewriteOutboundIP_fields conn ih
  rw [hshape]
  exact serializeICMP_checksums (rewriteOutboundIP conn ih)
    { mh with id := conn.outsideSrcPort } p hl
    (by rw [hf.1, hhl]) (by rw [hf.2.1, hv]) (by rw [hf.1]; exact h5)
    (by rw [hf.1]; exact h16) (by rw [hf.2.2, hpr]) hlen

/-- C2 (amended).  For every outbound packet accepted by
HandleOutboundPacket whose protocol is TCP, UDP, or ICMP with an echo
type (request or reply), recomputing the IPv4 header checksum over the
post-rewrite header bytes yields 0, and recomputing the L4 checksum
(TCP/UDP over the pseudo-header plus segment, ICMP over header plus
payload) over the post-rewrite bytes yields 0.  Non-echo ICMP packets
are excluded: handleOutboundICMP passes them through unmodified while
still reporting success, so their checksums are whatever they were on
input (see the counterexample). -/
theorem c2_outbound_checksums_amended (t : Table) (p : List ℕ) (ns : ℕ) (now : ℤ)
    (ih : IPv4Header) (hparse : ParseIPv4Header p = some ih)
    (hscope : ih.protocol = ProtocolTCP ∨ ih.protocol = ProtocolUDP ∨
      (ih.protocol = ProtocolICMP ∧
        (readByte p (ih.ihl * 4) = ICMPTypeEchoRequest ∨
         readByte p (ih.ihl * 4) = ICMPTypeEchoReply)))
    (hok : (HandleOutboundPacket t p ns now).1 = OutRes.ok) :
    recomputedIPv4Checksum (HandleOutboundPacket t p ns now).2.1 = some 0 ∧
    recomputedL4Checksum (HandleOutboundPacket t p ns now).2.1 = some 0 := by
  obtain ⟨hv, h5, h16, hcov⟩ := ParseIPv4Header_props p ih hparse
  unfold HandleOutboundPacket at hok ⊢
  rw [hparse] at hok ⊢
  dsimp only at hok ⊢
  rcases hscope with hpr | hpr | ⟨hpr, hecho⟩
  · rw [if_pos hpr] at hok ⊢
    exact handleOutboundTCP_checksums t p ih _ ns now rfl hv h5 h16 hpr hok
  · rw [if_neg (by rw [hpr]; decide), if_pos hpr] at hok ⊢
    exact handleOutboundUDP_checksums t p ih _ ns now rfl hv h5 h16 hpr hok
  · rw [if_neg (by rw [hpr]; decide), if_neg (by rw [hpr]; decide), if_pos hpr] at hok ⊢
    exact handleOutboundICMP_checksums t p ih _ ns now rfl hv h5 h16 hpr hecho hok

/-- A fresh table for the C2 counterexample. -/
def c2cT : Table := initTable ⟨1, 2, 3, 4⟩ 200 86400 180 30

/-- An ICMP timestamp packet (type 13): valid IPv4 header, 8 ICMP bytes,
checksum fields deliberately zero, so the L4 checksum does not verify. -/
def c2cP : List ℕ :=
  [69, 0, 0, 28, 0, 0, 0, 0, 64, 1, 0, 0, 192, 168, 1, 100, 8, 8, 8, 8,
   13, 0, 0, 0, 4, 210, 0, 1]

/-- C2 counterexample: a non-echo ICMP packet is accepted by
HandleOutboundPacket and passed through byte-for-byte, so the recomputed
ICMP checksum of the post-rewrite packet is nonzero — the original
claim's unconditional statement fails. -/
theorem c2_counterexample :
    (HandleOutboundPacket c2cT c2cP 7 1000).1 = OutRes.ok ∧
    (HandleOutboundPacket c2cT c2cP 7 1000).2.1 = c2cP ∧
    recomputedL4Checksum (HandleOutboundPacket c2cT c2cP 7 1000).2.1 ≠ some 0 := by
  refine ⟨by decide, by decide, by decide⟩

/-- A fresh table for the C2 witness. -/
def c2wT : Table := initTable ⟨1, 2, 3, 4⟩ 200 86400 180 30

/-- A well-formed outbound UDP packet for the C2 witness. -/
def c2wP : List ℕ :=
  [69, 0, 0, 32, 0, 0, 0, 0, 64, 17, 0, 0, 192, 168, 1, 100, 8, 8, 8, 8,
   19, 136, 0, 53, 0, 12, 0, 0, 1, 2, 3, 4]

/-- The parse of the C2 witness packet. -/
def c2wIH : IPv4Header :=
  { version := 4, ihl := 5, tos := 0, totalLength := 32, ident := 0, flags := 0,
    fragOffset := 0, ttl := 64, protocol := 17, checksum := 0,
    sourceIP := ⟨192, 168, 1, 100⟩, destinationIP := ⟨8, 8, 8, 8⟩ }

theorem c2_outbound_checksums_amended_witness :
    (ParseIPv4Header c2wP = some c2wIH ∧
      (HandleOutboundPacket c2wT c2wP 7 1000).1 = OutRes.ok) ∧
    recomputedIPv4Checksum (HandleOutboundPacket c2wT c2wP 7 1000).2.1 = some 0 ∧
    recomputedL4Checksum (HandleOutboundPacket c2wT c2wP 7 1000).2.1 = some 0 :=
  ⟨⟨by decide, by decide⟩,
   (c2_outbound_checksums_amended c2wT c2wP 7 1000 c2wIH (by decide)
     (Or.inr (Or.inl rfl)) (by decide)).1,
   (c2_outbound_checksums_amended c2wT c2wP 7 1000 c2wIH (by decide)
     (Or.inr (Or.inl rfl)) (by decide)).2⟩

/-! ## Claim C1: the outbound/inbound round trip -/

/-- A successful lookup comes from a member entry. -/
theorem lookupM_some_mem {κ α : Type} [DecidableEq κ] (l : List (κ × α)) (k : κ)
    (v : α) (h : lookupM l k = some v) : (k, v) ∈ l := by
  unfold lookupM at h
  cases hf : l.find? fun e => decide (e.1 = k) with
  | none =>
      rw [hf] at h
      exact Option.noConfusion h
  | some e =>
      rw [hf] at h
      have hk : e.1 = k := by simpa using List.find?_some hf
      have hm : e ∈ l := List.mem_of_find?_eq_some hf
      have hv : e.2 = v := Option.some.inj h
      obtain ⟨k', v'⟩ := e
      dsimp only at hk hv
      subst hk
      subst hv
      exact hm

/-- Updating a shared record's value in a map: lookup of a key that held
the old record now yields the new one (keys are untouched). -/
theorem lookupM_map_update {κ : Type} [DecidableEq κ] (l : List (κ × Conn)) (k : κ)
    (old new : Conn) (h : lookupM l k = some old) :
    lookupM (l.map fun e => if e.2 = old then (e.1, new) else e) k = some new := by
  induction l with
  | nil => exact Option.noConfusion h
  | cons a l ih =>
      rw [lookupM_cons] at h
      rw [List.map_cons]
      by_cases hak : a.1 = k
      · rw [if_pos hak] at h
        have hao : a.2 = old := Option.some.inj h
        rw [if_pos hao, lookupM_cons, if_pos hak]
      · rw [if_neg hak] at h
        by_cases hao : a.2 = old
        · rw [if_pos hao, lookupM_cons, if_neg hak]
          exact ih h
        · rw [if_neg hao, lookupM_cons, if_neg hak]
          exact ih h

/-- When checkRedirectRule does not fire, the destination is unchanged. -/
theorem checkRedirectRule_false (p : Pair) (dstIP : IPAddr) (dstPort : ℕ)
    (h : (checkRedirectRule p dstIP dstPort).2.2 = false) :
    (checkRedirectRule p dstIP dstPort).1 = dstIP ∧
    (checkRedirectRule p dstIP dstPort).2.1 = dstPort := by
  unfold checkRedirectRule at h ⊢
  cases hf : p.redirectRules.find? fun r => decide (r.dstPort = dstPort ∧ r.dstIP = dstIP) with
  | none => exact ⟨rfl, rfl⟩
  | some r =>
      rw [hf] at h
      exact Bool.noConfusion h

/-- Creation-shape invariant of a flow record: a flow that does not
rewrite its destination keeps the original destination as its outside
destination (both constructors of addConnection callers ensure it). -/
def connWF (c : Conn) : Prop :=
  c.rewriteDestination = false → c.outsideDstIP = c.localDstIp ∧ c.outsideDstPort = c.localDstPort

instance (c : Conn) : Decidable (connWF c) := by
  unfold connWF
  infer_instance

/-- All flows of a pair satisfy the creation-shape invariant. -/
def pairConnWF (p : Pair) : Prop := ∀ e ∈ p.out, connWF e.2

instance (p : Pair) : Decidable (pairConnWF p) := by
  unfold pairConnWF
  infer_instance

/-- The inbound IP restore only touches the addresses. -/
theorem restoreInboundIP_fields (c : Conn) (ih : IPv4Header) :
    (restoreInboundIP c ih).ihl = ih.ihl ∧ (restoreInboundIP c ih).version = ih.version ∧
    (restoreInboundIP c ih).protocol = ih.protocol := by
  unfold restoreInboundIP
  split
  · exact ⟨rfl, rfl, rfl⟩
  · exact ⟨rfl, rfl, rfl⟩

/-- Inversion of a successful UDP header parse. -/
theorem ParseUDPHeader_some_eq (p : List ℕ) (off : ℕ) (uh : UDPHeader)
    (h : ParseUDPHeader p off = some uh) :
    uh = ⟨read2 p off, read2 p (off + 2), read2 p (off + 4), read2 p (off + 6)⟩ := by
  unfold ParseUDPHeader at h
  split at h
  · exact Option.noConfusion h
  · exact (Option.some.inj h).symm

/-- Inversion of a successful TCP header parse. -/
theorem ParseTCPHeader_some_eq (p : List ℕ) (off : ℕ) (th : TCPHeader)
    (h : ParseTCPHeader p off = some th) :
    th = ⟨read2 p off, read2 p (off + 2), read4 p (off + 4), read4 p (off + 8),
          readByte p (off + 12) / 16, readByte p (off + 13),
          read2 p (off + 14), read2 p (off + 16), read2 p (off + 18)⟩ := by
  unfold ParseTCPHeader at h
  split at h
  · exact Option.noConfusion h
  · exact (Option.some.inj h).symm

/-- Inversion of a successful ICMP header parse. -/
theorem ParseICMPHeader_some_eq (p : List ℕ) (off : ℕ) (mh : ICMPHeader)
    (h : ParseICMPHeader p off = some mh) :
    mh = ⟨readByte p off, readByte p (off + 1), read2 p (off + 2),
          read2 p (off + 4), read2 p (off + 6)⟩ := by
  unfold ParseICMPHeader at h
  split at h
  · exact Option.noConfusion h
  · exact (Option.some.inj h).symm

/-- Reading past a prefix reads the suffix. -/
theorem readByte_append_ge (X B : List ℕ) (n : ℕ) (h : X.length ≤ n) :
    readByte (X ++ B) n = readByte B (n - X.length) := by
  unfold readByte
  rw [List.getD_append_right X B _ _ h]

/-- Byte views of a serialized UDP packet: the addresses sit in the IP
header, the rewritten ports right after it. -/
theorem serializeUDP_reads (ih : IPv4Header) (uh : UDPHeader) (p : List ℕ) (hl : ℕ)
    (hhl : hl = ih.ihl * 4) (h20 : 20 ≤ hl) (hlen : hl + 8 ≤ p.length) :
    (readByte (serializeUDP ih uh p hl) 12 = ih.sourceIP.b0 ∧
     readByte (serializeUDP ih uh p hl) 13 = ih.sourceIP.b1 ∧
     readByte (serializeUDP ih uh p hl) 14 = ih.sourceIP.b2 ∧
     readByte (serializeUDP ih uh p hl) 15 = ih.sourceIP.b3) ∧
    (readByte (serializeUDP ih uh p hl) 16 = ih.destinationIP.b0 ∧
     readByte (serializeUDP ih uh p hl) 17 = ih.destinationIP.b1 ∧
     readByte (serializeUDP ih uh p hl) 18 = ih.destinationIP.b2 ∧
     readByte (serializeUDP ih uh p hl) 19 = ih.destinationIP.b3) ∧
    read2 (serializeUDP ih uh p hl) hl = uh.sourcePort ∧
    read2 (serializeUDP ih uh p hl) (hl + 2) = uh.destinationPort := by
  rw [serializeUDP_eq ih uh p hl hhl h20 hlen]
  set mid := (p.drop 20).take (hl - 20) with hmiddef
  set A := ipv4HeaderBytes ih (calculateIPv4Checksum (ipv4HeaderBytes ih 0 ++ mid)) with hAdef
  set lfour := (bytes2 uh.sourcePort ++ (bytes2 uh.destinationPort ++ bytes2 uh.length)) ++
    (bytes2 (calculateUDPChecksum ih.sourceIP ih.destinationIP
      ((bytes2 uh.sourcePort ++ (bytes2 uh.destinationPort ++ bytes2 uh.length)) ++
        ([0, 0] ++ p.drop (hl + 8)))) ++ p.drop (hl + 8)) with hLdef
  have hAmid : (A ++ mid).length = hl := by
    rw [List.length_append, hAdef, length_ipv4HeaderBytes, hmiddef,
      List.length_take, List.length_drop]
    omega
  have hrd : ∀ k, readByte (A ++ (mid ++ lfour)) (hl + k) = readByte lfour k := by
    intro k
    rw [← List.append_assoc, readByte_append_ge _ _ _ (by rw [hAmid]; omega), hAmid]
    congr 1
    omega
  have h0 : readByte (A ++ (mid ++ lfour)) hl = readByte lfour 0 := hrd 0
  have h3 : readByte (A ++ (mid ++ lfour)) (hl + 2 + 1) = readByte lfour 3 := hrd 3
  refine ⟨⟨rfl, rfl, rfl, rfl⟩, ⟨rfl, rfl, rfl, rfl⟩, ?_, ?_⟩
  · show readByte (A ++ (mid ++ lfour)) hl * 256 +
      readByte (A ++ (mid ++ lfour)) (hl + 1) = uh.sourcePort
    rw [h0, hrd 1]
    show uh.sourcePort / 256 * 256 + uh.sourcePort % 256 = uh.sourcePort
    omega
  · show readByte (A ++ (mid ++ lfour)) (hl + 2) * 256 +
      readByte (A ++ (mid ++ lfour)) (hl + 2 + 1) = uh.destinationPort
    rw [hrd 2, h3]
    show uh.destinationPort / 256 * 256 + uh.destinationPort % 256 = uh.destinationPort
    omega

/-- Byte views of a serialized TCP packet. -/
theorem serializeTCP_reads (ih : IPv4Header) (th : TCPHeader) (p : List ℕ) (hl : ℕ)
    (hhl : hl = ih.ihl * 4) (h20 : 20 ≤ hl) (hlen : hl + 20 ≤ p.length) :
    (readByte (serializeTCP ih th p hl) 12 = ih.sourceIP.b0 ∧
     readByte (serializeTCP ih th p hl) 13 = ih.sourceIP.b1 ∧
     readByte (serializeTCP ih th p hl) 14 = ih.sourceIP.b2 ∧
     readByte (serializeTCP ih th p hl) 15 = ih.sourceIP.b3) ∧
    (readByte (serializeTCP ih th p hl) 16 = ih.destinationIP.b0 ∧
     readByte (serializeTCP ih th p hl) 17 = ih.destinationIP.b1 ∧
     readByte (serializeTCP ih th p hl) 18 = ih.destinationIP.b2 ∧
     readByte (serializeTCP ih th p hl) 19 = ih.destinationIP.b3) ∧
    read2 (serializeTCP ih th p hl) hl = th.sourcePort ∧
    read2 (serializeTCP ih th p hl) (hl + 2) = th.destinationPort := by
  rw [serializeTCP_eq ih th p hl hhl h20 hlen]
  set mid := (p.drop 20).take (hl - 20) with hmiddef
  set A := ipv4HeaderBytes ih (calculateIPv4Checksum (ipv4HeaderBytes ih 0 ++ mid)) with hAdef
  set lfour := (bytes2 th.sourcePort ++ (bytes2 th.destinationPort ++ (bytes4 th.sequence ++
      (bytes4 th.acknowledgment ++ ([th.dataOffset % 16 * 16, th.flags] ++ bytes2 th.window))))) ++
    (bytes2 (calculateTCPChecksum ih.sourceIP ih.destinationIP
        ((bytes2 th.sourcePort ++ (bytes2 th.destinationPort ++ (bytes4 th.sequence ++
            (bytes4 th.acknowledgment ++
              ([th.dataOffset % 16 * 16, th.flags] ++ bytes2 th.window))))) ++
          ([0, 0] ++ (bytes2 th.urgent ++ p.drop (hl + 20))))) ++
      (bytes2 th.urgent ++ p.drop (hl + 20))) with hLdef
  have hAmid : (A ++ mid).length = hl := by
    rw [List.length_append, hAdef, length_ipv4HeaderBytes, hmiddef,
      List.length_take, List.length_drop]
    omega
  have hrd : ∀ k, readByte (A ++ (mid ++ lfour)) (hl + k) = readByte lfour k := by
    intro k
    rw [← List.append_assoc, readByte_append_ge _ _ _ (by rw [hAmid]; omega), hAmid]
    congr 1
    omega
  have h0 : readByte (A ++ (mid ++ lfour)) hl = readByte lfour 0 := hrd 0
  have h3 : readByte (A ++ (mid ++ lfour)) (hl + 2 + 1) = readByte lfour 3 := hrd 3
  refine ⟨⟨rfl, rfl, rfl, rfl⟩, ⟨rfl, rfl, rfl, rfl⟩, ?_, ?_⟩
  · show readByte (A ++ (mid ++ lfour)) hl * 256 +
      readByte (A ++ (mid ++ lfour)) (hl + 1) = th.sourcePort
    rw [h0, hrd 1]
    show th.sourcePort / 256 * 256 + th.sourcePort % 256 = th.sourcePort
    omega
  · show readByte (A ++ (mid ++ lfour)) (hl + 2) * 256 +
      readByte (A ++ (mid ++ lfour)) (hl + 2 + 1) = th.destinationPort
    rw [hrd 2, h3]
    show th.destinationPort / 256 * 256 + th.destinationPort % 256 = th.destinationPort
    omega

/-- Byte views of a serialized ICMP packet: the type right after the IP
header and the rewritten identifier at offset 4. -/
theorem serializeICMP_reads (ih : IPv4Header) (mh : ICMPHeader) (p : List ℕ) (hl : ℕ)
    (hhl : hl = ih.ihl * 4) (h20 : 20 ≤ hl) (hlen : hl + 8 ≤ p.length) :
    (readByte (serializeICMP ih mh p hl) 12 = ih.sourceIP.b0 ∧
     readByte (serializeICMP ih mh p hl) 13 = ih.sourceIP.b1 ∧
     readByte (serializeICMP ih mh p hl) 14 = ih.sourceIP.b2 ∧
     readByte (serializeICMP ih mh p hl) 15 = ih.sourceIP.b3) ∧
    (readByte (serializeICMP ih mh p hl) 16 = ih.destinationIP.b0 ∧
     readByte (serializeICMP ih mh p hl) 17 = ih.destinationIP.b1 ∧
     readByte (serializeICMP ih mh p hl) 18 = ih.destinationIP.b2 ∧
     readByte (serializeICMP ih mh p hl) 19 = ih.destinationIP.b3) ∧
    readByte (serializeICMP ih mh p hl) hl = mh.icmpType ∧
    read2 (serializeICMP ih mh p hl) (hl + 4) = mh.id := by
  rw [serializeICMP_eq ih mh p hl hhl h20 hlen]
  set mid := (p.drop 20).take (hl - 20) with hmiddef
  set A := ipv4HeaderBytes ih (calculateIPv4Checksum (ipv4HeaderBytes ih 0 ++ mid)) with hAdef
  set lfour := [mh.icmpType, mh.code] ++
    (bytes2 (calculateICMPChecksum
        ([mh.icmpType, mh.code] ++
          ([0, 0] ++ (bytes2 mh.id ++ (bytes2 mh.sequence ++ p.drop (hl + 8)))))) ++
      (bytes2 mh.id ++ (bytes2 mh.sequence ++ p.drop (hl + 8)))) with hLdef
  have hAmid : (A ++ mid).length = hl := by
    rw [List.length_append, hAdef, length_ipv4HeaderBytes, hmiddef,
      List.length_take, List.length_drop]
    omega
  have hrd : ∀ k, readByte (A ++ (mid ++ lfour)) (hl + k) = readByte lfour k := by
    intro k
    rw [← List.append_assoc, readByte_append_ge _ _ _ (by rw [hAmid]; omega), hAmid]
    congr 1
    omega
  have h0 : readByte (A ++ (mid ++ lfour)) hl = readByte lfour 0 := hrd 0
  have h5 : readByte (A ++ (mid ++ lfour)) (hl + 4 + 1) = readByte lfour 5 := hrd 5
  refine ⟨⟨rfl, rfl, rfl, rfl⟩, ⟨rfl, rfl, rfl, rfl⟩, ?_, ?_⟩
  · rw [h0]
    rfl
  · show readByte (A ++ (mid ++ lfour)) (hl + 4) * 256 +
      readByte (A ++ (mid ++ lfour)) (hl + 4 + 1) = mh.id
    rw [hrd 4, h5]
    show mh.id / 256 * 256 + mh.id % 256 = mh.id
    omega

/-- addConnection always leaves the new flow under its external key. -/
theorem addConnection_lookup_inMap (P : Pair) (c : Conn) (m : ℤ) :
    lookupM (addConnection P c m).inMap (ekeyOf c) = some c := by
  unfold addConnection
  exact lookupM_insertM_self _ _ _

/-- Anatomy of a successful handleOutboundUDP: the flow record the
packet was rewritten with, reachable again under its external key. -/
theorem handleOutboundUDP_ok_full (t : Table) (p : List ℕ) (ih : IPv4Header)
    (hl ns : ℕ) (now : ℤ) (hwf : pairWF t.UDP) (hcwf : pairConnWF t.UDP)
    (hok : (handleOutboundUDP t p ih hl ns now).1 = OutRes.ok) :
    ∃ conn uh, ParseUDPHeader p hl = some uh ∧
      (handleOutboundUDP t p ih hl ns now).2.1 =
        serializeUDP (rewriteOutboundIP conn ih) (rewriteOutboundUDP conn uh) p hl ∧
      lookupM (handleOutboundUDP t p ih hl ns now).2.2.UDP.inMap (ekeyOf conn) = some conn ∧
      (rewriteOutboundIP conn ih).sourceIP = conn.outsideSrcIP ∧
      (rewriteOutboundIP conn ih).destinationIP = conn.outsideDstIP ∧
      (rewriteOutboundUDP conn uh).sourcePort = conn.outsideSrcPort ∧
      (rewriteOutboundUDP conn uh).destinationPort = conn.outsideDstPort ∧
      conn.namespace_ = ns ∧ conn.localSrcIP = ih.sourceIP ∧
      conn.localSrcPort = uh.sourcePort := by
  unfold handleOutboundUDP finishOutboundUDP at hok ⊢
  cases hup : ParseUDPHeader p hl with
  | none =>
      rw [hup] at hok
      exact OutRes.noConfusion hok
  | some uh =>
      rw [hup] at hok
      dsimp only at hok ⊢
      cases hdr : checkDropRule t.UDP uh.destinationPort with
      | true =>
          rw [hdr, if_pos rfl] at hok
          exact OutRes.noConfusion hok
      | false =>
          rw [hdr, if_neg (by decide)] at hok
          rw [if_neg (by decide)]
          cases hlo : lookupOutbound t.UDP
              ⟨ih.sourceIP, ih.destinationIP, uh.sourcePort, uh.destinationPort, ns⟩ with
          | some conn0 =>
              rw [hlo] at hok
              dsimp only at hok ⊢
              have hmem : ((⟨ih.sourceIP, ih.destinationIP, uh.sourcePort,
                  uh.destinationPort, ns⟩ : InternalKey), conn0) ∈ t.UDP.out :=
                lookupM_some_mem _ _ _ hlo
              have hik : (⟨ih.sourceIP, ih.destinationIP, uh.sourcePort,
                  uh.destinationPort, ns⟩ : InternalKey) = ikeyOf conn0 := hwf.1 _ hmem
              have hldip : conn0.localDstIp = ih.destinationIP :=
                (congrArg InternalKey.dstIP hik).symm
              have hldp : conn0.localDstPort = uh.destinationPort :=
                (congrArg InternalKey.dstPort hik).symm
              have hinm : (ekeyOf conn0, conn0) ∈ t.UDP.inMap := hwf.2.2.2.2.1 _ hmem
              have hlkin : lookupM t.UDP.inMap (ekeyOf conn0) = some conn0 :=
                lookupM_eq_of_mem_nodup _ hwf.2.2.2.1 _ _ hinm
              have hcw : connWF conn0 := hcwf _ hmem
              refine ⟨{conn0 with lastSeen := now}, uh, rfl, rfl, ?_, ?_, ?_, ?_, ?_,
                (congrArg InternalKey.namespace_ hik).symm,
                (congrArg InternalKey.srcIP hik).symm,
                (congrArg InternalKey.srcPort hik).symm⟩
              · show lookupM (updateConnPair t.UDP conn0
                    { conn0 with lastSeen := now }).inMap
                    (ekeyOf { conn0 with lastSeen := now }) = some { conn0 with lastSeen := now }
                rw [show ekeyOf { conn0 with lastSeen := now } = ekeyOf conn0 from rfl]
                unfold updateConnPair
                exact lookupM_map_update _ _ _ _ hlkin
              · unfold rewriteOutboundIP
                split
                · rfl
                · rfl
              · unfold rewriteOutboundIP
                split
                · rfl
                · rename_i hrd2
                  have hrdf : conn0.rewriteDestination = false := by
                    cases hb : conn0.rewriteDestination with
                    | false => rfl
                    | true => exact absurd hb hrd2
                  obtain ⟨hodip, _⟩ := hcw hrdf
                  show ih.destinationIP = conn0.outsideDstIP
                  rw [hodip, hldip]
              · unfold rewriteOutboundUDP
                split
                · rfl
                · rfl
              · unfold rewriteOutboundUDP
                split
                · rfl
                · rename_i hrd2
                  have hrdf : conn0.rewriteDestination = false := by
                    cases hb : conn0.rewriteDestination with
                    | false => rfl
                    | true => exact absurd hb hrd2
                  obtain ⟨_, hodp⟩ := hcw hrdf
                  show uh.destinationPort = conn0.outsideDstPort
                  rw [hodp, hldp]
          | none =>
              rw [hlo] at hok
              dsimp only at hok ⊢
              refine ⟨_, uh, rfl, rfl, ?_, ?_, ?_, ?_, ?_, rfl, rfl, rfl⟩
              · exact addConnection_lookup_inMap _ _ _
              · unfold rewriteOutboundIP
                split
                · rfl
                · rfl
              · unfold rewriteOutboundIP
                split
                · rfl
                · rename_i hrd2
                  have hrdf : (checkRedirectRule t.UDP ih.destinationIP
                      uh.destinationPort).2.2 = false := by
                    cases hb : (checkRedirectRule t.UDP ih.destinationIP
                        uh.destinationPort).2.2 with
                    | false => rfl
                    | true => exact absurd hb hrd2
                  show ih.destinationIP = (checkRedirectRule t.UDP ih.destinationIP
                    uh.destinationPort).1
                  rw [(checkRedirectRule_false _ _ _ hrdf).1]
              · unfold rewriteOutboundUDP
                split
                · rfl
                · rfl
              · unfold rewriteOutboundUDP
                split
                · rfl
                · rename_i hrd2
                  have hrdf : (checkRedirectRule t.UDP ih.destinationIP
                      uh.destinationPort).2.2 = false := by
                    cases hb : (checkRedirectRule t.UDP ih.destinationIP
                        uh.destinationPort).2.2 with
                    | false => rfl
                    | true => exact absurd hb hrd2
                  show uh.destinationPort = (checkRedirectRule t.UDP ih.destinationIP
                    uh.destinationPort).2.1
                  rw [(checkRedirectRule_false _ _ _ hrdf).2]

/-- Anatomy of a successful handleOutboundTCP: the flow used for the
rewrite, and the (possibly sweep-marked) record reachable under the same
external key afterwards. -/
theorem handleOutboundTCP_ok_full (t : Table) (p : List ℕ) (ih : IPv4Header)
    (hl ns : ℕ) (now : ℤ) (hwf : pairWF t.TCP) (hcwf : pairConnWF t.TCP)
    (hok : (handleOutboundTCP t p ih hl ns now).1 = OutRes.ok) :
    ∃ connS connM th, ParseTCPHeader p hl = some th ∧
      (handleOutboundTCP t p ih hl ns now).2.1 =
        serializeTCP (rewriteOutboundIP connS ih) (rewriteOutboundTCP connS th) p hl ∧
      lookupM (handleOutboundTCP t p ih hl ns now).2.2.TCP.inMap (ekeyOf connS) = some connM ∧
      connM.namespace_ = connS.namespace_ ∧ connM.localSrcIP = connS.localSrcIP ∧
      connM.localSrcPort = connS.localSrcPort ∧
      (rewriteOutboundIP connS ih).sourceIP = connS.outsideSrcIP ∧
      (rewriteOutboundIP connS ih).destinationIP = connS.outsideDstIP ∧
      (rewriteOutboundTCP connS th).sourcePort = connS.outsideSrcPort ∧
      (rewriteOutboundTCP connS th).destinationPort = connS.outsideDstPort ∧
      connS.namespace_ = ns ∧ connS.localSrcIP = ih.sourceIP ∧
      connS.localSrcPort = th.sourcePort := by
  unfold handleOutboundTCP finishOutboundTCP at hok ⊢
  cases htp : ParseTCPHeader p hl with
  | none =>
      rw [htp] at hok
      exact OutRes.noConfusion hok
  | some th =>
      rw [htp] at hok
      dsimp only at hok ⊢
      cases hdr : checkDropRule t.TCP th.destinationPort with
      | true =>
          rw [hdr, if_pos rfl] at hok
          exact OutRes.noConfusion hok
      | false =>
          rw [hdr, if_neg (by decide)] at hok
          rw [if_neg (by decide)]
          cases hlo : lookupOutbound t.TCP
              ⟨ih.sourceIP, ih.destinationIP, th.sourcePort, th.destinationPort, ns⟩ with
          | some conn0 =>
              rw [hlo] at hok
              dsimp only at hok ⊢
              have hmem : ((⟨ih.sourceIP, ih.destinationIP, th.sourcePort,
                  th.destinationPort, ns⟩ : InternalKey), conn0) ∈ t.TCP.out :=
                lookupM_some_mem _ _ _ hlo
              have hik : (⟨ih.sourceIP, ih.destinationIP, th.sourcePort,
                  th.destinationPort, ns⟩ : InternalKey) = ikeyOf conn0 := hwf.1 _ hmem
              have hldip : conn0.localDstIp = ih.destinationIP :=
                (congrArg InternalKey.dstIP hik).symm
              have hldp : conn0.localDstPort = th.destinationPort :=
                (congrArg InternalKey.dstPort hik).symm
              have hinm : (ekeyOf conn0, conn0) ∈ t.TCP.inMap := hwf.2.2.2.2.1 _ hmem
              have hlkin : lookupM t.TCP.inMap (ekeyOf conn0) = some conn0 :=
                lookupM_eq_of_mem_nodup _ hwf.2.2.2.1 _ _ hinm
              have hcw : connWF conn0 := hcwf _ hmem
              have hdst : (rewriteOutboundIP { conn0 with lastSeen := now } ih).destinationIP =
                  ({ conn0 with lastSeen := now } : Conn).outsideDstIP := by
                unfold rewriteOutboundIP
                split
                · rfl
                · rename_i hrd2
                  have hrdf : conn0.rewriteDestination = false := by
                    cases hb : conn0.rewriteDestination with
                    | false => rfl
                    | true => exact absurd hb hrd2
                  obtain ⟨hodip, _⟩ := hcw hrdf
                  show ih.destinationIP = conn0.outsideDstIP
                  rw [hodip, hldip]
              have hdpt : (rewriteOutboundTCP { conn0 with lastSeen := now } th).destinationPort =
                  ({ conn0 with lastSeen := now } : Conn).outsideDstPort := by
                unfold rewriteOutboundTCP
                split
                · rfl
                · rename_i hrd2
                  have hrdf : conn0.rewriteDestination = false := by
                    cases hb : conn0.rewriteDestination with
                    | false => rfl
                    | true => exact absurd hb hrd2
                  obtain ⟨_, hodp⟩ := hcw hrdf
                  show th.destinationPort = conn0.outsideDstPort
                  rw [hodp, hldp]
              have hsrc : (rewriteOutboundIP { conn0 with lastSeen := now } ih).sourceIP =
                  ({ conn0 with lastSeen := now } : Conn).outsideSrcIP := by
                unfold rewriteOutboundIP
                split
                · rfl
                · rfl
              have hspt : (rewriteOutboundTCP { conn0 with lastSeen := now } th).sourcePort =
                  ({ conn0 with lastSeen := now } : Conn).outsideSrcPort := by
                unfold rewriteOutboundTCP
                split
                · rfl
                · rfl
              by_cases hfin : (rewriteOutboundTCP { conn0 with lastSeen := now } th).flags
                  &&& (TCPFlagFIN ||| TCPFlagRST) ≠ 0
              · rw [if_pos hfin]
                refine ⟨{ conn0 with lastSeen := now },
                  { conn0 with lastSeen := now, pendingSweep := true }, th, rfl, rfl, ?_,
                  rfl, rfl, rfl, hsrc, hdst, hspt, hdpt,
                  (congrArg InternalKey.namespace_ hik).symm,
                  (congrArg InternalKey.srcIP hik).symm,
                  (congrArg InternalKey.srcPort hik).symm⟩
                show lookupM ((updateConnPair (updateConnPair t.TCP conn0
                    { conn0 with lastSeen := now }) { conn0 with lastSeen := now }
                    { conn0 with lastSeen := now, pendingSweep := true }).inMap)
                    (ekeyOf { conn0 with lastSeen := now }) =
                    some { conn0 with lastSeen := now, pendingSweep := true }
                rw [show ekeyOf { conn0 with lastSeen := now } = ekeyOf conn0 from rfl]
                unfold updateConnPair
                exact lookupM_map_update _ _ _ _ (lookupM_map_update _ _ _ _ hlkin)
              · rw [if_neg hfin]
                refine ⟨{ conn0 with lastSeen := now }, { conn0 with lastSeen := now },
                  th, rfl, rfl, ?_, rfl, rfl, rfl, hsrc, hdst, hspt, hdpt,
                  (congrArg InternalKey.namespace_ hik).symm,
                  (congrArg InternalKey.srcIP hik).symm,
                  (congrArg InternalKey.srcPort hik).symm⟩
                show lookupM ((updateConnPair t.TCP conn0
                    { conn0 with lastSeen := now }).inMap)
                    (ekeyOf { conn0 with lastSeen := now }) =
                    some { conn0 with lastSeen := now }
                rw [show ekeyOf { conn0 with lastSeen := now } = ekeyOf conn0 from rfl]
                unfold updateConnPair
                exact lookupM_map_update _ _ _ _ hlkin
          | none =>
              rw [hlo] at hok
              dsimp only at hok ⊢
              have hsrc : ∀ c : Conn, (rewriteOutboundIP c ih).sourceIP = c.outsideSrcIP := by
                intro c
                unfold rewriteOutboundIP
                split
                · rfl
                · rfl
              have hspt : ∀ c : Conn, (rewriteOutboundTCP c th).sourcePort = c.outsideSrcPort := by
                intro c
                unfold rewriteOutboundTCP
                split
                · rfl
                · rfl
              by_cases hfin : (rewriteOutboundTCP
                  { lastSeen := now, protocol := ProtocolTCP, namespace_ := ns,
                    localSrcIP := ih.sourceIP, localSrcPort := th.sourcePort,
                    localDstIp := ih.destinationIP, localDstPort := th.destinationPort,
                    outsideSrcIP := t.externalIP, outsideSrcPort := (allocatePort t).1,
                    outsideDstIP := (checkRedirectRule t.TCP ih.destinationIP
                      th.destinationPort).1,
                    outsideDstPort := (checkRedirectRule t.TCP ih.destinationIP
                      th.destinationPort).2.1,
                    rewriteDestination := (checkRedirectRule t.TCP ih.destinationIP
                      th.destinationPort).2.2,
                    pendingSweep := false } th).flags &&& (TCPFlagFIN ||| TCPFlagRST) ≠ 0
              · rw [if_pos hfin]
                refine ⟨_, { lastSeen := now, protocol := ProtocolTCP, namespace_ := ns,
                             localSrcIP := ih.sourceIP, localSrcPort := th.sourcePort,
                             localDstIp := ih.destinationIP,
                             localDstPort := th.destinationPort,
                             outsideSrcIP := t.externalIP,
                             outsideSrcPort := (allocatePort t).1,
                             outsideDstIP := (checkRedirectRule t.TCP ih.destinationIP
                               th.destinationPort).1,
                             outsideDstPort := (checkRedirectRule t.TCP ih.destinationIP
                               th.destinationPort).2.1,
                             rewriteDestination := (checkRedirectRule t.TCP ih.destinationIP
                               th.destinationPort).2.2,
                             pendingSweep := true }, th, rfl, rfl, ?_, rfl, rfl, rfl,
                  hsrc _, ?_, hspt _, ?_, rfl, rfl, rfl⟩
                · unfold updateConnPair
                  exact lookupM_map_update _ _ _ _ (addConnection_lookup_inMap _ _ _)
                · unfold rewriteOutboundIP
                  split
                  · rfl
                  · rename_i hrd2
                    have hrdf : (checkRedirectRule t.TCP ih.destinationIP
                        th.destinationPort).2.2 = false := by
                      cases hb : (checkRedirectRule t.TCP ih.destinationIP
                          th.destinationPort).2.2 with
                      | false => rfl
                      | true => exact absurd hb hrd2
                    show ih.destinationIP = (checkRedirectRule t.TCP ih.destinationIP
                      th.destinationPort).1
                    rw [(checkRedirectRule_false _ _ _ hrdf).1]
                · unfold rewriteOutboundTCP
                  split
                  · rfl
                  · rename_i hrd2
                    have hrdf : (checkRedirectRule t.TCP ih.destinationIP
                        th.destinationPort).2.2 = false := by
                      cases hb : (checkRedirectRule t.TCP ih.destinationIP
                          th.destinationPort).2.2 with
                      | false => rfl
                      | true => exact absurd hb hrd2
                    show th.destinationPort = (checkRedirectRule t.TCP ih.destinationIP
                      th.destinationPort).2.1
                    rw [(checkRedirectRule_false _ _ _ hrdf).2]
              · rw [if_neg hfin]
                refine ⟨_, _, th, rfl, rfl, ?_, rfl, rfl, rfl, hsrc _, ?_, hspt _, ?_,
                  rfl, rfl, rfl⟩
                · exact addConnection_lookup_inMap _ _ _
                · unfold rewriteOutboundIP
                  split
                  · rfl
                  · rename_i hrd2
                    have hrdf : (checkRedirectRule t.TCP ih.destinationIP
                        th.destinationPort).2.2 = false := by
                      cases hb : (checkRedirectRule t.TCP ih.destinationIP
                          th.destinationPort).2.2 with
                      | false => rfl
                      | true => exact absurd hb hrd2
                    show ih.destinationIP = (checkRedirectRule t.TCP ih.destinationIP
                      th.destinationPort).1
                    rw [(checkRedirectRule_false _ _ _ hrdf).1]
                · unfold rewriteOutboundTCP
                  split
                  · rfl
                  · rename_i hrd2
                    have hrdf : (checkRedirectRule t.TCP ih.destinationIP
                        th.destinationPort).2.2 = false := by
                      cases hb : (checkRedirectRule t.TCP ih.destinationIP
                          th.destinationPort).2.2 with
                      | false => rfl
                      | true => exact absurd hb hrd2
                    show th.destinationPort = (checkRedirectRule t.TCP ih.destinationIP
                      th.destinationPort).2.1
                    rw [(checkRedirectRule_false _ _ _ hrdf).2]

/-- Anatomy of a successful handleOutboundICMP on an echo packet. -/
theorem handleOutboundICMP_ok_full (t : Table) (p : List ℕ) (ih : IPv4Header)
    (hl ns : ℕ) (now : ℤ) (hwf : pairWF t.ICMP) (hcwf : pairConnWF t.ICMP)
    (hicmp0 : ∀ e ∈ t.ICMP.out, e.2.outsideDstPort = 0)
    (hecho : readByte p hl = ICMPTypeEchoRequest ∨ readByte p hl = ICMPTypeEchoReply)
    (hok : (handleOutboundICMP t p ih hl ns now).1 = OutRes.ok) :
    ∃ conn mh, ParseICMPHeader p hl = some mh ∧
      (handleOutboundICMP t p ih hl ns now).2.1 =
        serializeICMP (rewriteOutboundIP conn ih) { mh with id := conn.outsideSrcPort } p hl ∧
      lookupM (handleOutboundICMP t p ih hl ns now).2.2.ICMP.inMap (ekeyOf conn) = some conn ∧
      (rewriteOutboundIP conn ih).sourceIP = conn.outsideSrcIP ∧
      (rewriteOutboundIP conn ih).destinationIP = conn.outsideDstIP ∧
      conn.outsideDstPort = 0 ∧
      conn.namespace_ = ns ∧ conn.localSrcIP = ih.sourceIP ∧
      conn.localSrcPort = mh.id := by
  unfold handleOutboundICMP finishOutboundICMP at hok ⊢
  dsimp only at hok ⊢
  by_cases hl8 : p.length < hl + 8
  · rw [if_pos hl8] at hok
    exact OutRes.noConfusion hok
  · rw [if_neg hl8] at hok ⊢
    have hnp : ¬(readByte p hl ≠ ICMPTypeEchoRequest ∧ readByte p hl ≠ ICMPTypeEchoReply) := by
      rcases hecho with he | he
      · exact fun hc => hc.1 he
      · exact fun hc => hc.2 he
    rw [if_neg hnp] at hok ⊢
    cases hmp : ParseICMPHeader p hl with
    | none =>
        rw [hmp] at hok
        exact OutRes.noConfusion hok
    | some mh =>
        rw [hmp] at hok
        dsimp only at hok ⊢
        cases hlo : lookupOutbound t.ICMP ⟨ih.sourceIP, ih.destinationIP, mh.id, 0, ns⟩ with
        | some conn0 =>
            rw [hlo] at hok
            dsimp only at hok ⊢
            have hmem : ((⟨ih.sourceIP, ih.destinationIP, mh.id, 0, ns⟩ : InternalKey),
                conn0) ∈ t.ICMP.out := lookupM_some_mem _ _ _ hlo
            have hik : (⟨ih.sourceIP, ih.destinationIP, mh.id, 0, ns⟩ : InternalKey) =
                ikeyOf conn0 := hwf.1 _ hmem
            have hldip : conn0.localDstIp = ih.destinationIP :=
              (congrArg InternalKey.dstIP hik).symm
            have hinm : (ekeyOf conn0, conn0) ∈ t.ICMP.inMap := hwf.2.2.2.2.1 _ hmem
            have hlkin : lookupM t.ICMP.inMap (ekeyOf conn0) = some conn0 :=
              lookupM_eq_of_mem_nodup _ hwf.2.2.2.1 _ _ hinm
            have hcw : connWF conn0 := hcwf _ hmem
            refine ⟨{ conn0 with lastSeen := now }, mh, rfl, rfl, ?_, ?_, ?_,
              hicmp0 _ hmem, (congrArg InternalKey.namespace_ hik).symm,
              (congrArg InternalKey.srcIP hik).symm,
              (congrArg InternalKey.srcPort hik).symm⟩
            · show lookupM ((updateConnPair t.ICMP conn0
                  { conn0 with lastSeen := now }).inMap)
                  (ekeyOf { conn0 with lastSeen := now }) = some { conn0 with lastSeen := now }
              rw [show ekeyOf { conn0 with lastSeen := now } = ekeyOf conn0 from rfl]
              unfold updateConnPair
              exact lookupM_map_update _ _ _ _ hlkin
            · unfold rewriteOutboundIP
              split
              · rfl
              · rfl
            · unfold rewriteOutboundIP
              split
              · rfl
              · rename_i hrd2
                have hrdf : conn0.rewriteDestination = false := by
                  cases hb : conn0.rewriteDestination with
                  | false => rfl
                  | true => exact absurd hb hrd2
                obtain ⟨hodip, _⟩ := hcw hrdf
                show ih.destinationIP = conn0.outsideDstIP
                rw [hodip, hldip]
        | none =>
            rw [hlo] at hok
            dsimp only at hok ⊢
            refine ⟨_, mh, rfl, rfl, ?_, ?_, ?_, rfl, rfl, rfl, rfl⟩
            · exact addConnection_lookup_inMap _ _ _
            · unfold rewriteOutboundIP
              split
              · rfl
              · rfl
            · unfold rewriteOutboundIP
              split
              · rfl
              · rename_i hrd2
                have hrdf : (checkRedirectRule t.ICMP ih.destinationIP 0).2.2 = false := by
                  cases hb : (checkRedirectRule t.ICMP ih.destinationIP 0).2.2 with
                  | false => rfl
                  | true => exact absurd hb hrd2
                show ih.destinationIP = (checkRedirectRule t.ICMP ih.destinationIP 0).1
                rw [(checkRedirectRule_false _ _ _ hrdf).1]

/-- handleInboundUDP on a packet whose external key hits a flow:
success with the flow's namespace, and the restored serialization. -/
theorem handleInboundUDP_hit (t : Table) (r : List ℕ) (rh : IPv4Header) (hl : ℕ)
    (now : ℤ) (conn : Conn) (hlen : hl + 8 ≤ r.length)
    (hlk : lookupM t.UDP.inMap
      ⟨rh.sourceIP, rh.destinationIP, read2 r hl, read2 r (hl + 2)⟩ = some conn) :
    (handleInboundUDP t r rh hl now).1 = InRes.ok conn.namespace_ ∧
    (handleInboundUDP t r rh hl now).2.1 =
      serializeUDP (restoreInboundIP { conn with lastSeen := now } rh)
        (restoreInboundUDP { conn with lastSeen := now }
          ⟨read2 r hl, read2 r (hl + 2), read2 r (hl + 4), read2 r (hl + 6)⟩) r hl := by
  unfold handleInboundUDP finishInboundUDP
  have hup : ParseUDPHeader r hl =
      some ⟨read2 r hl, read2 r (hl + 2), read2 r (hl + 4), read2 r (hl + 6)⟩ := by
    unfold ParseUDPHeader
    rw [if_neg (by omega)]
  rw [hup]
  dsimp only
  rw [show lookupInbound t.UDP
    ⟨rh.sourceIP, rh.destinationIP, read2 r hl, read2 r (hl + 2)⟩ = some conn from hlk]
  exact ⟨rfl, rfl⟩

/-- handleInboundTCP on a packet whose external key hits a flow. -/
theorem handleInboundTCP_hit (t : Table) (r : List ℕ) (rh : IPv4Header) (hl : ℕ)
    (now : ℤ) (conn : Conn) (hlen : hl + 20 ≤ r.length)
    (hlk : lookupM t.TCP.inMap
      ⟨rh.sourceIP, rh.destinationIP, read2 r hl, read2 r (hl + 2)⟩ = some conn) :
    (handleInboundTCP t r rh hl now).1 = InRes.ok conn.namespace_ ∧
    (handleInboundTCP t r rh hl now).2.1 =
      serializeTCP (restoreInboundIP { conn with lastSeen := now } rh)
        (restoreInboundTCP { conn with lastSeen := now }
          ⟨read2 r hl, read2 r (hl + 2), read4 r (hl + 4), read4 r (hl + 8),
           readByte r (hl + 12) / 16, readByte r (hl + 13), read2 r (hl + 14),
           read2 r (hl + 16), read2 r (hl + 18)⟩) r hl := by
  unfold handleInboundTCP finishInboundTCP
  have htp : ParseTCPHeader r hl =
      some ⟨read2 r hl, read2 r (hl + 2), read4 r (hl + 4), read4 r (hl + 8),
        readByte r (hl + 12) / 16, readByte r (hl + 13), read2 r (hl + 14),
        read2 r (hl + 16), read2 r (hl + 18)⟩ := by
    unfold ParseTCPHeader
    rw [if_neg (by omega)]
  rw [htp]
  dsimp only
  rw [show lookupInbound t.TCP
    ⟨rh.sourceIP, rh.destinationIP, read2 r hl, read2 r (hl + 2)⟩ = some conn from hlk]
  exact ⟨rfl, rfl⟩

/-- handleInboundICMP on an echo packet whose external key hits a flow. -/
theorem handleInboundICMP_hit (t : Table) (r : List ℕ) (rh : IPv4Header) (hl : ℕ)
    (now : ℤ) (conn : Conn) (hlen : hl + 8 ≤ r.length)
    (hty : readByte r hl = ICMPTypeEchoReply ∨ readByte r hl = ICMPTypeEchoRequest)
    (hlk : lookupM t.ICMP.inMap
      ⟨rh.sourceIP, rh.destinationIP, 0, read2 r (hl + 4)⟩ = some conn) :
    (handleInboundICMP t r rh hl now).1 = InRes.ok conn.namespace_ ∧
    (handleInboundICMP t r rh hl now).2.1 =
      serializeICMP (restoreInboundIP { conn with lastSeen := now } rh)
        ⟨readByte r hl, readByte r (hl + 1), read2 r (hl + 2),
         conn.localSrcPort, read2 r (hl + 6)⟩ r hl := by
  unfold handleInboundICMP finishInboundICMP
  dsimp only
  rw [if_neg (by omega), if_pos hty]
  have hmp : ParseICMPHeader r hl =
      some ⟨readByte r hl, readByte r (hl + 1), read2 r (hl + 2),
        read2 r (hl + 4), read2 r (hl + 6)⟩ := by
    unfold ParseICMPHeader
    rw [if_neg (by omega)]
  rw [hmp]
  dsimp only
  rw [show lookupInbound t.ICMP
    ⟨rh.sourceIP, rh.destinationIP, 0, read2 r (hl + 4)⟩ = some conn from hlk]
  exact ⟨rfl, rfl⟩

/-- The UDP round trip at the handler level: a reply that swaps the
addresses and ports of the rewritten packet is accepted, restored to the
original source, and attributed to the original namespace. -/
theorem handleUDP_roundtrip (t : Table) (p r : List ℕ) (ih rh : IPv4Header)
    (ns : ℕ) (now now2 : ℤ) (hwf : pairWF t.UDP) (hcwf : pairConnWF t.UDP)
    (h5 : 5 ≤ ih.ihl)
    (hok : (handleOutboundUDP t p ih (ih.ihl * 4) ns now).1 = OutRes.ok)
    (hr5 : 5 ≤ rh.ihl) (hrlen : rh.ihl * 4 + 8 ≤ r.length)
    (hrsrc : rh.sourceIP =
      ⟨readByte (handleOutboundUDP t p ih (ih.ihl * 4) ns now).2.1 16,
       readByte (handleOutboundUDP t p ih (ih.ihl * 4) ns now).2.1 17,
       readByte (handleOutboundUDP t p ih (ih.ihl * 4) ns now).2.1 18,
       readByte (handleOutboundUDP t p ih (ih.ihl * 4) ns now).2.1 19⟩)
    (hrdst : rh.destinationIP =
      ⟨readByte (handleOutboundUDP t p ih (ih.ihl * 4) ns now).2.1 12,
       readByte (handleOutboundUDP t p ih (ih.ihl * 4) ns now).2.1 13,
       readByte (handleOutboundUDP t p ih (ih.ihl * 4) ns now).2.1 14,
       readByte (handleOutboundUDP t p ih (ih.ihl * 4) ns now).2.1 15⟩)
    (hsp : read2 r (rh.ihl * 4) =
      read2 (handleOutboundUDP t p ih (ih.ihl * 4) ns now).2.1 (ih.ihl * 4 + 2))
    (hdp : read2 r (rh.ihl * 4 + 2) =
      read2 (handleOutboundUDP t p ih (ih.ihl * 4) ns now).2.1 (ih.ihl * 4)) :
    (handleInboundUDP (handleOutboundUDP t p ih (ih.ihl * 4) ns now).2.2 r rh
      (rh.ihl * 4) now2).1 = InRes.ok ns ∧
    (readByte (handleInboundUDP (handleOutboundUDP t p ih (ih.ihl * 4) ns now).2.2 r rh
        (rh.ihl * 4) now2).2.1 16 = ih.sourceIP.b0 ∧
     readByte (handleInboundUDP (handleOutboundUDP t p ih (ih.ihl * 4) ns now).2.2 r rh
        (rh.ihl * 4) now2).2.1 17 = ih.sourceIP.b1 ∧
     readByte (handleInboundUDP (handleOutboundUDP t p ih (ih.ihl * 4) ns now).2.2 r rh
        (rh.ihl * 4) now2).2.1 18 = ih.sourceIP.b2 ∧
     readByte (handleInboundUDP (handleOutboundUDP t p ih (ih.ihl * 4) ns now).2.2 r rh
        (rh.ihl * 4) now2).2.1 19 = ih.sourceIP.b3) ∧
    read2 (handleInboundUDP (handleOutboundUDP t p ih (ih.ihl * 4) ns now).2.2 r rh
      (rh.ihl * 4) now2).2.1 (rh.ihl * 4 + 2) = read2 p (ih.ihl * 4) := by
  obtain ⟨conn, uh, hup, hshape, hlkin, hsrcE, hdstE, hspE, hdpE, hnsE, hlsipE, hlspE⟩ :=
    handleOutboundUDP_ok_full t p ih (ih.ihl * 4) ns now hwf hcwf hok
  have hlen : ih.ihl * 4 + 8 ≤ p.length := ParseUDPHeader_some_length _ _ _ hup
  have hf := rewriteOutboundIP_fields conn ih
  have hreads := serializeUDP_reads (rewriteOutboundIP conn ih) (rewriteOutboundUDP conn uh)
    p (ih.ihl * 4) (by rw [hf.1]) (by omega) hlen
  rw [hshape] at hrsrc hrdst hsp hdp
  have hsrc2 : rh.sourceIP = conn.outsideDstIP := by
    rw [hrsrc, hreads.2.1.1, hreads.2.1.2.1, hreads.2.1.2.2.1, hreads.2.1.2.2.2, hdstE]
  have hdst2 : rh.destinationIP = conn.outsideSrcIP := by
    rw [hrdst, hreads.1.1, hreads.1.2.1, hreads.1.2.2.1, hreads.1.2.2.2, hsrcE]
  have hsp2 : read2 r (rh.ihl * 4) = conn.outsideDstPort := by
    rw [hsp, hreads.2.2.2, hdpE]
  have hdp2 : read2 r (rh.ihl * 4 + 2) = conn.outsideSrcPort := by
    rw [hdp, hreads.2.2.1, hspE]
  have hlk2 : lookupM (handleOutboundUDP t p ih (ih.ihl * 4) ns now).2.2.UDP.inMap
      ⟨rh.sourceIP, rh.destinationIP, read2 r (rh.ihl * 4), read2 r (rh.ihl * 4 + 2)⟩ =
      some conn := by
    rw [show (⟨rh.sourceIP, rh.destinationIP, read2 r (rh.ihl * 4),
        read2 r (rh.ihl * 4 + 2)⟩ : ExternalKey) = ekeyOf conn from by
      rw [hsrc2, hdst2, hsp2, hdp2]
      rfl]
    exact hlkin
  have hin := handleInboundUDP_hit (handleOutboundUDP t p ih (ih.ihl * 4) ns now).2.2
    r rh (rh.ihl * 4) now2 conn hrlen hlk2
  have hrf := restoreInboundIP_fields { conn with lastSeen := now2 } rh
  have hreads2 := serializeUDP_reads (restoreInboundIP { conn with lastSeen := now2 } rh)
    (restoreInboundUDP { conn with lastSeen := now2 }
      ⟨read2 r (rh.ihl * 4), read2 r (rh.ihl * 4 + 2), read2 r (rh.ihl * 4 + 4),
       read2 r (rh.ihl * 4 + 6)⟩) r (rh.ihl * 4) (by rw [hrf.1]) (by omega) hrlen
  have hrdip : (restoreInboundIP { conn with lastSeen := now2 } rh).destinationIP =
      conn.localSrcIP := by
    unfold restoreInboundIP
    split
    · rfl
    · rfl
  have hrdpt : (restoreInboundUDP { conn with lastSeen := now2 }
      ⟨read2 r (rh.ihl * 4), read2 r (rh.ihl * 4 + 2), read2 r (rh.ihl * 4 + 4),
       read2 r (rh.ihl * 4 + 6)⟩).destinationPort = conn.localSrcPort := by
    unfold restoreInboundUDP
    split
    · rfl
    · rfl
  have hsport : uh.sourcePort = read2 p (ih.ihl * 4) :=
    congrArg UDPHeader.sourcePort (ParseUDPHeader_some_eq _ _ _ hup)
  refine ⟨by rw [hin.1, hnsE], ⟨?_, ?_, ?_, ?_⟩, ?_⟩
  · rw [hin.2, hreads2.2.1.1, hrdip, hlsipE]
  · rw [hin.2, hreads2.2.1.2.1, hrdip, hlsipE]
  · rw [hin.2, hreads2.2.1.2.2.1, hrdip, hlsipE]
  · rw [hin.2, hreads2.2.1.2.2.2, hrdip, hlsipE]
  · rw [hin.2, hreads2.2.2.2, hrdpt, hlspE, hsport]

/-- The TCP round trip at the handler level. -/
theorem handleTCP_roundtrip (t : Table) (p r : List ℕ) (ih rh : IPv4Header)
    (ns : ℕ) (now now2 : ℤ) (hwf : pairWF t.TCP) (hcwf : pairConnWF t.TCP)
    (h5 : 5 ≤ ih.ihl)
    (hok : (handleOutboundTCP t p ih (ih.ihl * 4) ns now).1 = OutRes.ok)
    (hr5 : 5 ≤ rh.ihl) (hrlen : rh.ihl * 4 + 20 ≤ r.length)
    (hrsrc : rh.sourceIP =
      ⟨readByte (handleOutboundTCP t p ih (ih.ihl * 4) ns now).2.1 16,
       readByte (handleOutboundTCP t p ih (ih.ihl * 4) ns now).2.1 17,
       readByte (handleOutboundTCP t p ih (ih.ihl * 4) ns now).2.1 18,
       readByte (handleOutboundTCP t p ih (ih.ihl * 4) ns now).2.1 19⟩)
    (hrdst : rh.destinationIP =
      ⟨readByte (handleOutboundTCP t p ih (ih.ihl * 4) ns now).2.1 12,
       readByte (handleOutboundTCP t p ih (ih.ihl * 4) ns now).2.1 13,
       readByte (handleOutboundTCP t p ih (ih.ihl * 4) ns now).2.1 14,
       readByte (handleOutboundTCP t p ih (ih.ihl * 4) ns now).2.1 15⟩)
    (hsp : read2 r (rh.ihl * 4) =
      read2 (handleOutboundTCP t p ih (ih.ihl * 4) ns now).2.1 (ih.ihl * 4 + 2))
    (hdp : read2 r (rh.ihl * 4 + 2) =
      read2 (handleOutboundTCP t p ih (ih.ihl * 4) ns now).2.1 (ih.ihl * 4)) :
    (handleInboundTCP (handleOutboundTCP t p ih (ih.ihl * 4) ns now).2.2 r rh
      (rh.ihl * 4) now2).1 = InRes.ok ns ∧
    (readByte (handleInboundTCP (handleOutboundTCP t p ih (ih.ihl * 4) ns now).2.2 r rh
        (rh.ihl * 4) now2).2.1 16 = ih.sourceIP.b0 ∧
     readByte (handleInboundTCP (handleOutboundTCP t p ih (ih.ihl * 4) ns now).2.2 r rh
        (rh.ihl * 4) now2).2.1 17 = ih.sourceIP.b1 ∧
     readByte (handleInboundTCP (handleOutboundTCP t p ih (ih.ihl * 4) ns now).2.2 r rh
        (rh.ihl * 4) now2).2.1 18 = ih.sourceIP.b2 ∧
     readByte (handleInboundTCP (handleOutboundTCP t p ih (ih.ihl * 4) ns now).2.2 r rh
        (rh.ihl * 4) now2).2.1 19 = ih.sourceIP.b3) ∧
    read2 (handleInboundTCP (handleOutboundTCP t p ih (ih.ihl * 4) ns now).2.2 r rh
      (rh.ihl * 4) now2).2.1 (rh.ihl * 4 + 2) = read2 p (ih.ihl * 4) := by
  obtain ⟨connS, connM, th, htp, hshape, hlkin, hmns, hmip, hmpt, hsrcE, hdstE, hspE, hdpE,
    hnsE, hlsipE, hlspE⟩ :=
    handleOutboundTCP_ok_full t p ih (ih.ihl * 4) ns now hwf hcwf hok
  have hlen : ih.ihl * 4 + 20 ≤ p.length := ParseTCPHeader_some_length _ _ _ htp
  have hf := rewriteOutboundIP_fields connS ih
  have hreads := serializeTCP_reads (rewriteOutboundIP connS ih) (rewriteOutboundTCP connS th)
    p (ih.ihl * 4) (by rw [hf.1]) (by omega) hlen
  rw [hshape] at hrsrc hrdst hsp hdp
  have hsrc2 : rh.sourceIP = connS.outsideDstIP := by
    rw [hrsrc, hreads.2.1.1, hreads.2.1.2.1, hreads.2.1.2.2.1, hreads.2.1.2.2.2, hdstE]
  have hdst2 : rh.destinationIP = connS.outsideSrcIP := by
    rw [hrdst, hreads.1.1, hreads.1.2.1, hreads.1.2.2.1, hreads.1.2.2.2, hsrcE]
  have hsp2 : read2 r (rh.ihl * 4) = connS.outsideDstPort := by
    rw [hsp, hreads.2.2.2, hdpE]
  have hdp2 : read2 r (rh.ihl * 4 + 2) = connS.outsideSrcPort := by
    rw [hdp, hreads.2.2.1, hspE]
  have hlk2 : lookupM (handleOutboundTCP t p ih (ih.ihl * 4) ns now).2.2.TCP.inMap
      ⟨rh.sourceIP, rh.destinationIP, read2 r (rh.ihl * 4), read2 r (rh.ihl * 4 + 2)⟩ =
      some connM := by
    rw [show (⟨rh.sourceIP, rh.destinationIP, read2 r (rh.ihl * 4),
        read2 r (rh.ihl * 4 + 2)⟩ : ExternalKey) = ekeyOf connS from by
      rw [hsrc2, hdst2, hsp2, hdp2]
      rfl]
    exact hlkin
  have hin := handleInboundTCP_hit (handleOutboundTCP t p ih (ih.ihl * 4) ns now).2.2
    r rh (rh.ihl * 4) now2 connM hrlen hlk2
  have hrf := restoreInboundIP_fields { connM with lastSeen := now2 } rh
  have hreads2 := serializeTCP_reads (restoreInboundIP { connM with lastSeen := now2 } rh)
    (restoreInboundTCP { connM with lastSeen := now2 }
      ⟨read2 r (rh.ihl * 4), read2 r (rh.ihl * 4 + 2), read4 r (rh.ihl * 4 + 4),
       read4 r (rh.ihl * 4 + 8), readByte r (rh.ihl * 4 + 12) / 16,
       readByte r (rh.ihl * 4 + 13), read2 r (rh.ihl * 4 + 14),
       read2 r (rh.ihl * 4 + 16), read2 r (rh.ihl * 4 + 18)⟩) r (rh.ihl * 4)
    (by rw [hrf.1]) (by omega) hrlen
  have hrdip : (restoreInboundIP { connM with lastSeen := now2 } rh).destinationIP =
      connM.localSrcIP := by
    unfold restoreInboundIP
    split
    · rfl
    · rfl
  have hrdpt : (restoreInboundTCP { connM with lastSeen := now2 }
      ⟨read2 r (rh.ihl * 4), read2 r (rh.ihl * 4 + 2), read4 r (rh.ihl * 4 + 4),
       read4 r (rh.ihl * 4 + 8), readByte r (rh.ihl * 4 + 12) / 16,
       readByte r (rh.ihl * 4 + 13), read2 r (rh.ihl * 4 + 14),
       read2 r (rh.ihl * 4 + 16), read2 r (rh.ihl * 4 + 18)⟩).destinationPort =
      connM.localSrcPort := by
    unfold restoreInboundTCP
    split
    · rfl
    · rfl
  have hsport : th.sourcePort = read2 p (ih.ihl * 4) :=
    congrArg TCPHeader.sourcePort (ParseTCPHeader_some_eq _ _ _ htp)
  refine ⟨by rw [hin.1, hmns, hnsE], ⟨?_, ?_, ?_, ?_⟩, ?_⟩
  · rw [hin.2, hreads2.2.1.1, hrdip, hmip, hlsipE]
  · rw [hin.2, hreads2.2.1.2.1, hrdip, hmip, hlsipE]
  · rw [hin.2, hreads2.2.1.2.2.1, hrdip, hmip, hlsipE]
  · rw [hin.2, hreads2.2.1.2.2.2, hrdip, hmip, hlsipE]
  · rw [hin.2, hreads2.2.2.2, hrdpt, hmpt, hlspE, hsport]

/-- The ICMP echo round trip at the handler level. -/
theorem handleICMP_roundtrip (t : Table) (p r : List ℕ) (ih rh : IPv4Header)
    (ns : ℕ) (now now2 : ℤ) (hwf : pairWF t.ICMP) (hcwf : pairConnWF t.ICMP)
    (hicmp0 : ∀ e ∈ t.ICMP.out, e.2.outsideDstPort = 0)
    (h5 : 5 ≤ ih.ihl)
    (hecho : readByte p (ih.ihl * 4) = ICMPTypeEchoRequest ∨
      readByte p (ih.ihl * 4) = ICMPTypeEchoReply)
    (hok : (handleOutboundICMP t p ih (ih.ihl * 4) ns now).1 = OutRes.ok)
    (hr5 : 5 ≤ rh.ihl) (hrlen : rh.ihl * 4 + 8 ≤ r.length)
    (hty : readByte r (rh.ihl * 4) = ICMPTypeEchoReply ∨
      readByte r (rh.ihl * 4) = ICMPTypeEchoRequest)
    (hrsrc : rh.sourceIP =
      ⟨readByte (handleOutboundICMP t p ih (ih.ihl * 4) ns now).2.1 16,
       readByte (handleOutboundICMP t p ih (ih.ihl * 4) ns now).2.1 17,
       readByte (handleOutboundICMP t p ih (ih.ihl * 4) ns now).2.1 18,
       readByte (handleOutboundICMP t p ih (ih.ihl * 4) ns now).2.1 19⟩)
    (hrdst : rh.destinationIP =
      ⟨readByte (handleOutboundICMP t p ih (ih.ihl * 4) ns now).2.1 12,
       readByte (handleOutboundICMP t p ih (ih.ihl * 4) ns now).2.1 13,
       readByte (handleOutboundICMP t p ih (ih.ihl * 4) ns now).2.1 14,
       readByte (handleOutboundICMP t p ih (ih.ihl * 4) ns now).2.1 15⟩)
    (hid : read2 r (rh.ihl * 4 + 4) =
      read2 (handleOutboundICMP t p ih (ih.ihl * 4) ns now).2.1 (ih.ihl * 4 + 4)) :
    (handleInboundICMP (handleOutboundICMP t p ih (ih.ihl * 4) ns now).2.2 r rh
      (rh.ihl * 4) now2).1 = InRes.ok ns ∧
    (readByte (handleInboundICMP (handleOutboundICMP t p ih (ih.ihl * 4) ns now).2.2 r rh
        (rh.ihl * 4) now2).2.1 16 = ih.sourceIP.b0 ∧
     readByte (handleInboundICMP (handleOutboundICMP t p ih (ih.ihl * 4) ns now).2.2 r rh
        (rh.ihl * 4) now2).2.1 17 = ih.sourceIP.b1 ∧
     readByte (handleInboundICMP (handleOutboundICMP t p ih (ih.ihl * 4) ns now).2.2 r rh
        (rh.ihl * 4) now2).2.1 18 = ih.sourceIP.b2 ∧
     readByte (handleInboundICMP (handleOutboundICMP t p ih (ih.ihl * 4) ns now).2.2 r rh
        (rh.ihl * 4) now2).2.1 19 = ih.sourceIP.b3) ∧
    read2 (handleInboundICMP (handleOutboundICMP t p ih (ih.ihl * 4) ns now).2.2 r rh
      (rh.ihl * 4) now2).2.1 (rh.ihl * 4 + 4) = read2 p (ih.ihl * 4 + 4) := by
  obtain ⟨conn, mh, hmp, hshape, hlkin, hsrcE, hdstE, h0E, hnsE, hlsipE, hlspE⟩ :=
    handleOutboundICMP_ok_full t p ih (ih.ihl * 4) ns now hwf hcwf hicmp0 hecho hok
  have hlen : ih.ihl * 4 + 8 ≤ p.length := ParseICMPHeader_some_length _ _ _ hmp
  have hf := rewriteOutboundIP_fields conn ih
  have hreads := serializeICMP_reads (rewriteOutboundIP conn ih)
    { mh with id := conn.outsideSrcPort } p (ih.ihl * 4) (by rw [hf.1]) (by omega) hlen
  rw [hshape] at hrsrc hrdst hid
  have hsrc2 : rh.sourceIP = conn.outsideDstIP := by
    rw [hrsrc, hreads.2.1.1, hreads.2.1.2.1, hreads.2.1.2.2.1, hreads.2.1.2.2.2, hdstE]
  have hdst2 : rh.destinationIP = conn.outsideSrcIP := by
    rw [hrdst, hreads.1.1, hreads.1.2.1, hreads.1.2.2.1, hreads.1.2.2.2, hsrcE]
  have hid2 : read2 r (rh.ihl * 4 + 4) = conn.outsideSrcPort := by
    rw [hid, hreads.2.2.2]
  have hlk2 : lookupM (handleOutboundICMP t p ih (ih.ihl * 4) ns now).2.2.ICMP.inMap
      ⟨rh.sourceIP, rh.destinationIP, 0, read2 r (rh.ihl * 4 + 4)⟩ = some conn := by
    rw [show (⟨rh.sourceIP, rh.destinationIP, 0,
        read2 r (rh.ihl * 4 + 4)⟩ : ExternalKey) = ekeyOf conn from by
      rw [hsrc2, hdst2, hid2]
      unfold ekeyOf
      rw [h0E]]
    exact hlkin
  have hin := handleInboundICMP_hit (handleOutboundICMP t p ih (ih.ihl * 4) ns now).2.2
    r rh (rh.ihl * 4) now2 conn hrlen hty hlk2
  have hrf := restoreInboundIP_fields { conn with lastSeen := now2 } rh
  have hreads2 := serializeICMP_reads (restoreInboundIP { conn with lastSeen := now2 } rh)
    ⟨readByte r (rh.ihl * 4), readByte r (rh.ihl * 4 + 1), read2 r (rh.ihl * 4 + 2),
     conn.localSrcPort, read2 r (rh.ihl * 4 + 6)⟩ r (rh.ihl * 4)
    (by rw [hrf.1]) (by omega) hrlen
  have hrdip : (restoreInboundIP { conn with lastSeen := now2 } rh).destinationIP =
      conn.localSrcIP := by
    unfold restoreInboundIP
    split
    · rfl
    · rfl
  have hidp : mh.id = read2 p (ih.ihl * 4 + 4) :=
    congrArg ICMPHeader.id (ParseICMPHeader_some_eq _ _ _ hmp)
  refine ⟨by rw [hin.1, hnsE], ⟨?_, ?_, ?_, ?_⟩, ?_⟩
  · rw [hin.2, hreads2.2.1.1, hrdip, hlsipE]
  · rw [hin.2, hreads2.2.1.2.1, hrdip, hlsipE]
  · rw [hin.2, hreads2.2.1.2.2.1, hrdip, hlsipE]
  · rw [hin.2, hreads2.2.1.2.2.2, hrdip, hlsipE]
  · rw [hin.2, hreads2.2.2.2]
    show conn.localSrcPort = read2 p (ih.ihl * 4 + 4)
    rw [hlspE, hidp]

/-- C1.  For every outbound packet p (TCP, UDP, or ICMP echo) accepted by
HandleOutboundPacket under namespace ns over well-formed flow tables, and
every inbound reply r constructed by swapping the source and destination
addresses and ports (or carrying back the ICMP identifier) of the
rewritten packet: HandleInboundPacket on the post-outbound table accepts
r, returns the namespace ns, and rewrites r's destination back to p's
pre-rewrite source IP and source port (or identifier).  Well-formedness
(`pairWF`, `pairConnWF`, and ICMP flows keyed with outside destination
port 0) is the documented shape of the maps the implementation maintains;
it holds for every table produced from `initTable` by these handlers
while the port allocator has not wrapped. -/
theorem c1_roundtrip (t : Table) (p r : List ℕ) (ns : ℕ) (now now2 : ℤ)
    (ih rh : IPv4Header)
    (hwfT : pairWF t.TCP) (hwfU : pairWF t.UDP) (hwfI : pairWF t.ICMP)
    (hcwT : pairConnWF t.TCP) (hcwU : pairConnWF t.UDP) (hcwI : pairConnWF t.ICMP)
    (hicmp0 : ∀ e ∈ t.ICMP.out, e.2.outsideDstPort = 0)
    (hparse : ParseIPv4Header p = some ih)
    (hok : (HandleOutboundPacket t p ns now).1 = OutRes.ok)
    (hrparse : ParseIPv4Header r = some rh)
    (hrproto : rh.protocol = ih.protocol)
    (hrsrc : rh.sourceIP =
      ⟨readByte (HandleOutboundPacket t p ns now).2.1 16,
       readByte (HandleOutboundPacket t p ns now).2.1 17,
       readByte (HandleOutboundPacket t p ns now).2.1 18,
       readByte (HandleOutboundPacket t p ns now).2.1 19⟩)
    (hrdst : rh.destinationIP =
      ⟨readByte (HandleOutboundPacket t p ns now).2.1 12,
       readByte (HandleOutboundPacket t p ns now).2.1 13,
       readByte (HandleOutboundPacket t p ns now).2.1 14,
       readByte (HandleOutboundPacket t p ns now).2.1 15⟩)
    (hscope :
      (ih.protocol = ProtocolTCP ∧ rh.ihl * 4 + 20 ≤ r.length ∧
        read2 r (rh.ihl * 4) = read2 (HandleOutboundPacket t p ns now).2.1 (ih.ihl * 4 + 2) ∧
        read2 r (rh.ihl * 4 + 2) = read2 (HandleOutboundPacket t p ns now).2.1 (ih.ihl * 4)) ∨
      (ih.protocol = ProtocolUDP ∧ rh.ihl * 4 + 8 ≤ r.length ∧
        read2 r (rh.ihl * 4) = read2 (HandleOutboundPacket t p ns now).2.1 (ih.ihl * 4 + 2) ∧
        read2 r (rh.ihl * 4 + 2) = read2 (HandleOutboundPacket t p ns now).2.1 (ih.ihl * 4)) ∨
      (ih.protocol = ProtocolICMP ∧ rh.ihl * 4 + 8 ≤ r.length ∧
        (readByte p (ih.ihl * 4) = ICMPTypeEchoRequest ∨
         readByte p (ih.ihl * 4) = ICMPTypeEchoReply) ∧
        (readByte r (rh.ihl * 4) = ICMPTypeEchoReply ∨
         readByte r (rh.ihl * 4) = ICMPTypeEchoRequest) ∧
        read2 r (rh.ihl * 4 + 4) =
          read2 (HandleOutboundPacket t p ns now).2.1 (ih.ihl * 4 + 4))) :
    (HandleInboundPacket (HandleOutboundPacket t p ns now).2.2 r now2).1 = InRes.ok ns ∧
    (readByte (HandleInboundPacket (HandleOutboundPacket t p ns now).2.2 r now2).2.1 16 =
        ih.sourceIP.b0 ∧
     readByte (HandleInboundPacket (HandleOutboundPacket t p ns now).2.2 r now2).2.1 17 =
        ih.sourceIP.b1 ∧
     readByte (HandleInboundPacket (HandleOutboundPacket t p ns now).2.2 r now2).2.1 18 =
        ih.sourceIP.b2 ∧
     readByte (HandleInboundPacket (HandleOutboundPacket t p ns now).2.2 r now2).2.1 19 =
        ih.sourceIP.b3) ∧
    (ih.protocol ≠ ProtocolICMP →
      read2 (HandleInboundPacket (HandleOutboundPacket t p ns now).2.2 r now2).2.1
        (rh.ihl * 4 + 2) = read2 p (ih.ihl * 4)) ∧
    (ih.protocol = ProtocolICMP →
      read2 (HandleInboundPacket (HandleOutboundPacket t p ns now).2.2 r now2).2.1
        (rh.ihl * 4 + 4) = read2 p (ih.ihl * 4 + 4)) := by
  obtain ⟨hv, h5, h16, hcov⟩ := ParseIPv4Header_props p ih hparse
  obtain ⟨hrv, hr5, hr16, hrcov⟩ := ParseIPv4Header_props r rh hrparse
  rcases hscope with ⟨hpr, hrlen, hsp, hdp⟩ | ⟨hpr, hrlen, hsp, hdp⟩ |
    ⟨hpr, hrlen, hecho, hty, hid⟩
  · have hOU : HandleOutboundPacket t p ns now =
        handleOutboundTCP t p ih (ih.ihl * 4) ns now := by
      unfold HandleOutboundPacket
      rw [hparse]
      dsimp only
      rw [if_pos hpr]
    have hIU : ∀ tx, HandleInboundPacket tx r now2 =
        handleInboundTCP tx r rh (rh.ihl * 4) now2 := by
      intro tx
      unfold HandleInboundPacket
      rw [hrparse]
      dsimp only
      rw [if_pos (by rw [hrproto, hpr])]
    rw [hOU] at hok hrsrc hrdst hsp hdp
    rw [hOU, hIU]
    have hrt := handleTCP_roundtrip t p r ih rh ns now now2 hwfT hcwT h5 hok hr5 hrlen
      hrsrc hrdst hsp hdp
    refine ⟨hrt.1, hrt.2.1, fun _ => hrt.2.2, fun hc => ?_⟩
    rw [hpr] at hc
    exact absurd hc (by decide)
  · have hOU : HandleOutboundPacket t p ns now =
        handleOutboundUDP t p ih (ih.ihl * 4) ns now := by
      unfold HandleOutboundPacket
      rw [hparse]
      dsimp only
      rw [if_neg (by rw [hpr]; decide), if_pos hpr]
    have hIU : ∀ tx, HandleInboundPacket tx r now2 =
        handleInboundUDP tx r rh (rh.ihl * 4) now2 := by
      intro tx
      unfold HandleInboundPacket
      rw [hrparse]
      dsimp only
      rw [if_neg (by rw [hrproto, hpr]; decide), if_pos (by rw [hrproto, hpr])]
    rw [hOU] at hok hrsrc hrdst hsp hdp
    rw [hOU, hIU]
    have hrt := handleUDP_roundtrip t p r ih rh ns now now2 hwfU hcwU h5 hok hr5 hrlen
      hrsrc hrdst hsp hdp
    refine ⟨hrt.1, hrt.2.1, fun _ => hrt.2.2, fun hc => ?_⟩
    rw [hpr] at hc
    exact absurd hc (by decide)
  · have hOU : HandleOutboundPacket t p ns now =
        handleOutboundICMP t p ih (ih.ihl * 4) ns now := by
      unfold HandleOutboundPacket
      rw [hparse]
      dsimp only
      rw [if_neg (by rw [hpr]; decide), if_neg (by rw [hpr]; decide), if_pos hpr]
    have hIU : ∀ tx, HandleInboundPacket tx r now2 =
        handleInboundICMP tx r rh (rh.ihl * 4) now2 := by
      intro tx
      unfold HandleInboundPacket
      rw [hrparse]
      dsimp only
      rw [if_neg (by rw [hrproto, hpr]; decide), if_neg (by rw [hrproto, hpr]; decide),
        if_pos (by rw [hrproto, hpr])]
    rw [hOU] at hok hrsrc hrdst hid
    rw [hOU, hIU]
    have hrt := handleICMP_roundtrip t p r ih rh ns now now2 hwfI hcwI hicmp0 h5 hecho hok
      hr5 hrlen hty hrsrc hrdst hid
    exact ⟨hrt.1, hrt.2.1, fun hne => absurd hpr hne, fun _ => hrt.2.2⟩

/-- A fresh table for the C1 witness. -/
def c1T : Table := initTable ⟨1, 2, 3, 4⟩ 200 86400 180 30

/-- Outbound UDP packet 192.168.1.100:5000 -> 8.8.8.8:53 for the C1 witness. -/
def c1P : List ℕ :=
  [69, 0, 0, 32, 0, 0, 0, 0, 64, 17, 0, 0, 192, 168, 1, 100, 8, 8, 8, 8,
   19, 136, 0, 53, 0, 12, 0, 0, 1, 2, 3, 4]

/-- The reply to the rewritten witness packet: source and destination
addresses and ports swapped (the rewrite gave source 1.2.3.4:49153). -/
def c1R : List ℕ :=
  [69, 0, 0, 32, 0, 0, 0, 0, 64, 17, 102, 184, 8, 8, 8, 8, 1, 2, 3, 4,
   0, 53, 192, 1, 0, 12, 39, 132, 1, 2, 3, 4]

/-- The parse of the C1 witness packet. -/
def c1IH : IPv4Header :=
  { version := 4, ihl := 5, tos := 0, totalLength := 32, ident := 0, flags := 0,
    fragOffset := 0, ttl := 64, protocol := 17, checksum := 0,
    sourceIP := ⟨192, 168, 1, 100⟩, destinationIP := ⟨8, 8, 8, 8⟩ }

/-- The parse of the C1 witness reply. -/
def c1RH : IPv4Header :=
  { version := 4, ihl := 5, tos := 0, totalLength := 32, ident := 0, flags := 0,
    fragOffset := 0, ttl := 64, protocol := 17, checksum := 26296,
    sourceIP := ⟨8, 8, 8, 8⟩, destinationIP := ⟨1, 2, 3, 4⟩ }

theorem c1_roundtrip_witness :
    ((HandleOutboundPacket c1T c1P 7 1000).1 = OutRes.ok ∧
      pairWF c1T.UDP ∧ ParseIPv4Header c1P = some c1IH ∧
      ParseIPv4Header c1R = some c1RH) ∧
    (HandleInboundPacket (HandleOutboundPacket c1T c1P 7 1000).2.2 c1R 1001).1 =
      InRes.ok 7 ∧
    readByte (HandleInboundPacket (HandleOutboundPacket c1T c1P 7 1000).2.2
      c1R 1001).2.1 16 = 192 ∧
    readByte (HandleInboundPacket (HandleOutboundPacket c1T c1P 7 1000).2.2
      c1R 1001).2.1 17 = 168 ∧
    readByte (HandleInboundPacket (HandleOutboundPacket c1T c1P 7 1000).2.2
      c1R 1001).2.1 18 = 1 ∧
    readByte (HandleInboundPacket (HandleOutboundPacket c1T c1P 7 1000).2.2
      c1R 1001).2.1 19 = 100 ∧
    read2 (HandleInboundPacket (HandleOutboundPacket c1T c1P 7 1000).2.2
      c1R 1001).2.1 22 = 5000 :=
  have h := c1_roundtrip c1T c1P c1R 7 1000 1001 c1IH c1RH
    (by decide) (by decide) (by decide) (by decide) (by decide) (by decide) (by decide)
    (by decide) (by decide) (by decide) (by decide) (by decide) (by decide)
    (Or.inr (Or.inl ⟨rfl, by decide, by decide, by decide⟩))
  ⟨⟨by decide, by decide, by decide, by decide⟩, h.1, h.2.1.1, h.2.1.2.1,
   h.2.1.2.2.1, h.2.1.2.2.2, h.2.2.1 (by decide)⟩

/-! ## Claims C3 and C4: map consistency and port uniqueness under the
allocator's 16383-port wrap-around -/

/-- allocatePort always succeeds on its first attempt for the default
port range: the computed port is at most maxPort. -/
theorem allocatePort_step (t : Table) (hnext : t.nextPort = 49152)
    (hmaxp : t.maxPort = 65535) (hctr : t.portCounter + 1 < 4294967296) :
    allocatePort t = ((t.portCounter + 1) % 16383 + 49152,
      { t with portCounter := t.portCounter + 1 }) := by
  have h1 : (t.portCounter + 1) % 4294967296 = t.portCounter + 1 := Nat.mod_eq_of_lt hctr
  have hAA : allocateAttempts 49152 65535 1000 t.portCounter =
      some ((t.portCounter + 1) % 16383 + 49152, t.portCounter + 1) := by
    show allocateAttempts 49152 65535 (999 + 1) t.portCounter = _
    unfold allocateAttempts
    dsimp only
    rw [h1, show (65535 : ℕ) - 49152 = 16383 from rfl, if_pos (by omega)]
  unfold allocatePort
  rw [hnext, hmaxp, hAA]

/-- The UDP flow created by the j-th packet of the C3/C4 trace. -/
def c34conn (j : ℕ) : Conn :=
  { lastSeen := 1000, protocol := ProtocolUDP, namespace_ := 5,
    localSrcIP := ⟨192, 168, 1, 100⟩, localSrcPort := j,
    localDstIp := ⟨8, 8, 8, 8⟩, localDstPort := 53,
    outsideSrcIP := ⟨1, 2, 3, 4⟩, outsideSrcPort := j % 16383 + 49152,
    outsideDstIP := ⟨8, 8, 8, 8⟩, outsideDstPort := 53,
    rewriteDestination := false, pendingSweep := false }

/-- Its internal key. -/
def c34ik (j : ℕ) : InternalKey := ⟨⟨192, 168, 1, 100⟩, ⟨8, 8, 8, 8⟩, j, 53, 5⟩

/-- Its external key. -/
def c34ek (j : ℕ) : ExternalKey := ⟨⟨8, 8, 8, 8⟩, ⟨1, 2, 3, 4⟩, 53, j % 16383 + 49152⟩

/-- The j-th outbound UDP packet of the trace: source port j, otherwise
identical 28-byte datagrams from 192.168.1.100 to 8.8.8.8:53. -/
def c34P (j : ℕ) : List ℕ :=
  [69, 0, 0, 28, 0, 0, 0, 0, 64, 17, 0, 0, 192, 168, 1, 100, 8, 8, 8, 8,
   j / 256, j % 256, 0, 53, 0, 8, 0, 0]

/-- The parse of the j-th trace packet. -/
def c34IH : IPv4Header :=
  { version := 4, ihl := 5, tos := 0, totalLength := 28, ident := 0, flags := 0,
    fragOffset := 0, ttl := 64, protocol := 17, checksum := 0,
    sourceIP := ⟨192, 168, 1, 100⟩, destinationIP := ⟨8, 8, 8, 8⟩ }

/-- The trace's starting table: per-namespace cap disabled (0), so no
eviction interferes with the packet count. -/
def c34T0 : Table := initTable ⟨1, 2, 3, 4⟩ 0 86400 180 30

/-- One public operation of the trace. -/
def c34step (t : Table) (j : ℕ) : Table := (HandleOutboundPacket t (c34P j) 5 1000).2.2

/-- The table after the first k packets of the trace. -/
def c34iter : ℕ → Table
  | 0 => c34T0
  | k + 1 => c34step (c34iter k) (k + 1)

/-- The out map contents after k fresh insertions, newest first. -/
def c34outs : ℕ → List (InternalKey × Conn)
  | 0 => []
  | k + 1 => (c34ik (k + 1), c34conn (k + 1)) :: c34outs k

/-- The in map contents after k fresh insertions (valid while k ≤ 16383,
before the first external-key collision). -/
def c34ins : ℕ → List (ExternalKey × Conn)
  | 0 => []
  | k + 1 => (c34ek (k + 1), c34conn (k + 1)) :: c34ins k

set_option maxRecDepth 16384

/-- The j-th trace packet parses to the fixed header (the source port
bytes sit past the IP header and are never read). -/
theorem c34P_parse (j : ℕ) : ParseIPv4Header (c34P j) = some c34IH := by
  have hL : (c34P j).length = 28 := rfl
  have e0 : readByte (c34P j) 0 = 69 := rfl
  have e1 : readByte (c34P j) 1 = 0 := rfl
  have e2 : readByte (c34P j) 2 = 0 := rfl
  have e3 : readByte (c34P j) 3 = 28 := rfl
  have e4 : readByte (c34P j) 4 = 0 := rfl
  have e5 : readByte (c34P j) 5 = 0 := rfl
  have e6 : readByte (c34P j) 6 = 0 := rfl
  have e7 : readByte (c34P j) 7 = 0 := rfl
  have e8 : readByte (c34P j) 8 = 64 := rfl
  have e9 : readByte (c34P j) 9 = 17 := rfl
  have e10 : readByte (c34P j) 10 = 0 := rfl
  have e11 : readByte (c34P j) 11 = 0 := rfl
  have e12 : readByte (c34P j) 12 = 192 := rfl
  have e13 : readByte (c34P j) 13 = 168 := rfl
  have e14 : readByte (c34P j) 14 = 1 := rfl
  have e15 : readByte (c34P j) 15 = 100 := rfl
  have e16 : readByte (c34P j) 16 = 8 := rfl
  have e17 : readByte (c34P j) 17 = 8 := rfl
  have e18 : readByte (c34P j) 18 = 8 := rfl
  have e19 : readByte (c34P j) 19 = 8 := rfl
  unfold ParseIPv4Header read2
  rw [hL, e0, e1, e2, e3, e4, e5, e6, e7, e8, e9, e10, e11, e12, e13, e14, e15,
    e16, e17, e18, e19]
  rfl

/-- The j-th trace packet's UDP header parse. -/
theorem c34P_parseUDP (j : ℕ) : ParseUDPHeader (c34P j) 20 =
    some ⟨read2 (c34P j) 20, 53, 8, 0⟩ := by
  have hL : (c34P j).length = 28 := rfl
  have e22 : read2 (c34P j) 22 = 53 := rfl
  have e24 : read2 (c34P j) 24 = 8 := rfl
  have e26 : read2 (c34P j) 26 = 0 := rfl
  unfold ParseUDPHeader
  rw [hL, if_neg (by decide), e22, e24, e26]

/-- The dispatch of the trace packet reaches the UDP handler. -/
theorem c34HO (t : Table) (j : ℕ) : HandleOutboundPacket t (c34P j) 5 1000 =
    handleOutboundUDP t (c34P j) c34IH 20 5 1000 := by
  unfold HandleOutboundPacket
  rw [c34P_parse j]
  dsimp only
  rw [if_neg (by decide), if_pos (by decide)]
  rfl

/-- Evaluation of one trace step on a table in the trace's shape. -/
theorem c34step_eq (t : Table) (j : ℕ)
    (hdrop : t.UDP.dropRules = [])
    (hredir : t.UDP.redirectRules = [])
    (hlook : lookupM t.UDP.out (c34ik j) = none)
    (hext : t.externalIP = ⟨1, 2, 3, 4⟩)
    (hnext : t.nextPort = 49152) (hmaxp : t.maxPort = 65535)
    (hctr : t.portCounter + 1 < 4294967296) :
    c34step t j =
      { t with
        UDP := addConnection t.UDP
          { c34conn j with outsideSrcPort := (t.portCounter + 1) % 16383 + 49152 }
          t.maxConnPerNamespace,
        portCounter := t.portCounter + 1 } := by
  unfold c34step
  rw [c34HO t j]
  unfold handleOutboundUDP finishOutboundUDP
  rw [c34P_parseUDP j]
  dsimp only
  have hcd : checkDropRule t.UDP 53 = false := by
    unfold checkDropRule
    rw [hdrop]
    rfl
  rw [hcd, if_neg (by decide)]
  have hread : read2 (c34P j) 20 = j := by
    show j / 256 * 256 + j % 256 = j
    omega
  rw [hread]
  dsimp only [c34IH]
  rw [show lookupOutbound t.UDP ⟨⟨192, 168, 1, 100⟩, ⟨8, 8, 8, 8⟩, j, 53, 5⟩ = none
    from hlook]
  dsimp only
  have hcr : checkRedirectRule t.UDP ⟨8, 8, 8, 8⟩ 53 = (⟨8, 8, 8, 8⟩, 53, false) := by
    unfold checkRedirectRule
    rw [hredir]
    rfl
  rw [hcr, allocatePort_step t hnext hmaxp hctr, hext]
  rfl

/-- With the per-namespace cap at 0 the eviction gate is skipped. -/
theorem addConnection_zero (P : Pair) (c : Conn) : addConnection P c 0 =
    { P with out := insertM P.out (ikeyOf c) c, inMap := insertM P.inMap (ekeyOf c) c } := by
  unfold addConnection
  rw [if_neg (by decide)]

theorem c34ik_eq (j : ℕ) : ikeyOf (c34conn j) = c34ik j := rfl

theorem c34ek_eq (j : ℕ) : ekeyOf (c34conn j) = c34ek j := rfl

/-- Trace internal keys are fresh beyond the inserted prefix. -/
theorem c34outs_fresh : ∀ k j, k < j → ∀ e ∈ c34outs k, e.1 ≠ c34ik j
  | 0, _, _ => by
      intro e he
      cases he
  | k + 1, j, h => by
      intro e he
      rcases List.mem_cons.mp he with rfl | he'
      · show c34ik (k + 1) ≠ c34ik j
        intro hc
        have hk : k + 1 = j := congrArg InternalKey.srcPort hc
        omega
      · exact c34outs_fresh k j (by omega) e he'

theorem c34outs_lookup_none (k j : ℕ) (h : k < j) :
    lookupM (c34outs k) (c34ik j) = none := by
  induction k with
  | zero => rfl
  | succ k ih =>
      rw [show c34outs (k + 1) = (c34ik (k + 1), c34conn (k + 1)) :: c34outs k from rfl,
        lookupM_cons, if_neg (c34outs_fresh (k + 1) j h _ (List.mem_cons_self _ _))]
      exact ih (by omega)

/-- Trace external keys are fresh beyond the prefix while no wrap. -/
theorem c34ins_fresh : ∀ k j, k < j → j ≤ 16383 → ∀ e ∈ c34ins k, e.1 ≠ c34ek j
  | 0, _, _, _ => by
      intro e he
      cases he
  | k + 1, j, h, hj => by
      intro e he
      rcases List.mem_cons.mp he with rfl | he'
      · show c34ek (k + 1) ≠ c34ek j
        intro hc
        have hk : (k + 1) % 16383 + 49152 = j % 16383 + 49152 :=
          congrArg ExternalKey.dstPort hc
        omega
      · exact c34ins_fresh k j (by omega) hj e he'

/-- Characterization of the trace while the allocator has not wrapped:
the maps hold exactly the k flows, newest first, and the port counter
counts the packets. -/
theorem c34iter_char : ∀ k, k ≤ 16383 →
    (c34iter k).UDP.out = c34outs k ∧ (c34iter k).UDP.inMap = c34ins k ∧
    (c34iter k).UDP.dropRules = [] ∧ (c34iter k).UDP.redirectRules = [] ∧
    (c34iter k).externalIP = ⟨1, 2, 3, 4⟩ ∧ (c34iter k).nextPort = 49152 ∧
    (c34iter k).maxPort = 65535 ∧ (c34iter k).maxConnPerNamespace = 0 ∧
    (c34iter k).portCounter = k := by
  intro k
  induction k with
  | zero =>
      intro _
      exact ⟨rfl, rfl, rfl, rfl, rfl, rfl, rfl, rfl, rfl⟩
  | succ k ih =>
      intro hk1
      obtain ⟨hout, hin, hdrop, hredir, hext, hnext, hmaxp, hmaxc, hctr⟩ := ih (by omega)
      have hstep := c34step_eq (c34iter k) (k + 1) hdrop hredir
        (by rw [hout]; exact c34outs_lookup_none k (k + 1) (by omega))
        hext hnext hmaxp (by rw [hctr]; omega)
      rw [show c34iter (k + 1) = c34step (c34iter k) (k + 1) from rfl, hstep]
      rw [hctr, hmaxc]
      dsimp only
      rw [show ({ c34conn (k + 1) with
            outsideSrcPort := (k + 1) % 16383 + 49152 } : Conn) = c34conn (k + 1) from rfl]
      rw [addConnection_zero, c34ik_eq, c34ek_eq]
      dsimp only
      rw [hout, hin]
      refine ⟨?_, ?_, hdrop, hredir, hext, hnext, hmaxp, rfl, rfl⟩
      · rw [insertM_of_fresh _ _ _ (c34outs_fresh k (k + 1) (by omega))]
        rfl
      · rw [insertM_of_fresh _ _ _ (c34ins_fresh k (k + 1) (by omega) (by omega))]
        rfl

/-- The 16384th packet wraps the allocator: its external key equals the
first flow's, so the in map entry is overwritten while the out map grows. -/
theorem c34iter_16384 :
    (c34iter 16384).UDP.out = (c34ik 16384, c34conn 16384) :: c34outs 16383 ∧
    (c34iter 16384).UDP.inMap = insertM (c34ins 16383) (c34ek 16384) (c34conn 16384) := by
  obtain ⟨hout, hin, hdrop, hredir, hext, hnext, hmaxp, hmaxc, hctr⟩ :=
    c34iter_char 16383 (by omega)
  have hstep := c34step_eq (c34iter 16383) 16384 hdrop hredir
    (by rw [hout]; exact c34outs_lookup_none 16383 16384 (by omega)) hext hnext hmaxp
    (by rw [hctr]; omega)
  rw [show c34iter 16384 = c34step (c34iter 16383) 16384 from rfl, hstep, hctr, hmaxc]
  dsimp only
  rw [show ({ c34conn 16384 with
      outsideSrcPort := (16383 + 1) % 16383 + 49152 } : Conn) = c34conn 16384 from rfl,
    addConnection_zero, c34ik_eq, c34ek_eq]
  dsimp only
  rw [hout, hin]
  refine ⟨?_, rfl⟩
  rw [insertM_of_fresh _ _ _ (c34outs_fresh 16383 16384 (by omega))]

/-- Every inserted flow stays in the out map prefix. -/
theorem c34outs_mem : ∀ k j, 1 ≤ j → j ≤ k → (c34ik j, c34conn j) ∈ c34outs k
  | 0, _, h1, h2 => absurd h2 (by omega)
  | k + 1, j, h1, h2 => by
      by_cases hj : j = k + 1
      · subst hj
        exact List.mem_cons_self _ _
      · exact List.mem_cons_of_mem _ (c34outs_mem k j h1 (by omega))

/-- C3 counterexample: after 16384 outbound packets (reachable through
public operations only), the first flow still sits in the out map under
its internal key, but the in map sends its external key to the 16384th
flow — a different record.  "P.in maps f's external key to the same
record f" fails at a quiescent point. -/
theorem c3_counterexample :
    (ikeyOf (c34conn 1), c34conn 1) ∈ (c34iter 16384).UDP.out ∧
    lookupM (c34iter 16384).UDP.inMap (ekeyOf (c34conn 1)) = some (c34conn 16384) ∧
    c34conn 16384 ≠ c34conn 1 := by
  obtain ⟨hout, hin⟩ := c34iter_16384
  refine ⟨?_, ?_, by decide⟩
  · rw [hout, c34ik_eq]
    exact List.mem_cons_of_mem _ (c34outs_mem 16383 1 (by omega) (by omega))
  · rw [hin, c34ek_eq, show c34ek 1 = c34ek 16384 from rfl]
    exact lookupM_insertM_self _ _ _

/-- C4 counterexample: in the same reachable state, flows 1 and 16384 are
both present, both unswept, same protocol, and share outside source port
49153 — the allocator wrapped after 16383 allocations. -/
theorem c4_counterexample :
    (ikeyOf (c34conn 1), c34conn 1) ∈ (c34iter 16384).UDP.out ∧
    (ikeyOf (c34conn 16384), c34conn 16384) ∈ (c34iter 16384).UDP.out ∧
    c34conn 1 ≠ c34conn 16384 ∧
    (c34conn 1).pendingSweep = false ∧ (c34conn 16384).pendingSweep = false ∧
    (c34conn 1).protocol = (c34conn 16384).protocol ∧
    (c34conn 1).outsideSrcPort = 49153 ∧ (c34conn 16384).outsideSrcPort = 49153 := by
  obtain ⟨hout, -⟩ := c34iter_16384
  refine ⟨?_, ?_, by decide, rfl, rfl, rfl, by decide, by decide⟩
  · rw [hout, c34ik_eq]
    exact List.mem_cons_of_mem _ (c34outs_mem 16383 1 (by omega) (by omega))
  · rw [hout, c34ik_eq]
    exact List.mem_cons_self _ _

/-- The tracked entry of the countOldest fold comes from the scanned
list (or from the starting accumulator). -/
theorem countOldest_fold_mem (ns : ℕ) (P : InternalKey × Conn → Prop) :
    ∀ (l : List (InternalKey × Conn)) (acc : ℕ × Option (InternalKey × Conn)),
    (∀ o, acc.2 = some o → P o) → (∀ e ∈ l, P e) →
    ∀ o, (l.foldl
      (fun acc e =>
        if e.1.namespace_ = ns ∧ ¬e.2.pendingSweep then
          match acc.2 with
          | none => (acc.1 + 1, some e)
          | some o => if e.2.lastSeen < o.2.lastSeen then (acc.1 + 1, some e)
                      else (acc.1 + 1, some o)
        else acc) acc).2 = some o → P o
  | [], acc, hacc, _, o, h => hacc o h
  | e :: l, acc, hacc, hl, o, h => by
      rw [List.foldl_cons] at h
      refine countOldest_fold_mem ns P l _ ?_
        (fun e' he' => hl e' (List.mem_cons_of_mem _ he')) o h
      intro o' ho'
      by_cases hc : e.1.namespace_ = ns ∧ ¬e.2.pendingSweep = true
      · rw [if_pos hc] at ho'
        cases hacc2 : acc.2 with
        | none =>
            rw [hacc2] at ho'
            exact (Option.some.inj ho') ▸ hl e (List.mem_cons_self e l)
        | some oo =>
            rw [hacc2] at ho'
            dsimp only at ho'
            by_cases hlt : e.2.lastSeen < oo.2.lastSeen
            · rw [if_pos hlt] at ho'
              exact (Option.some.inj ho') ▸ hl e (List.mem_cons_self e l)
            · rw [if_neg hlt] at ho'
              exact (Option.some.inj ho') ▸ hacc oo hacc2
      · rw [if_neg hc] at ho'
        exact hacc o' ho'

/-- The flow countOldest picks for eviction is stored in the out map. -/
theorem countOldest_mem (out : List (InternalKey × Conn)) (ns : ℕ)
    (o : InternalKey × Conn) (h : (countOldest out ns).2 = some o) : o ∈ out := by
  unfold countOldest at h
  exact countOldest_fold_mem ns (· ∈ out) out (0, none)
    (fun _ ho => Option.noConfusion ho) (fun e he => he) o h

/-- Deleting a stored flow's entries from both maps keeps a pair
well-formed. -/
theorem pairWF_delete (P : Pair) (hwf : pairWF P) (o : InternalKey × Conn)
    (ho : o ∈ P.out) :
    pairWF { P with out := deleteM P.out o.1, inMap := deleteM P.inMap (ekeyOf o.2) } := by
  obtain ⟨h1, h2, h3, h4, h5, h6⟩ := hwf
  have hnd_out : ((deleteM P.out o.1).map (·.1)).Nodup :=
    List.Nodup.sublist (List.Sublist.map _ (List.filter_sublist _)) h3
  have hnd_in : ((deleteM P.inMap (ekeyOf o.2)).map (·.1)).Nodup :=
    List.Nodup.sublist (List.Sublist.map _ (List.filter_sublist _)) h4
  refine ⟨?_, ?_, hnd_out, hnd_in, ?_, ?_⟩
  · intro e he
    exact h1 e ((mem_deleteM _ _ _).mp he).1
  · intro e he
    exact h2 e ((mem_deleteM _ _ _).mp he).1
  · intro e he
    obtain ⟨hel, hne⟩ := (mem_deleteM _ _ _).mp he
    refine (mem_deleteM _ _ _).mpr ⟨h5 e hel, ?_⟩
    intro hek
    have heq := mem_key_eq_of_nodup _ h4 _ _ (h5 e hel) (h5 o ho) hek
    have hval : e.2 = o.2 := congrArg (fun q : ExternalKey × Conn => q.2) heq
    apply hne
    rw [h1 e hel, hval, ← h1 o ho]
  · intro e he
    obtain ⟨hel, hne⟩ := (mem_deleteM _ _ _).mp he
    refine (mem_deleteM _ _ _).mpr ⟨h6 e hel, ?_⟩
    intro hik2
    have heq := mem_key_eq_of_nodup _ h3 _ _ (h6 e hel) ho hik2
    have hval : e.2 = o.2 := congrArg (fun q : InternalKey × Conn => q.2) heq
    apply hne
    rw [h2 e hel, hval]

/-- Inserting a flow with fresh keys into both maps of a well-formed
pair keeps it well-formed and stores the flow under both its keys. -/
theorem pairWF_insert_fresh (Q : Pair) (c : Conn) (hwf : pairWF Q)
    (hik : ∀ e ∈ Q.out, e.1 ≠ ikeyOf c) (hek : ∀ e ∈ Q.inMap, e.1 ≠ ekeyOf c) :
    pairWF { Q with out := insertM Q.out (ikeyOf c) c,
                    inMap := insertM Q.inMap (ekeyOf c) c } ∧
    lookupM (insertM Q.out (ikeyOf c) c) (ikeyOf c) = some c ∧
    lookupM (insertM Q.inMap (ekeyOf c) c) (ekeyOf c) = some c := by
  obtain ⟨h1, h2, h3, h4, h5, h6⟩ := hwf
  rw [insertM_of_fresh _ _ _ hik, insertM_of_fresh _ _ _ hek]
  refine ⟨⟨?_, ?_, ?_, ?_, ?_, ?_⟩, ?_, ?_⟩
  · intro e he
    rcases List.mem_cons.mp he with rfl | he'
    · rfl
    · exact h1 e he'
  · intro e he
    rcases List.mem_cons.mp he with rfl | he'
    · rfl
    · exact h2 e he'
  · rw [List.map_cons, List.nodup_cons]
    refine ⟨?_, h3⟩
    intro hc
    obtain ⟨e, he, hke⟩ := List.mem_map.mp hc
    exact hik e he hke
  · rw [List.map_cons, List.nodup_cons]
    refine ⟨?_, h4⟩
    intro hc
    obtain ⟨e, he, hke⟩ := List.mem_map.mp hc
    exact hek e he hke
  · intro e he
    rcases List.mem_cons.mp he with rfl | he'
    · exact List.mem_cons_self _ _
    · exact List.mem_cons_of_mem _ (h5 e he')
  · intro e he
    rcases List.mem_cons.mp he with rfl | he'
    · exact List.mem_cons_self _ _
    · exact List.mem_cons_of_mem _ (h6 e he')
  · rw [lookupM_cons, if_pos rfl]
  · rw [lookupM_cons, if_pos rfl]

/-- C3 (amended).  addConnection preserves the two-map invariant and
makes the new flow reachable under both of its keys, PROVIDED the flow's
internal and external keys are not yet present — which is exactly what
fails once the port allocator wraps: with a colliding external key the
out map keeps both flows while the in map keeps only the newer record
(see the counterexample reached after 16384 outbound packets). -/
theorem c3_addConnection_pairWF (P : Pair) (c : Conn) (m : ℤ) (hwf : pairWF P)
    (hik : ∀ e ∈ P.out, e.1 ≠ ikeyOf c) (hek : ∀ e ∈ P.inMap, e.1 ≠ ekeyOf c) :
    pairWF (addConnection P c m) ∧
    lookupM (addConnection P c m).out (ikeyOf c) = some c ∧
    lookupM (addConnection P c m).inMap (ekeyOf c) = some c := by
  unfold addConnection
  dsimp only
  by_cases hm : 0 < m
  · rw [if_pos hm]
    cases hco : (countOldest P.out c.namespace_).2 with
    | none =>
        dsimp only
        exact pairWF_insert_fresh P c hwf hik hek
    | some oldest =>
        dsimp only
        by_cases hcnt : m ≤ ((countOldest P.out c.namespace_).1 : ℤ)
        · rw [if_pos hcnt]
          have hmem := countOldest_mem P.out c.namespace_ oldest hco
          have hwf' := pairWF_delete P hwf oldest hmem
          refine pairWF_insert_fresh _ c hwf' ?_ ?_
          · intro e he
            exact hik e ((mem_deleteM _ _ _).mp he).1
          · intro e he
            exact hek e ((mem_deleteM _ _ _).mp he).1
        · rw [if_neg hcnt]
          exact pairWF_insert_fresh P c hwf hik hek
  · rw [if_neg hm]
    exact pairWF_insert_fresh P c hwf hik hek

/-- A fresh flow record for the C3 witness. -/
def c3wC : Conn :=
  { lastSeen := 50, protocol := ProtocolTCP, namespace_ := 9,
    localSrcIP := ⟨10, 0, 0, 2⟩, localSrcPort := 40000,
    localDstIp := ⟨93, 184, 216, 34⟩, localDstPort := 443,
    outsideSrcIP := ⟨198, 51, 100, 1⟩, outsideSrcPort := 49153,
    outsideDstIP := ⟨93, 184, 216, 34⟩, outsideDstPort := 443,
    rewriteDestination := false, pendingSweep := false }

theorem c3_addConnection_pairWF_witness :
    (pairWF emptyPair ∧ (∀ e ∈ emptyPair.out, e.1 ≠ ikeyOf c3wC) ∧
      (∀ e ∈ emptyPair.inMap, e.1 ≠ ekeyOf c3wC)) ∧
    pairWF (addConnection emptyPair c3wC 200) ∧
    lookupM (addConnection emptyPair c3wC 200).out (ikeyOf c3wC) = some c3wC ∧
    lookupM (addConnection emptyPair c3wC 200).inMap (ekeyOf c3wC) = some c3wC :=
  have h := c3_addConnection_pairWF emptyPair c3wC 200 (by decide) (by decide) (by decide)
  ⟨⟨by decide, by decide, by decide⟩, h.1, h.2.1, h.2.2⟩

/-- k consecutive port allocations. -/
def allocIter (t : Table) : ℕ → Table
  | 0 => t
  | k + 1 => (allocatePort (allocIter t k)).2

/-- Allocation only advances the counter (for the default port range and
a non-wrapping counter). -/
theorem allocIter_char (t : Table) (hnext : t.nextPort = 49152)
    (hmaxp : t.maxPort = 65535) :
    ∀ k, t.portCounter + k < 4294967296 →
    (allocIter t k).portCounter = t.portCounter + k ∧
    (allocIter t k).nextPort = 49152 ∧ (allocIter t k).maxPort = 65535
  | 0, _ => ⟨rfl, hnext, hmaxp⟩
  | k + 1, hb => by
      obtain ⟨hc, hn, hm⟩ := allocIter_char t hnext hmaxp k (by omega)
      rw [show allocIter t (k + 1) = (allocatePort (allocIter t k)).2 from rfl,
        allocatePort_step _ hn hm (by rw [hc]; omega)]
      refine ⟨?_, hn, hm⟩
      dsimp only
      rw [hc]
      omega

/-- C4 (amended).  Any two port allocations fewer than 16383 steps apart
yield distinct ports (the allocator is a pure counter modulo 16383 over
[49152, 65534]), so two flows created within such a window never share
an outside source port; at exactly 16383 steps the counter wraps and
ports repeat while older flows may still be live (see the
counterexample). -/
theorem c4_ports_distinct (t : Table) (hnext : t.nextPort = 49152)
    (hmaxp : t.maxPort = 65535) (i j : ℕ) (hij : i < j) (hwin : j - i < 16383)
    (hbound : t.portCounter + j + 1 < 4294967296) :
    (allocatePort (allocIter t i)).1 ≠ (allocatePort (allocIter t j)).1 := by
  obtain ⟨hci, hni, hmi⟩ := allocIter_char t hnext hmaxp i (by omega)
  obtain ⟨hcj, hnj, hmj⟩ := allocIter_char t hnext hmaxp j (by omega)
  rw [allocatePort_step _ hni hmi (by rw [hci]; omega),
    allocatePort_step _ hnj hmj (by rw [hcj]; omega)]
  dsimp only
  rw [hci, hcj]
  intro hc
  omega

/-- A default table for the C4 witness. -/
def c4wT : Table := initTable ⟨198, 51, 100, 1⟩ 200 86400 180 30

theorem c4_ports_distinct_witness :
    ((0 : ℕ) < 1 ∧ (1 : ℕ) - 0 < 16383 ∧ c4wT.portCounter + 1 + 1 < 4294967296) ∧
    (allocatePort (allocIter c4wT 0)).1 ≠ (allocatePort (allocIter c4wT 1)).1 :=
  ⟨⟨by decide, by decide, by decide⟩,
   c4_ports_distinct c4wT rfl rfl 0 1 (by decide) (by decide) (by decide)⟩

/-! ## Claim C9: ParseIPv4 and the Go standard library parser

ParseIPv4 delegates to `net.ParseIP` followed by `To4`.  The library
parser (net/netip `ParseAddr`, `parseIPv4Fields`, `parseIPv6`, and
net `IP.To4`) is translated below from the Go standard library source;
strings are byte strings, modelled as lists of characters. -/

/-- netip.parseIPv4Fields: fold over the characters keeping the current
octet value, the number of digits in the current octet, and the number
of completed octets; rejects leading zeros, values over 255, empty
octets, more than four octets, and foreign characters. -/
def parseIPv4Fields : List Char → ℕ → ℕ → ℕ → List ℕ → Option (List ℕ)
  | [], val, _, pos, fields =>
      if pos < 3 then none else some (fields ++ [val])
  | c :: rest, val, digLen, pos, fields =>
      if '0' ≤ c ∧ c ≤ '9' then
        if digLen = 1 ∧ val = 0 then none
        else
          if 255 < val * 10 + (c.toNat - 48) then none
          else parseIPv4Fields rest (val * 10 + (c.toNat - 48)) (digLen + 1) pos fields
      else if c = '.' then
        if digLen = 0 then none
        else if rest = [] then none
        else if pos = 3 then none
        else parseIPv4Fields rest 0 0 (pos + 1) (fields ++ [val])
      else none

/-- The 16-byte (v4-in-v6) form `As16` gives a parsed IPv4 address. -/
def v4mapped (a b c d : ℕ) : List ℕ :=
  [0, 0, 0, 0, 0, 0, 0, 0, 0, 0, 255, 255, a, b, c, d]

/-- The hex-group scanner inlined in netip.parseIPv6: consume leading
hex digits into an accumulator, stopping at the first non-hex character;
reject more than four digits or a value of 2^16 or more. -/
def takeHex : List Char → ℕ → ℕ → Option (ℕ × ℕ × List Char)
  | [], acc, off => some (acc, off, [])
  | c :: rest, acc, off =>
      if '0' ≤ c ∧ c ≤ '9' then
        if 4 ≤ off then none
        else if 65535 < acc * 16 + (c.toNat - 48) then none
        else takeHex rest (acc * 16 + (c.toNat - 48)) (off + 1)
      else if 'a' ≤ c ∧ c ≤ 'f' then
        if 4 ≤ off then none
        else if 65535 < acc * 16 + (c.toNat - 87) then none
        else takeHex rest (acc * 16 + (c.toNat - 87)) (off + 1)
      else if 'A' ≤ c ∧ c ≤ 'F' then
        if 4 ≤ off then none
        else if 65535 < acc * 16 + (c.toNat - 55) then none
        else takeHex rest (acc * 16 + (c.toNat - 55)) (off + 1)
      else some (acc, off, c :: rest)

/-- The post-loop step of netip.parseIPv6: expand the ellipsis to the
missing zero groups, or reject when nothing is missing. -/
def v6finish (ip : List ℕ) (ell : Option ℕ) : Option (List ℕ) :=
  if ip.length < 16 then
    match ell with
    | none => none
    | some e => some (ip.take e ++ List.replicate (16 - ip.length) 0 ++ ip.drop e)
  else
    match ell with
    | none => some ip
    | some _ => none

/-- The main loop of netip.parseIPv6: alternate hex groups and colons,
with at most one ellipsis and an optional embedded dotted quad in the
final four bytes.  The fuel only bounds the recursion; sixteen steps
cover every accepting run. -/
def v6loop : ℕ → List Char → List ℕ → Option ℕ → Option (List ℕ)
  | 0, _, _, _ => none
  | fuel + 1, s, ip, ell =>
      if 16 ≤ ip.length then none
      else
        match takeHex s 0 0 with
        | none => none
        | some (acc, off, rest) =>
            if off = 0 then none
            else
              match rest with
              | '.' :: _ =>
                  if ell = none ∧ ip.length ≠ 12 then none
                  else if 16 < ip.length + 4 then none
                  else
                    match parseIPv4Fields s 0 0 0 [] with
                    | none => none
                    | some quad => v6finish (ip ++ quad) ell
              | [] => v6finish (ip ++ [acc / 256, acc % 256]) ell
              | ':' :: rest2 =>
                  match rest2 with
                  | [] => none
                  | ':' :: rest3 =>
                      if ell ≠ none then none
                      else if rest3 = [] then
                        v6finish (ip ++ [acc / 256, acc % 256])
                          (some (ip.length + 2))
                      else
                        v6loop fuel rest3 (ip ++ [acc / 256, acc % 256])
                          (some (ip.length + 2))
                  | _ => v6loop fuel rest2 (ip ++ [acc / 256, acc % 256]) ell
              | _ => none

/-- netip.parseIPv6 entry: a zone ('%') always makes net.ParseIP fail
(an empty zone is a parse error and a nonempty zone is rejected by the
caller), and a leading ellipsis may denote the unspecified address. -/
def parseIPv6 (s : List Char) : Option (List ℕ) :=
  if '%' ∈ s then none
  else
    match s with
    | ':' :: ':' :: rest =>
        if rest = [] then some (List.replicate 16 0)
        else v6loop 16 rest [] (some 0)
    | _ => v6loop 16 s [] none

/-- netip.ParseAddr's dispatch: the first special character decides. -/
def firstSpecial : List Char → Option Char
  | [] => none
  | c :: rest =>
      if c = '.' ∨ c = ':' ∨ c = '%' then some c else firstSpecial rest

/-- net.ParseIP: dispatch on the first special character ('.' parses a
dotted quad whose 16-byte form is v4-mapped, ':' parses IPv6, '%' or no
special character is an error) and return the 16-byte form of the
parsed address. -/
def ParseIP (s : List Char) : Option (List ℕ) :=
  if firstSpecial s = some '.' then
    match parseIPv4Fields s 0 0 0 [] with
    | some [a, b, c, d] => some (v4mapped a b c d)
    | _ => none
  else if firstSpecial s = some ':' then parseIPv6 s
  else none

/-- net.IP.To4: a 16-byte address converts exactly when it is
v4-mapped. -/
def To4 (ip : List ℕ) : Option (List ℕ) :=
  if ip.length = 4 then some ip
  else if ip.length = 16 ∧ ip.take 10 = List.replicate 10 0 ∧
      readByte ip 10 = 255 ∧ readByte ip 11 = 255 then
    some (ip.drop 12)
  else none

/-- ParseIPv4 (ip.go): net.ParseIP then To4, copied into the 4-byte
address. -/
def ParseIPv4 (s : List Char) : Option IPAddr :=
  match ParseIP s with
  | none => none
  | some bytes =>
      match To4 bytes with
      | none => none
      | some [a, b, c, d] => some ⟨a, b, c, d⟩
      | some _ => none

/-- Spec-side definition: the canonical decimal rendering of one octet
(no leading zeros), as in the claim's dotted-quad representations. -/
def renderOctet (n : ℕ) : List Char :=
  if n < 10 then [Char.ofNat (48 + n)]
  else if n < 100 then [Char.ofNat (48 + n / 10), Char.ofNat (48 + n % 10)]
  else [Char.ofNat (48 + n / 100), Char.ofNat (48 + n / 10 % 10), Char.ofNat (48 + n % 10)]

/-- Spec-side definition: the dotted-quad IPv4 string representation of
four octets. -/
def renderIPv4 (a b c d : ℕ) : List Char :=
  renderOctet a ++ '.' :: (renderOctet b ++ '.' :: (renderOctet c ++ '.' :: renderOctet d))

theorem digitChar_facts : ∀ x, x < 10 →
    (('0' ≤ Char.ofNat (48 + x) ∧ Char.ofNat (48 + x) ≤ '9') ∧
     (Char.ofNat (48 + x)).toNat = 48 + x ∧
     ¬(Char.ofNat (48 + x) = '.' ∨ Char.ofNat (48 + x) = ':' ∨
       Char.ofNat (48 + x) = '%')) := by decide

theorem parseIPv4Fields_digit (d : ℕ) (hd : d < 10) (rest : List Char)
    (val digLen pos : ℕ) (fields : List ℕ) (hnz : ¬(digLen = 1 ∧ val = 0))
    (hle : val * 10 + d ≤ 255) :
    parseIPv4Fields (Char.ofNat (48 + d) :: rest) val digLen pos fields =
      parseIPv4Fields rest (val * 10 + d) (digLen + 1) pos fields := by
  obtain ⟨h1, h2, -⟩ := digitChar_facts d hd
  conv_lhs => unfold parseIPv4Fields
  rw [if_pos h1, if_neg hnz, h2,
    show 48 + d - 48 = d from by omega, if_neg (by omega)]

theorem parseIPv4Fields_dot (rest : List Char) (val digLen pos : ℕ)
    (fields : List ℕ) (hdl : digLen ≠ 0) (hrest : rest ≠ []) (hpos : pos ≠ 3) :
    parseIPv4Fields ('.' :: rest) val digLen pos fields =
      parseIPv4Fields rest 0 0 (pos + 1) (fields ++ [val]) := by
  conv_lhs => unfold parseIPv4Fields
  rw [if_neg (by decide : ¬('0' ≤ '.' ∧ '.' ≤ '9')),
    if_pos rfl, if_neg hdl, if_neg hrest, if_neg hpos]

theorem parseIPv4Fields_nil (val digLen pos : ℕ) (fields : List ℕ)
    (hpos : ¬pos < 3) :
    parseIPv4Fields [] val digLen pos fields = some (fields ++ [val]) := by
  unfold parseIPv4Fields
  rw [if_neg hpos]

theorem renderOctet_ne_nil (n : ℕ) : renderOctet n ≠ [] := by
  unfold renderOctet
  by_cases h1 : n < 10
  · rw [if_pos h1]; exact fun h => List.noConfusion h
  · rw [if_neg h1]
    by_cases h2 : n < 100
    · rw [if_pos h2]; exact fun h => List.noConfusion h
    · rw [if_neg h2]; exact fun h => List.noConfusion h

theorem renderOctet_append_ne_nil (n : ℕ) (l : List Char) :
    renderOctet n ++ l ≠ [] := by
  intro h
  exact renderOctet_ne_nil n (List.append_eq_nil.mp h).1

/-- Consuming one rendered octet from a fresh octet state leaves the
parser at the octet's value with a nonzero digit count. -/
theorem parseIPv4Fields_renderOctet (n : ℕ) (hn : n ≤ 255) (rest : List Char)
    (pos : ℕ) (fields : List ℕ) :
    ∃ dl, dl ≠ 0 ∧ parseIPv4Fields (renderOctet n ++ rest) 0 0 pos fields =
      parseIPv4Fields rest n dl pos fields := by
  by_cases h1 : n < 10
  · refine ⟨1, one_ne_zero, ?_⟩
    unfold renderOctet
    rw [if_pos h1]
    show parseIPv4Fields (Char.ofNat (48 + n) :: rest) 0 0 pos fields = _
    rw [parseIPv4Fields_digit n h1 rest 0 0 pos fields (by omega) (by omega)]
    norm_num
  · by_cases h2 : n < 100
    · refine ⟨2, two_ne_zero, ?_⟩
      unfold renderOctet
      rw [if_neg h1, if_pos h2]
      show parseIPv4Fields
        (Char.ofNat (48 + n / 10) :: Char.ofNat (48 + n % 10) :: rest)
        0 0 pos fields = _
      rw [parseIPv4Fields_digit (n / 10) (by omega) _ 0 0 pos fields
        (by omega) (by omega)]
      rw [parseIPv4Fields_digit (n % 10) (by omega) rest (0 * 10 + n / 10)
        (0 + 1) pos fields (by omega) (by omega)]
      have e : (0 * 10 + n / 10) * 10 + n % 10 = n := by omega
      rw [e]
    · refine ⟨3, three_ne_zero, ?_⟩
      unfold renderOctet
      rw [if_neg h1, if_neg h2]
      show parseIPv4Fields
        (Char.ofNat (48 + n / 100) :: Char.ofNat (48 + n / 10 % 10) ::
          Char.ofNat (48 + n % 10) :: rest) 0 0 pos fields = _
      rw [parseIPv4Fields_digit (n / 100) (by omega) _ 0 0 pos fields
        (by omega) (by omega)]
      rw [parseIPv4Fields_digit (n / 10 % 10) (by omega) _ (0 * 10 + n / 100)
        (0 + 1) pos fields (by omega) (by omega)]
      rw [parseIPv4Fields_digit (n % 10) (by omega) rest
        ((0 * 10 + n / 100) * 10 + n / 10 % 10) (0 + 1 + 1) pos fields
        (by omega) (by omega)]
      have e : ((0 * 10 + n / 100) * 10 + n / 10 % 10) * 10 + n % 10 = n := by
        omega
      rw [e]

/-- The library field parser accepts every canonical dotted quad. -/
theorem parseIPv4Fields_renderIPv4 (a b c d : ℕ) (ha : a ≤ 255) (hb : b ≤ 255)
    (hc : c ≤ 255) (hd : d ≤ 255) :
    parseIPv4Fields (renderIPv4 a b c d) 0 0 0 [] = some [a, b, c, d] := by
  unfold renderIPv4
  obtain ⟨dl1, hdl1, h1⟩ := parseIPv4Fields_renderOctet a ha
    ('.' :: (renderOctet b ++ '.' :: (renderOctet c ++ '.' :: renderOctet d)))
    0 []
  rw [h1, parseIPv4Fields_dot _ a dl1 0 [] hdl1
    (renderOctet_append_ne_nil b _) (by omega)]
  show parseIPv4Fields
    (renderOctet b ++ '.' :: (renderOctet c ++ '.' :: renderOctet d))
    0 0 1 [a] = _
  obtain ⟨dl2, hdl2, h2⟩ := parseIPv4Fields_renderOctet b hb
    ('.' :: (renderOctet c ++ '.' :: renderOctet d)) 1 [a]
  rw [h2, parseIPv4Fields_dot _ b dl2 1 [a] hdl2
    (renderOctet_append_ne_nil c _) (by omega)]
  show parseIPv4Fields (renderOctet c ++ '.' :: renderOctet d) 0 0 2 [a, b] = _
  obtain ⟨dl3, hdl3, h3⟩ := parseIPv4Fields_renderOctet c hc
    ('.' :: renderOctet d) 2 [a, b]
  rw [h3, parseIPv4Fields_dot _ c dl3 2 [a, b] hdl3
    (renderOctet_ne_nil d) (by omega)]
  show parseIPv4Fields (renderOctet d) 0 0 3 [a, b, c] = _
  obtain ⟨dl4, hdl4, h4⟩ := parseIPv4Fields_renderOctet d hd [] 3 [a, b, c]
  rw [← List.append_nil (renderOctet d), h4,
    parseIPv4Fields_nil d dl4 3 [a, b, c] (by omega)]
  rfl

theorem firstSpecial_cons_digit (x : ℕ) (hx : x < 10) (rest : List Char) :
    firstSpecial (Char.ofNat (48 + x) :: rest) = firstSpecial rest := by
  obtain ⟨-, -, h4⟩ := digitChar_facts x hx
  conv_lhs => unfold firstSpecial
  rw [if_neg h4]

theorem firstSpecial_dot (rest : List Char) :
    firstSpecial ('.' :: rest) = some '.' := by
  unfold firstSpecial
  rw [if_pos (Or.inl rfl)]

theorem firstSpecial_renderOctet (n : ℕ) (hn : n ≤ 255) (rest : List Char) :
    firstSpecial (renderOctet n ++ '.' :: rest) = some '.' := by
  unfold renderOctet
  by_cases h1 : n < 10
  · rw [if_pos h1]
    show firstSpecial (Char.ofNat (48 + n) :: ('.' :: rest)) = some '.'
    rw [firstSpecial_cons_digit n h1, firstSpecial_dot]
  · by_cases h2 : n < 100
    · rw [if_neg h1, if_pos h2]
      show firstSpecial
        (Char.ofNat (48 + n / 10) :: Char.ofNat (48 + n % 10) :: ('.' :: rest)) =
        some '.'
      rw [firstSpecial_cons_digit _ (by omega), firstSpecial_cons_digit _ (by omega),
        firstSpecial_dot]
    · rw [if_neg h1, if_neg h2]
      show firstSpecial
        (Char.ofNat (48 + n / 100) :: Char.ofNat (48 + n / 10 % 10) ::
          Char.ofNat (48 + n % 10) :: ('.' :: rest)) = some '.'
      rw [firstSpecial_cons_digit _ (by omega), firstSpecial_cons_digit _ (by omega),
        firstSpecial_cons_digit _ (by omega), firstSpecial_dot]

theorem To4_v4mapped (a b c d : ℕ) : To4 (v4mapped a b c d) = some [a, b, c, d] := rfl

theorem ParseIP_renderIPv4 (a b c d : ℕ) (ha : a ≤ 255) (hb : b ≤ 255)
    (hc : c ≤ 255) (hd : d ≤ 255) :
    ParseIP (renderIPv4 a b c d) = some (v4mapped a b c d) := by
  unfold ParseIP
  rw [if_pos (show firstSpecial (renderIPv4 a b c d) = some '.' from by
    unfold renderIPv4; exact firstSpecial_renderOctet a ha _)]
  rw [parseIPv4Fields_renderIPv4 a b c d ha hb hc hd]

/-- C9 (amended): ParseIPv4 accepts every canonical dotted-quad IPv4
literal, returning the four octets. -/
theorem c9_parseIPv4_dotted (a b c d : ℕ) (ha : a ≤ 255) (hb : b ≤ 255)
    (hc : c ≤ 255) (hd : d ≤ 255) :
    ParseIPv4 (renderIPv4 a b c d) = some ⟨a, b, c, d⟩ := by
  unfold ParseIPv4
  rw [ParseIP_renderIPv4 a b c d ha hb hc hd]
  rfl

theorem c9_parseIPv4_dotted_witness :
    ((192 : ℕ) ≤ 255 ∧ (168 : ℕ) ≤ 255 ∧ (10 : ℕ) ≤ 255 ∧ (1 : ℕ) ≤ 255) ∧
    ParseIPv4 (renderIPv4 192 168 10 1) = some ⟨192, 168, 10, 1⟩ :=
  ⟨⟨by decide, by decide, by decide, by decide⟩,
   c9_parseIPv4_dotted 192 168 10 1 (by decide) (by decide) (by decide) (by decide)⟩

/-- The v6-mapped string "::ffff:1.2.3.4" as a character list. -/
def c9mapped : List Char :=
  [':', ':', 'f', 'f', 'f', 'f', ':', '1', '.', '2', '.', '3', '.', '4']

/-- C9 counterexample: contrary to the claim, ParseIPv4 does not reject
the v6-mapped representation "::ffff:1.2.3.4" — net.ParseIP parses it to
the 16-byte v4-mapped form and To4 converts it, so ParseIPv4 accepts it
and returns 1.2.3.4. -/
theorem c9_counterexample :
    ParseIPv4 c9mapped = some ⟨1, 2, 3, 4⟩ ∧ ParseIPv4 c9mapped ≠ none := by
  constructor
  · decide
  · decide

end Swnat
